import Mathlib

/-!
# Gateway between a JSON API and an XML legacy peer

Shallow embedding of `crypto.js`, `XMLHandler.js`, `src/middleware/auth.js`,
`src/middleware/routes.js`, `src/legacy/legacySystem.js` and `server.js`.

JavaScript strings are sequences of UTF-16 code units and Buffers are sequences
of bytes; both are lists of natural numbers here.
-/

namespace Gateway

/-! ## Strings and buffers -/

/-- A JavaScript string, as its UTF-16 code units. -/
abbrev JSString := List Nat

/-- The contents of a Node `Buffer`. -/
abbrev Bytes := List Nat

/-- The JavaScript string denoted by a source literal. -/
def js (s : String) : JSString :=
  s.toList.flatMap fun c =>
    if c.toNat < 65536 then [c.toNat]
    else [55296 + (c.toNat - 65536) / 1024, 56320 + (c.toNat - 65536) % 1024]

/-- Every element is a UTF-16 code unit. -/
def IsCodeUnits (s : JSString) : Prop := ∀ u ∈ s, u < 65536

/-- Every element is an octet. -/
def IsBytes (b : Bytes) : Prop := ∀ x ∈ b, x < 256

instance (s : JSString) : Decidable (IsCodeUnits s) := by
  unfold IsCodeUnits; infer_instance

instance (b : Bytes) : Decidable (IsBytes b) := by
  unfold IsBytes; infer_instance

def isHighSurrogate (u : Nat) : Bool := decide (55296 ≤ u ∧ u ≤ 56319)

def isLowSurrogate (u : Nat) : Bool := decide (56320 ≤ u ∧ u ≤ 57343)

def isSurrogate (u : Nat) : Bool := decide (55296 ≤ u ∧ u ≤ 57343)

/-- `String.prototype.isWellFormed`, for a list of code units: every surrogate
belongs to a high/low pair. -/
def isWellFormed : JSString → Bool
  | [] => true
  | [u] => decide (u < 65536) && !isSurrogate u
  | u :: v :: rest =>
    decide (u < 65536) &&
      (if isHighSurrogate u then isLowSurrogate v && isWellFormed rest
       else !isLowSurrogate u && isWellFormed (v :: rest))

/-- A string of code units without unpaired surrogates. -/
def WellFormed (s : JSString) : Prop := isWellFormed s = true

instance (s : JSString) : Decidable (WellFormed s) := by
  unfold WellFormed; infer_instance

/-- `String.prototype.split(sep)` for a one-unit separator. -/
def split (sep : Nat) : JSString → List JSString
  | [] => [[]]
  | c :: rest =>
    if c = sep then [] :: split sep rest
    else
      match split sep rest with
      | [] => [[c]]
      | part :: parts => (c :: part) :: parts

/-- `String.prototype.padEnd(n, fill)` for a one-unit fill string. -/
def padEnd (s : JSString) (n : Nat) (fill : Nat) : JSString :=
  s ++ List.replicate (n - s.length) fill

/-- `String.prototype.substring(0, n)`. -/
def substring0 (s : JSString) (n : Nat) : JSString := s.take n

/-! ## UTF-8 and hexadecimal codecs of `Buffer` -/

/-- UTF-8 bytes of one code point. -/
def utf8EncodeCodePoint (cp : Nat) : Bytes :=
  if cp < 128 then [cp]
  else if cp < 2048 then [192 + cp / 64, 128 + cp % 64]
  else if cp < 65536 then [224 + cp / 4096, 128 + cp / 64 % 64, 128 + cp % 64]
  else [240 + cp / 262144, 128 + cp / 4096 % 64, 128 + cp / 64 % 64, 128 + cp % 64]

/-- UTF-8 bytes of one code unit that is not part of a pair: an unpaired
surrogate is written as U+FFFD (`EF BF BD`). -/
def utf8EncodeUnit (u : Nat) : Bytes :=
  if isSurrogate u then [239, 191, 189] else utf8EncodeCodePoint u

/-- Encoding a string with the `'utf8'` encoding: a surrogate pair becomes one
four-byte sequence. -/
def utf8Encode : JSString → Bytes
  | [] => []
  | [u] => utf8EncodeUnit u
  | u :: v :: rest =>
    if isHighSurrogate u ∧ isLowSurrogate v then
      utf8EncodeCodePoint (65536 + (u - 55296) * 1024 + (v - 56320)) ++ utf8Encode rest
    else utf8EncodeUnit u ++ utf8Encode (v :: rest)

def isContinuation (b : Nat) : Bool := decide (128 ≤ b ∧ b ≤ 191)

/-- UTF-16 code units of one code point. -/
def codePointUnits (cp : Nat) : JSString :=
  if cp < 65536 then [cp]
  else [55296 + (cp - 65536) / 1024, 56320 + (cp - 65536) % 1024]

/-- State of the streaming UTF-8 decoder: the code point under construction,
the continuation bytes still expected and the range allowed for the next. -/
structure Utf8State where
  codePoint : Nat
  needed : Nat
  lower : Nat
  upper : Nat

def Utf8State.initial : Utf8State := ⟨0, 0, 128, 191⟩

/-- One byte read while no sequence is open. -/
def utf8Start (b : Nat) : JSString × Utf8State :=
  if b < 128 then ([b], Utf8State.initial)
  else if 194 ≤ b ∧ b ≤ 223 then ([], ⟨b - 192, 1, 128, 191⟩)
  else if 224 ≤ b ∧ b ≤ 239 then
    ([], ⟨b - 224, 2, if b = 224 then 160 else 128, if b = 237 then 159 else 191⟩)
  else if 240 ≤ b ∧ b ≤ 244 then
    ([], ⟨b - 240, 3, if b = 240 then 144 else 128, if b = 244 then 143 else 191⟩)
  else ([65533], Utf8State.initial)

/-- One byte read by the decoder: the code units emitted and the next state.
A byte that cannot continue the open sequence closes it with U+FFFD and is
read again as the start of a sequence. -/
def utf8Step (st : Utf8State) (b : Nat) : JSString × Utf8State :=
  if st.needed = 0 then utf8Start b
  else if b < st.lower ∨ st.upper < b then
    (65533 :: (utf8Start b).1, (utf8Start b).2)
  else if st.needed = 1 then
    (codePointUnits (st.codePoint * 64 + (b - 128)), Utf8State.initial)
  else ([], ⟨st.codePoint * 64 + (b - 128), st.needed - 1, 128, 191⟩)

def utf8DecodeFrom (st : Utf8State) : Bytes → JSString
  | [] => if st.needed = 0 then [] else [65533]
  | b :: rest => (utf8Step st b).1 ++ utf8DecodeFrom (utf8Step st b).2 rest

/-- Decoding bytes with the `'utf8'` encoding.  Never fails: an ill-formed
sequence is replaced by U+FFFD. -/
def utf8Decode (bytes : Bytes) : JSString := utf8DecodeFrom Utf8State.initial bytes

/-- Lower-case hexadecimal digit of a nibble. -/
def hexDigit (n : Nat) : Nat := if n < 10 then 48 + n else 87 + n

/-- `buffer.toString('hex')`. -/
def hexEncode : Bytes → JSString
  | [] => []
  | b :: rest => hexDigit (b / 16) :: hexDigit (b % 16) :: hexEncode rest

/-- Value of a hexadecimal digit, in either case. -/
def unhex (c : Nat) : Option Nat :=
  if 48 ≤ c ∧ c ≤ 57 then some (c - 48)
  else if 97 ≤ c ∧ c ≤ 102 then some (c - 87)
  else if 65 ≤ c ∧ c ≤ 70 then some (c - 55)
  else none

/-- Decoding with the `'hex'` encoding: pairs of digits are consumed from the
left and decoding stops, without error, at the first pair that is not two
hexadecimal digits; a trailing single character is ignored. -/
def hexDecode : JSString → Bytes
  | a :: b :: rest =>
    match unhex a, unhex b with
    | some x, some y => (x * 16 + y) :: hexDecode rest
    | _, _ => []
  | _ => []

deriving instance DecidableEq for Except

/-! ## `crypto.js` -/

/-- The block primitive behind `aes-256-cbc`, which this repository takes from
Node's `crypto` module: a keyed permutation of 16-byte blocks. -/
structure BlockCipher where
  encryptBlock : Bytes → Bytes → Bytes
  decryptBlock : Bytes → Bytes → Bytes
  encryptBlock_length : ∀ key block, (encryptBlock key block).length = 16
  encryptBlock_bytes : ∀ key block, IsBytes (encryptBlock key block)
  decryptBlock_length : ∀ key block, (decryptBlock key block).length = 16
  decryptBlock_bytes : ∀ key block, IsBytes (decryptBlock key block)
  decrypt_encrypt : ∀ key block, key.length = 32 → IsBytes key → block.length = 16 →
    IsBytes block → decryptBlock key (encryptBlock key block) = block

def xorBytes (a b : Bytes) : Bytes := List.zipWith Nat.xor a b

/-- CBC encryption of `n` blocks of `data`, chained from `prev`. -/
def cbcEncrypt (C : BlockCipher) (key : Bytes) : Nat → Bytes → Bytes → Bytes
  | 0, _, _ => []
  | n + 1, prev, data =>
    C.encryptBlock key (xorBytes (data.take 16) prev) ++
      cbcEncrypt C key n (C.encryptBlock key (xorBytes (data.take 16) prev)) (data.drop 16)

/-- CBC decryption of `n` blocks of `data`, chained from `prev`. -/
def cbcDecrypt (C : BlockCipher) (key : Bytes) : Nat → Bytes → Bytes → Bytes
  | 0, _, _ => []
  | n + 1, prev, data =>
    xorBytes (C.decryptBlock key (data.take 16)) prev ++
      cbcDecrypt C key n (data.take 16) (data.drop 16)

/-- The padding `cipher.final` appends: 1 to 16 bytes, each equal to their number. -/
def pkcs7Pad (data : Bytes) : Bytes :=
  data ++ List.replicate (16 - data.length % 16) (16 - data.length % 16)

/-- The padding check of `decipher.final`. -/
def pkcs7Unpad (data : Bytes) : Option Bytes :=
  match data.getLast? with
  | none => none
  | some n =>
    if n = 0 ∨ 16 < n then none
    else if (data.drop (data.length - n)).all (fun x => decide (x = n)) then
      some (data.take (data.length - n))
    else none

def ALGORITHM : JSString := js "aes-256-cbc"

def DEFAULT_ENCRYPTION_KEY : JSString := js "chave-padrao-32-caracteres!!"

/-- `process.env.ENCRYPTION_KEY || 'chave-padrao-32-caracteres!!'`. -/
def ENCRYPTION_KEY (env : Option JSString) : JSString :=
  match env with
  | some s => if s = [] then DEFAULT_ENCRYPTION_KEY else s
  | none => DEFAULT_ENCRYPTION_KEY

/-- `Buffer.from(ENCRYPTION_KEY.padEnd(32, '0').substring(0, 32))`. -/
def KEY_BUFFER (env : Option JSString) : Bytes :=
  utf8Encode (substring0 (padEnd (ENCRYPTION_KEY env) 32 48) 32)

/-- `crypto.createCipheriv` and `crypto.createDecipheriv` for `aes-256-cbc`:
they throw unless the key has 32 bytes and the IV has 16. -/
def createCipheriv (key iv : Bytes) : Except JSString Unit :=
  if key.length ≠ 32 then .error (js "Invalid key length")
  else if iv.length ≠ 16 then .error (js "Invalid initialization vector")
  else .ok ()

/-- The body of the `try` block of `encrypt`; `iv` is the value drawn by
`crypto.randomBytes(16)`. -/
def encryptTry (C : BlockCipher) (key iv : Bytes) (text : JSString) :
    Except JSString JSString :=
  match createCipheriv key iv with
  | .error e => .error e
  | .ok _ =>
    .ok (hexEncode iv ++ js ":" ++
      hexEncode (cbcEncrypt C key ((pkcs7Pad (utf8Encode text)).length / 16) iv
        (pkcs7Pad (utf8Encode text))))

/-- `encrypt(text)`. -/
def encrypt (C : BlockCipher) (key iv : Bytes) (text : JSString) : Except JSString JSString :=
  match encryptTry C key iv text with
  | .ok v => .ok v
  | .error _ => .error (js "Falha na criptografia")

/-- The body of the `try` block of `decrypt`.  `parts[1]` is `undefined` when
the text has no colon, and `decipher.update` then throws; it also throws on a
hexadecimal string of odd length. -/
def decryptTry (C : BlockCipher) (key : Bytes) (encryptedText : JSString) :
    Except JSString JSString :=
  let parts := split 58 encryptedText
  let iv := hexDecode (parts.headD [])
  match createCipheriv key iv with
  | .error e => .error e
  | .ok _ =>
    match parts.tail.head? with
    | none => .error (js "The \"data\" argument must be of type string")
    | some encrypted =>
      if encrypted.length % 2 ≠ 0 then .error (js "The argument 'encoding' is invalid")
      else
        let data := hexDecode encrypted
        if data.length = 0 ∨ data.length % 16 ≠ 0 then .error (js "wrong final block length")
        else
          match pkcs7Unpad (cbcDecrypt C key (data.length / 16) iv data) with
          | none => .error (js "bad decrypt")
          | some plain => .ok (utf8Decode plain)

/-- `decrypt(encryptedText)`. -/
def decrypt (C : BlockCipher) (key : Bytes) (encryptedText : JSString) :
    Except JSString JSString :=
  match decryptTry C key encryptedText with
  | .ok v => .ok v
  | .error _ => .error (js "Falha na descriptografia")

/-- A small block cipher, used to run the definitions on concrete inputs. -/
def shiftCipher : BlockCipher where
  encryptBlock key block :=
    ((block ++ List.replicate 16 0).take 16).map fun x => (x + key.sum % 256 + 1) % 256
  decryptBlock key block :=
    ((block ++ List.replicate 16 0).take 16).map fun x => (x % 256 + 255 - key.sum % 256) % 256
  encryptBlock_length := by intro key block; simp
  encryptBlock_bytes := by
    intro key block x hx
    simp only [List.mem_map] at hx
    obtain ⟨y, _, rfl⟩ := hx
    omega
  decryptBlock_length := by intro key block; simp
  decryptBlock_bytes := by
    intro key block x hx
    simp only [List.mem_map] at hx
    obtain ⟨y, _, rfl⟩ := hx
    omega
  decrypt_encrypt := by
    intro key block _ _ hlen hb
    have h1 : ∀ l : Bytes, l.length = 16 → (l ++ List.replicate 16 0).take 16 = l := by
      intro l hl
      rw [List.take_append_of_le_length (by omega), List.take_of_length_le (by omega)]
    beta_reduce
    rw [h1 block hlen, h1 _ (by simp [hlen]), List.map_map]
    conv => rhs; rw [← List.map_id block]
    apply List.map_congr_left
    intro x hx
    have := hb x hx
    simp only [Function.comp, id]
    omega

example : utf8Decode (utf8Encode (js "Ana ção 😀")) = js "Ana ção 😀" := by decide
example : utf8Decode [224, 160, 65, 128, 240, 159] = [65533, 65, 65533, 65533] := by decide
example : utf8Encode [55296] = [239, 191, 189] := by decide
example : hexDecode (js "0aFfzz12") = [10, 255] := by decide
example : hexEncode [10, 255] = js "0aff" := by decide
example : split 58 (js "ab:cd:") = [js "ab", js "cd", []] := by decide

/-- Valid hexadecimal in the sense of the specification: an even number of
characters, each a hexadecimal digit. -/
def IsHex (s : JSString) : Prop := s.length % 2 = 0 ∧ ∀ c ∈ s, (unhex c).isSome = true

instance (s : JSString) : Decidable (IsHex s) := by
  unfold IsHex; infer_instance

/-! ## JavaScript values -/

/-- The JavaScript values that occur in the two programs.  `undefined` stands for
both `undefined` and `null`, which the programs never tell apart. -/
inductive JSValue where
  | undefined
  | bool (b : Bool)
  | str (s : JSString)
  | obj (fields : List (JSString × JSValue))
  | arr (items : List JSValue)

/-- A thrown `Error`: its message and, for transport errors, its `code`. -/
structure JSError where
  message : JSString
  code : Option JSString

/-- An `Error` thrown with a message only. -/
def JSError.ofMessage (m : JSString) : JSError := ⟨m, none⟩

/-- Own property `k` of an object literal. -/
def lookupField (k : JSString) : List (JSString × JSValue) → Option JSValue
  | [] => none
  | (k2, v) :: rest => if k2 = k then some v else lookupField k rest

/-- Assignment `o[k] = v`: an existing key keeps its place. -/
def setField (k : JSString) (v : JSValue) : List (JSString × JSValue) → List (JSString × JSValue)
  | [] => [(k, v)]
  | (k2, v2) :: rest => if k2 = k then (k, v) :: rest else (k2, v2) :: setField k v rest

/-- Truthiness, as tested by `!x` and `x ? a : b`. -/
def JSValue.truthy : JSValue → Bool
  | .undefined => false
  | .bool b => b
  | .str s => !s.isEmpty
  | .obj _ => true
  | .arr _ => true

def typeErrorReading (k : JSString) : JSError :=
  JSError.ofMessage (js "Cannot read properties of undefined (reading '" ++ k ++ js "')")

/-- The property read `v.k` for the property names used by the programs, none
of which is a member of a prototype: it throws on `undefined` and `null`, and
strings, booleans and arrays have no such property. -/
def JSValue.get (v : JSValue) (k : JSString) : Except JSError JSValue :=
  match v with
  | .undefined => .error (typeErrorReading k)
  | .obj fields => .ok ((lookupField k fields).getD .undefined)
  | _ => .ok .undefined

/-- The indexed read `v[0]`. -/
def JSValue.at0 (v : JSValue) : Except JSError JSValue :=
  match v with
  | .undefined => .error (typeErrorReading (js "0"))
  | .arr items => .ok (items.head?.getD .undefined)
  | .str s => .ok (match s with | [] => .undefined | c :: _ => .str [c])
  | .obj fields => .ok ((lookupField (js "0") fields).getD .undefined)
  | .bool _ => .ok .undefined

/-- The string a value is converted to by a template literal or when used as
a property key. -/
def JSValue.toJSString : JSValue → JSString
  | .undefined => js "undefined"
  | .bool b => if b then js "true" else js "false"
  | .str s => s
  | .obj _ => js "[object Object]"
  | .arr items => joinItems items
where
  joinItems : List JSValue → JSString
    | [] => []
    | [v] => v.toJSString
    | v :: w :: rest => v.toJSString ++ js "," ++ joinItems (w :: rest)

/-! ## Regular expressions -/

/-- Regular expressions over code units. -/
inductive Regex where
  | nothing
  | empty
  | cls (p : Nat → Bool)
  | seq (a b : Regex)
  | alt (a b : Regex)
  | star (a : Regex)

namespace Regex

/-- `a+`. -/
def plus (a : Regex) : Regex := seq a (star a)

/-- `a{n}`. -/
def times (a : Regex) : Nat → Regex
  | 0 => empty
  | n + 1 => seq a (times a n)

def nullable : Regex → Bool
  | nothing => false
  | empty => true
  | cls _ => false
  | seq a b => nullable a && nullable b
  | alt a b => nullable a || nullable b
  | star _ => true

/-- Brzozowski derivative. -/
def deriv (c : Nat) : Regex → Regex
  | nothing => nothing
  | empty => nothing
  | cls p => if p c then empty else nothing
  | seq a b => if nullable a then alt (seq (deriv c a) b) (deriv c b) else seq (deriv c a) b
  | alt a b => alt (deriv c a) (deriv c b)
  | star a => seq (deriv c a) (star a)

/-- `/^r$/.test(s)`. -/
def test (r : Regex) : JSString → Bool
  | [] => nullable r
  | c :: rest => test (deriv c r) rest

/-- The strings a regular expression denotes. -/
inductive Lang : Regex → JSString → Prop where
  | empty : Lang empty []
  | cls (p : Nat → Bool) (c : Nat) : p c = true → Lang (cls p) [c]
  | seq (a b : Regex) (s t : JSString) : Lang a s → Lang b t → Lang (seq a b) (s ++ t)
  | altLeft (a b : Regex) (s : JSString) : Lang a s → Lang (alt a b) s
  | altRight (a b : Regex) (s : JSString) : Lang b s → Lang (alt a b) s
  | starNil (a : Regex) : Lang (star a) []
  | starCons (a : Regex) (s t : JSString) : Lang a s → Lang (star a) t → Lang (star a) (s ++ t)

/-- Every character class of the expression lies inside `P`. -/
def Within (P : Nat → Prop) : Regex → Prop
  | nothing => True
  | empty => True
  | cls p => ∀ c, p c = true → P c
  | seq a b => Within P a ∧ Within P b
  | alt a b => Within P a ∧ Within P b
  | star a => Within P a

end Regex

/-- `\d`. -/
def isDigit (c : Nat) : Bool := decide (48 ≤ c ∧ c ≤ 57)

/-- `\s`. -/
def isSpace (c : Nat) : Bool :=
  decide (c = 9 ∨ c = 10 ∨ c = 11 ∨ c = 12 ∨ c = 13 ∨ c = 32 ∨ c = 160 ∨ c = 5760 ∨
    (8192 ≤ c ∧ c ≤ 8202) ∨ c = 8232 ∨ c = 8233 ∨ c = 8239 ∨ c = 8287 ∨ c = 12288 ∨ c = 65279)

/-- `[0-9a-f]` under the `i` flag. -/
def isHexDigitI (c : Nat) : Bool :=
  decide ((48 ≤ c ∧ c ≤ 57) ∨ (97 ≤ c ∧ c ≤ 102) ∨ (65 ≤ c ∧ c ≤ 70))

/-- `/^\d{11}$/`. -/
def cpfRegex : Regex := Regex.times (.cls isDigit) 11

/-- `[^\s@]`. -/
def isEmailChar (c : Nat) : Bool := !isSpace c && !decide (c = 64)

/-- `/^[^\s@]+@[^\s@]+\.[^\s@]+$/`. -/
def emailRegex : Regex :=
  .seq (Regex.plus (.cls isEmailChar))
    (.seq (.cls fun c => decide (c = 64))
      (.seq (Regex.plus (.cls isEmailChar))
        (.seq (.cls fun c => decide (c = 46)) (Regex.plus (.cls isEmailChar)))))

/-- `/^[0-9a-f]{8}-[0-9a-f]{4}-4[0-9a-f]{3}-[89ab][0-9a-f]{3}-[0-9a-f]{12}$/i`. -/
def uuidRegex : Regex :=
  .seq (Regex.times (.cls isHexDigitI) 8)
    (.seq (.cls fun c => decide (c = 45))
      (.seq (Regex.times (.cls isHexDigitI) 4)
        (.seq (.cls fun c => decide (c = 45))
          (.seq (.cls fun c => decide (c = 52))
            (.seq (Regex.times (.cls isHexDigitI) 3)
              (.seq (.cls fun c => decide (c = 45))
                (.seq (.cls fun c => decide (c = 56 ∨ c = 57 ∨ c = 97 ∨ c = 98 ∨ c = 65 ∨ c = 66))
                  (.seq (Regex.times (.cls isHexDigitI) 3)
                    (.seq (.cls fun c => decide (c = 45))
                      (Regex.times (.cls isHexDigitI) 12))))))))))

/-- Characters that need no escaping and that every XML document may hold:
printable ASCII other than `&`, `<` and `>`. -/
def IsPlain (c : Nat) : Prop := 32 ≤ c ∧ c ≤ 126 ∧ c ≠ 38 ∧ c ≠ 60 ∧ c ≠ 62

instance (c : Nat) : Decidable (IsPlain c) := by
  unfold IsPlain; infer_instance

/-- The format of `new Date().toISOString()` for the years 0 to 9999:
`/^\d{4}-\d{2}-\d{2}T\d{2}:\d{2}:\d{2}\.\d{3}Z$/`. -/
def isoRegex : Regex :=
  .seq (Regex.times (.cls isDigit) 4)
    (.seq (.cls fun c => decide (c = 45))
      (.seq (Regex.times (.cls isDigit) 2)
        (.seq (.cls fun c => decide (c = 45))
          (.seq (Regex.times (.cls isDigit) 2)
            (.seq (.cls fun c => decide (c = 84))
              (.seq (Regex.times (.cls isDigit) 2)
                (.seq (.cls fun c => decide (c = 58))
                  (.seq (Regex.times (.cls isDigit) 2)
                    (.seq (.cls fun c => decide (c = 58))
                      (.seq (Regex.times (.cls isDigit) 2)
                        (.seq (.cls fun c => decide (c = 46))
                          (.seq (Regex.times (.cls isDigit) 3)
                            (.cls fun c => decide (c = 90))))))))))))))

/-! ## `src/middleware/auth.js` -/

/-- An HTTP response sent with `res.status(n).json(body)`. -/
structure Response where
  status : Nat
  body : JSValue

def DEFAULT_API_KEY : JSString := js "minha-api-key-segura-123"

/-- `process.env.API_KEY || 'minha-api-key-segura-123'`. -/
def API_KEY (env : Option JSString) : JSString :=
  match env with
  | some s => if s = [] then DEFAULT_API_KEY else s
  | none => DEFAULT_API_KEY

/-- What a middleware does with a request: answer it, or call `next()`. -/
inductive Middleware where
  | respond (r : Response)
  | next

/-- `authenticateAPIKey(req, res, next)`, where `authHeader` is
`req.headers['authorization']` (`none` when the header is absent). -/
def authenticateAPIKey (apiKey : JSString) (authHeader : Option JSString) : Middleware :=
  match authHeader with
  | none =>
    .respond ⟨401, .obj [(js "success", .bool false),
      (js "message", .str (js "Autenticação necessária. Forneça o header Authorization."))]⟩
  | some header =>
    if header = [] then
      .respond ⟨401, .obj [(js "success", .bool false),
        (js "message", .str (js "Autenticação necessária. Forneça o header Authorization."))]⟩
    else
      match split 32 header with
      | [scheme, token] =>
        if scheme ≠ js "Bearer" then
          .respond ⟨401, .obj [(js "success", .bool false),
            (js "message", .str (js "Formato de autenticação inválido. Use: Bearer \x7bAPI_KEY\x7d"))]⟩
        else if token ≠ apiKey then
          .respond ⟨403, .obj [(js "success", .bool false),
            (js "message", .str (js "API Key inválida"))]⟩
        else .next
      | _ =>
        .respond ⟨401, .obj [(js "success", .bool false),
          (js "message", .str (js "Formato de autenticação inválido. Use: Bearer \x7bAPI_KEY\x7d"))]⟩

/-! ## `jsonToXml`: the `xml2js` Builder

`jsonToXml` hands its argument to `new xml2js.Builder(...).buildObject`, which
builds a document tree with `xmlbuilder` and writes it with two-space
indentation.  The library is modelled for the values the two programs pass
to it: objects, arrays and strings whose keys are XML names. -/

/-- A node of the document tree; the value of a text node is already escaped. -/
inductive XNode where
  | element (name : JSString) (children : List XNode)
  | text (value : JSString)

/-- `NameStartChar` of XML 1.0, within the Basic Multilingual Plane. -/
def isNameStartChar (c : Nat) : Bool :=
  decide (c = 58 ∨ (65 ≤ c ∧ c ≤ 90) ∨ c = 95 ∨ (97 ≤ c ∧ c ≤ 122) ∨ (192 ≤ c ∧ c ≤ 214) ∨
    (216 ≤ c ∧ c ≤ 246) ∨ (248 ≤ c ∧ c ≤ 767) ∨ (880 ≤ c ∧ c ≤ 893) ∨ (895 ≤ c ∧ c ≤ 8191) ∨
    (8204 ≤ c ∧ c ≤ 8205) ∨ (8304 ≤ c ∧ c ≤ 8591) ∨ (11264 ≤ c ∧ c ≤ 12271) ∨
    (12289 ≤ c ∧ c ≤ 55295) ∨ (63744 ≤ c ∧ c ≤ 64975) ∨ (65008 ≤ c ∧ c ≤ 65533))

/-- `NameChar` of XML 1.0, within the Basic Multilingual Plane. -/
def isNameChar (c : Nat) : Bool :=
  isNameStartChar c || decide (c = 45 ∨ c = 46 ∨ (48 ≤ c ∧ c ≤ 57) ∨ c = 183 ∨
    (768 ≤ c ∧ c ≤ 879) ∨ (8255 ≤ c ∧ c ≤ 8256))

def isXmlName : JSString → Bool
  | [] => false
  | c :: rest => isNameStartChar c && rest.all isNameChar

/-- Code units that XML 1.0 forbids in character data. -/
def isIllegalUnit (c : Nat) : Bool :=
  decide (c ≤ 8 ∨ c = 11 ∨ c = 12 ∨ (14 ≤ c ∧ c ≤ 31) ∨ c = 65534 ∨ c = 65535)

/-- Text that `xmlbuilder` accepts: no forbidden code unit and no unpaired
surrogate. -/
def LegalText (s : JSString) : Prop := WellFormed s ∧ ∀ c ∈ s, isIllegalUnit c = false

instance (s : JSString) : Decidable (LegalText s) := by
  unfold LegalText; infer_instance

/-- Escaping of character data: `&`, `<`, `>` and carriage return. -/
def textEscape : JSString → JSString
  | [] => []
  | c :: rest =>
    (if c = 38 then [38, 97, 109, 112, 59]
     else if c = 60 then [38, 108, 116, 59]
     else if c = 62 then [38, 103, 116, 59]
     else if c = 13 then [38, 35, 120, 68, 59]
     else [c]) ++ textEscape rest

/-- Creation of a text node: the text is escaped, then checked. -/
def makeText (s : JSString) : Except JSError XNode :=
  if LegalText (textEscape s) then .ok (.text (textEscape s))
  else .error (JSError.ofMessage (js "Invalid character in string"))

/-- Creation of an element: the name is checked. -/
def makeElement (name : JSString) (children : List XNode) : Except JSError XNode :=
  if isXmlName name then .ok (.element name children)
  else .error (JSError.ofMessage (js "Invalid character in name"))

/-- An element with one text child, as made by `element.ele(key, text)`. -/
def makeTextElement (name : JSString) (s : JSString) : Except JSError XNode :=
  match makeText s with
  | .error e => .error e
  | .ok t => makeElement name [t]

/-- The key `$`: attributes, which only an object with keys would supply. -/
def renderAttributes : JSValue → Except JSError (List XNode)
  | .obj (_ :: _) => .error (JSError.ofMessage (js "attributes are not modelled"))
  | .arr (_ :: _) => .error (JSError.ofMessage (js "Invalid character in name"))
  | _ => .ok []

/-- The key `_`: character data of the element itself. -/
def renderCharData : JSValue → Except JSError (List XNode)
  | .undefined => .error (JSError.ofMessage (js "Missing element text"))
  | v =>
    match makeText v.toJSString with
    | .error e => .error e
    | .ok t => .ok [t]

mutual

/-- The `render` function of `buildObject`: the children that a value
contributes to the element it is rendered into. -/
def render : JSValue → Except JSError (List XNode)
  | .undefined => .ok []
  | .bool b =>
    match makeText (JSValue.toJSString (.bool b)) with
    | .error e => .error e
    | .ok t => .ok [t]
  | .str s =>
    match makeText s with
    | .error e => .error e
    | .ok t => .ok [t]
  | .obj fields => renderFields fields
  | .arr items => renderItems items

/-- The loop over the own keys of an object. -/
def renderFields : List (JSString × JSValue) → Except JSError (List XNode)
  | [] => .ok []
  | (key, child) :: rest =>
    match (if key = [36] then renderAttributes child
      else if key = [95] then renderCharData child
      else renderField key child) with
    | .error e => .error e
    | .ok here =>
      match renderFields rest with
      | .error e => .error e
      | .ok more => .ok (here ++ more)

/-- One key of an object: one element per entry of an array, one element
otherwise. -/
def renderField (key : JSString) : JSValue → Except JSError (List XNode)
  | .obj fields =>
    match renderFields fields with
    | .error e => .error e
    | .ok children =>
      match makeElement key children with
      | .error e => .error e
      | .ok el => .ok [el]
  | .arr entries => renderEntries key entries
  | .str s =>
    match makeTextElement key s with
    | .error e => .error e
    | .ok el => .ok [el]
  | .bool b =>
    match makeTextElement key (JSValue.toJSString (.bool b)) with
    | .error e => .error e
    | .ok el => .ok [el]
  | .undefined =>
    match makeTextElement key [] with
    | .error e => .error e
    | .ok el => .ok [el]

/-- The entries of an array stored under `key`: one element named `key` each. -/
def renderEntries (key : JSString) : List JSValue → Except JSError (List XNode)
  | [] => .ok []
  | entry :: rest =>
    match renderEntry key entry with
    | .error e => .error e
    | .ok here =>
      match renderEntries key rest with
      | .error e => .error e
      | .ok more => .ok (here :: more)

def renderEntry (key : JSString) : JSValue → Except JSError XNode
  | .str s => makeTextElement key s
  | .undefined => makeElement key []
  | .bool b =>
    match makeText (JSValue.toJSString (.bool b)) with
    | .error e => .error e
    | .ok t => makeElement key [t]
  | .obj fields =>
    match renderFields fields with
    | .error e => .error e
    | .ok children => makeElement key children
  | .arr items =>
    match renderItems items with
    | .error e => .error e
    | .ok children => makeElement key children

/-- An array rendered into an element: the keys of each of its objects become
elements.  The indices of a string or of an array are not XML names. -/
def renderItems : List JSValue → Except JSError (List XNode)
  | [] => .ok []
  | item :: rest =>
    match renderItem item with
    | .error e => .error e
    | .ok here =>
      match renderItems rest with
      | .error e => .error e
      | .ok more => .ok (here ++ more)

def renderItem : JSValue → Except JSError (List XNode)
  | .obj fields => renderItemFields fields
  | .str s =>
    if s.isEmpty then .ok [] else .error (JSError.ofMessage (js "Invalid character in name"))
  | .arr items =>
    if items.isEmpty then .ok [] else .error (JSError.ofMessage (js "Invalid character in name"))
  | _ => .ok []

def renderItemFields : List (JSString × JSValue) → Except JSError (List XNode)
  | [] => .ok []
  | (key, entry) :: rest =>
    match renderEntry key entry with
    | .error e => .error e
    | .ok here =>
      match renderItemFields rest with
      | .error e => .error e
      | .ok more => .ok (here :: more)

end

/-- Indentation of the pretty writer: two spaces per level. -/
def indent (level : Nat) : JSString := List.replicate (2 * level) 32

def isEmptyText : XNode → Bool
  | .text v => v.isEmpty
  | .element _ _ => false

mutual

/-- The pretty writer: each node on its own line, except that an element whose
only child is a text node is written on one line, and an element without
content is written `<name/>`. -/
def writeNode (level : Nat) : XNode → JSString
  | .text v => indent level ++ v ++ [10]
  | .element name children =>
    if children.all isEmptyText then indent level ++ 60 :: name ++ [47, 62, 10]
    else
      match children with
      | [.text v] => indent level ++ 60 :: name ++ 62 :: v ++ 60 :: 47 :: name ++ [62, 10]
      | _ =>
        indent level ++ 60 :: name ++ 62 :: 10 :: writeNodes (level + 1) children ++
          indent level ++ 60 :: 47 :: name ++ [62, 10]

def writeNodes (level : Nat) : List XNode → JSString
  | [] => []
  | node :: rest => writeNode level node ++ writeNodes level rest

end

/-- The declaration written for `xmldec: { version: '1.0', encoding: 'UTF-8' }`. -/
def xmlDeclaration : JSString := js "<?xml version=\"1.0\" encoding=\"UTF-8\"?>"

/-- The document: declaration, root element, and no newline at the end. -/
def writeDocument (root : XNode) : JSString :=
  (xmlDeclaration ++ 10 :: writeNode 0 root).dropLast

/-- `builder.buildObject(rootObj)`: an object with a single key names the
root element; otherwise the root is called `root`. -/
def buildObject (rootObj : JSValue) : Except JSError JSString :=
  match rootObj with
  | .obj [(rootName, value)] =>
    match render value with
    | .error e => .error e
    | .ok children =>
      match makeElement rootName children with
      | .error e => .error e
      | .ok root => .ok (writeDocument root)
  | other =>
    match render other with
    | .error e => .error e
    | .ok children => .ok (writeDocument (.element (js "root") children))

/-- `jsonToXml(obj)`. -/
def jsonToXml (obj : JSValue) : Except JSError JSString := buildObject obj

/-! ## `xmlToJson`: the `xml2js` Parser

The parser reads the text with `sax` in strict mode and assembles the events
into objects.  The model covers declarations, elements, character data and
entity references; attributes, comments, CDATA sections and document types,
which neither program writes, are reported as errors. -/

inductive SaxEvent where
  | openTag (name : JSString)
  | closeTag (name : JSString)
  | text (value : JSString)

/-- Where the scanner is: in character data, in an entity reference after `&`,
or in markup after `<`. -/
inductive SaxMode where
  | text (acc : JSString)
  | entity (acc : JSString) (name : JSString)
  | tag (raw : JSString)

structure SaxState where
  events : List SaxEvent
  mode : SaxMode

/-- The text event for pending character data, if there is any. -/
def flushText (acc : JSString) : List SaxEvent := if acc.isEmpty then [] else [.text acc]

/-- White space of XML: space, tab, line feed, carriage return. -/
def isXmlSpace (c : Nat) : Bool := decide (c = 32 ∨ c = 9 ∨ c = 10 ∨ c = 13)

def trimEnd (s : JSString) : JSString := (s.reverse.dropWhile isXmlSpace).reverse

/-- ASCII lower case. -/
def toLowerUnit (c : Nat) : Nat := if 65 ≤ c ∧ c ≤ 90 then c + 32 else c

/-- The number written by digits in the given base; `none` for no digits or a
character that is not a digit of the base. -/
def parseDigits (base : Nat) (digits : JSString) : Option Nat :=
  if digits.isEmpty then none
  else digits.foldl (fun acc c =>
    match acc, unhex c with
    | some n, some d => if d < base then some (n * base + d) else none
    | _, _ => none) (some 0)

/-- Character reference with number `n`. -/
def charReference (n : Option Nat) : Option JSString :=
  match n with
  | some n => if n = 0 ∨ 1114112 ≤ n then none else some (codePointUnits n)
  | none => none

/-- The replacement of an entity reference; `none` when strict mode rejects it. -/
def decodeEntity (name : JSString) : Option JSString :=
  let lower := name.map toLowerUnit
  if lower = [97, 109, 112] then some [38]
  else if lower = [108, 116] then some [60]
  else if lower = [103, 116] then some [62]
  else if lower = [113, 117, 111, 116] then some [34]
  else if lower = [97, 112, 111, 115] then some [39]
  else
    match lower with
    | 35 :: 120 :: digits => charReference (parseDigits 16 digits)
    | 35 :: digits => charReference (parseDigits 10 digits)
    | _ => none

inductive TagKind where
  | openTag (name : JSString)
  | closeTag (name : JSString)
  | selfClosing (name : JSString)
  | instruction
  | invalid

/-- What stands between `<` and `>`. -/
def classifyTag (raw : JSString) : TagKind :=
  match raw with
  | 63 :: rest => if rest.getLast? = some 63 then .instruction else .invalid
  | 47 :: rest => if isXmlName (trimEnd rest) then .closeTag (trimEnd rest) else .invalid
  | _ =>
    if raw.getLast? = some 47 then
      if isXmlName (trimEnd raw.dropLast) then .selfClosing (trimEnd raw.dropLast) else .invalid
    else if isXmlName (trimEnd raw) then .openTag (trimEnd raw)
    else .invalid

/-- One character read by the scanner. -/
def saxStep (st : SaxState) (c : Nat) : Except JSError SaxState :=
  match st.mode with
  | .text acc =>
    if c = 60 then .ok ⟨st.events ++ flushText acc, .tag []⟩
    else if c = 38 then .ok ⟨st.events, .entity acc []⟩
    else .ok ⟨st.events, .text (acc ++ [c])⟩
  | .entity acc name =>
    if c = 59 then
      match decodeEntity name with
      | some units => .ok ⟨st.events, .text (acc ++ units)⟩
      | none => .error (JSError.ofMessage (js "Invalid character entity"))
    else .ok ⟨st.events, .entity acc (name ++ [c])⟩
  | .tag raw =>
    if c = 62 then
      match classifyTag raw with
      | .openTag name => .ok ⟨st.events ++ [.openTag name], .text []⟩
      | .closeTag name => .ok ⟨st.events ++ [.closeTag name], .text []⟩
      | .selfClosing name => .ok ⟨st.events ++ [.openTag name, .closeTag name], .text []⟩
      | .instruction => .ok ⟨st.events, .text []⟩
      | .invalid => .error (JSError.ofMessage (js "Invalid markup"))
    else .ok ⟨st.events, .tag (raw ++ [c])⟩

def saxRun (st : SaxState) : JSString → Except JSError SaxState
  | [] => .ok st
  | c :: rest =>
    match saxStep st c with
    | .error e => .error e
    | .ok next => saxRun next rest

/-- The events of a document. -/
def saxEvents (xml : JSString) : Except JSError (List SaxEvent) :=
  match saxRun ⟨[], .text []⟩ xml with
  | .error e => .error e
  | .ok ⟨events, .text acc⟩ => .ok (events ++ flushText acc)
  | .ok _ => .error (JSError.ofMessage (js "Unexpected end"))

/-- The options of `new xml2js.Parser(...)` that matter without attributes. -/
structure ParserOptions where
  explicitArray : Bool

/-- An element that is still open: its name, its character data so far (the
`_` key) and the children assigned so far. -/
structure OpenNode where
  name : JSString
  text : JSString
  fields : List (JSString × JSValue)

structure AsmState where
  stack : List OpenNode
  result : Option JSValue

/-- `/^\s*$/`. -/
def isBlank (s : JSString) : Bool := s.all isSpace

/-- The value of an element when it is closed: blank character data is
dropped, an element left without keys becomes that blank string, and an
element with character data only becomes the string. -/
def nodeValue (n : OpenNode) : JSValue :=
  if isBlank n.text then
    if n.fields.isEmpty then .str n.text else .obj n.fields
  else if n.fields.isEmpty then .str n.text
  else .obj ((js "_", .str n.text) :: n.fields)

/-- `assignOrPush(obj, key, newValue)`. -/
def assignOrPush (opts : ParserOptions) (fields : List (JSString × JSValue))
    (key : JSString) (value : JSValue) : List (JSString × JSValue) :=
  match lookupField key fields with
  | none => fields ++ [(key, if opts.explicitArray then .arr [value] else value)]
  | some (.arr items) => setField key (.arr (items ++ [value])) fields
  | some old => setField key (.arr [old, value]) fields

/-- The handlers `onopentag`, `ontext` and `onclosetag`. -/
def asmStep (opts : ParserOptions) (st : AsmState) : SaxEvent → Except JSError AsmState
  | .openTag name =>
    match st.result with
    | some _ => .error (JSError.ofMessage (js "Text data outside of root node."))
    | none => .ok ⟨⟨name, [], []⟩ :: st.stack, none⟩
  | .text value =>
    match st.stack with
    | top :: rest => .ok ⟨⟨top.name, top.text ++ value, top.fields⟩ :: rest, st.result⟩
    | [] =>
      if value.all isXmlSpace then .ok st
      else .error (JSError.ofMessage (js "Text data outside of root node."))
  | .closeTag name =>
    match st.stack with
    | [] => .error (JSError.ofMessage (js "Unmatched closing tag"))
    | top :: rest =>
      if top.name ≠ name then .error (JSError.ofMessage (js "Unexpected close tag"))
      else
        match rest with
        | parent :: others =>
          .ok ⟨⟨parent.name, parent.text,
            assignOrPush opts parent.fields name (nodeValue top)⟩ :: others, st.result⟩
        | [] => .ok ⟨[], some (.obj [(name, nodeValue top)])⟩

def asmRun (opts : ParserOptions) (st : AsmState) : List SaxEvent → Except JSError AsmState
  | [] => .ok st
  | ev :: rest =>
    match asmStep opts st ev with
    | .error e => .error e
    | .ok next => asmRun opts next rest

/-- `parser.parseStringPromise(xml)`: `null` for a blank text. -/
def parseString (opts : ParserOptions) (xml : JSString) : Except JSError JSValue :=
  if isBlank xml then .ok .undefined
  else
    match saxEvents xml with
    | .error e => .error e
    | .ok events =>
      match asmRun opts ⟨[], none⟩ events with
      | .error e => .error e
      | .ok st =>
        if st.stack.isEmpty then .ok (st.result.getD .undefined)
        else .error (JSError.ofMessage (js "Unclosed root tag"))

/-- `xmlToJson(xml)`: a parser with `explicitArray: false`. -/
def xmlToJson (xml : JSString) : Except JSError JSValue := parseString ⟨false⟩ xml

/-! ## Transport

The HTTP exchange with the peer is a function from the posted text to what
the peer does; the peer may keep state.  Bodies, which are XML text, travel
unchanged. -/

/-- What the peer does with a posted document: it answers, it answers with a
`Location` header (`target` is then what the request to that location comes
to), the connection fails, or nothing comes back. -/
inductive PeerResult where
  | response (status : Nat) (body : JSString)
  | withLocation (status : Nat) (body : JSString) (target : PeerResult)
  | networkError (code : JSString)
  | noResponse

/-- A peer with state `σ`. -/
abbrev Peer (σ : Type) := σ → JSString → PeerResult × σ

/-- What the HTTP layer under axios hands back for a request. -/
inductive Transported where
  | response (status : Nat) (body : JSString)
  | failed (error : JSError)
  | silent

/-- The number of redirects followed when `maxRedirects` is not given, as in
the calls of `routes.js`. -/
def MAX_REDIRECTS : Nat := 21

/-- The HTTP layer under axios: a reply with a status from 300 to 399 and a
`Location` header is not handed back; the request goes to that location
instead, at most `redirects` times. -/
def followRedirects : Nat → PeerResult → Transported
  | _, .response status body => .response status body
  | redirects, .withLocation status body target =>
    if 300 ≤ status ∧ status < 400 then
      match redirects with
      | 0 =>
        .failed ⟨js "Maximum number of redirects exceeded", some (js "ERR_FR_TOO_MANY_REDIRECTS")⟩
      | n + 1 => followRedirects n target
    else .response status body
  | _, .networkError code => .failed ⟨js "connect " ++ code, some code⟩
  | _, .noResponse => .silent

/-- How the promise returned by `axios.post` settles. -/
inductive AxiosResult where
  | resolved (status : Nat) (data : JSString)
  | rejected (error : JSError)
  | pending

/-- `axios.post(url, body, { headers })` with the default `validateStatus` and
`maxRedirects`: redirects are followed, and the promise resolves when the
response reached has a status from 200 to 299; it rejects for any other status
and for a failure, whose `code` the error carries. -/
def axiosPost (r : PeerResult) : AxiosResult :=
  match followRedirects MAX_REDIRECTS r with
  | .response status body =>
    if 200 ≤ status ∧ status < 300 then .resolved status body
    else
      .rejected ⟨js "Request failed with status code " ++ js (toString status),
        if 400 ≤ status ∧ status < 500 then some (js "ERR_BAD_REQUEST")
        else if 500 ≤ status ∧ status < 600 then some (js "ERR_BAD_RESPONSE")
        else none⟩
  | .failed e => .rejected e
  | .silent => .pending

/-- What handling one request amounts to: the response sent (`none` when the
handler never answers), the state of the peer afterwards and the documents
posted to it. -/
structure Outcome (σ : Type) where
  response : Option Response
  peerState : σ
  sent : List JSString

/-! ## `crypto.js`, on client objects -/

/-- The value of key `k` in an object literal, `undefined` when absent. -/
def field (fields : List (JSString × JSValue)) (k : JSString) : JSValue :=
  (lookupField k fields).getD .undefined

/-- `encryptClienteData(cliente)`: `encrypt` throws inside its `try` block when
its argument is not a string. -/
def encryptClienteData (C : BlockCipher) (key iv : Bytes)
    (cliente : List (JSString × JSValue)) : Except JSError JSValue :=
  match field cliente (js "cpf") with
  | .str cpf =>
    match encrypt C key iv cpf with
    | .ok c => .ok (.obj (setField (js "cpf") (.str c) cliente))
    | .error m => .error (JSError.ofMessage m)
  | _ => .error (JSError.ofMessage (js "Falha na criptografia"))

/-- `decryptClienteData(cliente)`. -/
def decryptClienteData (C : BlockCipher) (key : Bytes)
    (cliente : List (JSString × JSValue)) : Except JSError JSValue :=
  match field cliente (js "cpf") with
  | .str cpf =>
    match decrypt C key cpf with
    | .ok p => .ok (.obj (setField (js "cpf") (.str p) cliente))
    | .error m => .error (JSError.ofMessage m)
  | _ => .error (JSError.ofMessage (js "Falha na descriptografia"))

/-! ## `src/middleware/routes.js` -/

/-- The fields of `req.body` that the create handler reads; `none` is
`undefined`.  Fields of a JSON body that are not strings are not modelled. -/
structure CreateBody where
  nome : Option JSString
  email : Option JSString
  cpf : Option JSString

/-- The values the create handler obtains from `uuidv4()`, from
`crypto.randomBytes(16)` and from its three readings of the clock. -/
structure CreateDraws where
  clienteId : JSString
  dataCadastro : JSString
  iv : Bytes
  timestamp : JSString
  responseTimestamp : JSString

/-- `!x` for a body field. -/
def isMissing (x : Option JSString) : Bool :=
  match x with
  | none => true
  | some s => s.isEmpty

def badRequest (message : JSString) : Response :=
  ⟨400, .obj [(js "success", .bool false), (js "message", .str message)]⟩

/-- The `catch` block of the create handler. -/
def createFailure (e : JSError) : Response :=
  ⟨500, .obj [(js "success", .bool false), (js "message", .str (js "Erro ao cadastrar cliente")),
    (js "error", .str e.message)]⟩

/-- The object `requisicaoObj` of the create handler. -/
def createEnvelope (encrypted : List (JSString × JSValue)) (timestamp : JSString) : JSValue :=
  .obj [(js "requisicao", .obj [
    (js "tipo", .str (js "CADASTRO_CLIENTE")),
    (js "timestamp", .str timestamp),
    (js "dados", .obj [
      (js "cliente", .obj [
        (js "id", field encrypted (js "id")),
        (js "nome", field encrypted (js "nome")),
        (js "email", field encrypted (js "email")),
        (js "cpf_criptografado", field encrypted (js "cpf")),
        (js "dataCadastro", field encrypted (js "dataCadastro"))])])])]

/-- The part of the create handler that follows `jsonToXml`: the post to the
peer and the reading of its reply. -/
def createPost {σ : Type} (peer : Peer σ) (s : σ) (d : CreateDraws) (xmlRequisicao : JSString) :
    Outcome σ :=
  match axiosPost (peer s xmlRequisicao).1 with
  | .pending => ⟨none, (peer s xmlRequisicao).2, [xmlRequisicao]⟩
  | .rejected e => ⟨some (createFailure e), (peer s xmlRequisicao).2, [xmlRequisicao]⟩
  | .resolved _ data =>
    match xmlToJson data with
    | .error e => ⟨some (createFailure e), (peer s xmlRequisicao).2, [xmlRequisicao]⟩
    | .ok respostaJson =>
      match (respostaJson.get (js "resposta")).bind (fun r => r.get (js "status")) with
      | .error e => ⟨some (createFailure e), (peer s xmlRequisicao).2, [xmlRequisicao]⟩
      | .ok _ =>
        ⟨some ⟨201, .obj [(js "success", .bool true),
            (js "message", .str (js "Cliente cadastrado com sucesso")),
            (js "clienteId", .str d.clienteId),
            (js "timestamp", .str d.responseTimestamp)]⟩,
          (peer s xmlRequisicao).2, [xmlRequisicao]⟩

/-- `router.post('/clientes', ...)`. -/
def createCliente {σ : Type} (C : BlockCipher) (key : Bytes) (peer : Peer σ) (s : σ)
    (d : CreateDraws) (body : CreateBody) : Outcome σ :=
  if isMissing body.nome || isMissing body.email || isMissing body.cpf then
    ⟨some (badRequest (js "Campos obrigatórios: nome, email, cpf")), s, []⟩
  else if !cpfRegex.test (body.cpf.getD []) then
    ⟨some (badRequest (js "CPF inválido. Deve conter 11 dígitos numéricos.")), s, []⟩
  else if !emailRegex.test (body.email.getD []) then
    ⟨some (badRequest (js "Email inválido")), s, []⟩
  else
    match encryptClienteData C key d.iv [
        (js "id", .str d.clienteId),
        (js "nome", .str (body.nome.getD [])),
        (js "email", .str (body.email.getD [])),
        (js "cpf", .str (body.cpf.getD [])),
        (js "dataCadastro", .str d.dataCadastro)] with
    | .error e => ⟨some (createFailure e), s, []⟩
    | .ok (.obj encrypted) =>
      match jsonToXml (createEnvelope encrypted d.timestamp) with
      | .error e => ⟨some (createFailure e), s, []⟩
      | .ok xmlRequisicao => createPost peer s d xmlRequisicao
    | .ok _ => ⟨some (createFailure (JSError.ofMessage (js "Falha na criptografia"))), s, []⟩

/-- The `catch` block of the lookup handler. -/
def lookupFailure (e : JSError) : Response :=
  if e.code = some (js "ECONNREFUSED") then
    ⟨503, .obj [(js "success", .bool false), (js "message", .str (js "Sistema legado indisponível"))]⟩
  else
    ⟨500, .obj [(js "success", .bool false), (js "message", .str (js "Erro ao consultar cliente")),
      (js "error", .str e.message)]⟩

/-- The object `requisicaoObj` of the lookup handler. -/
def lookupEnvelope (id timestamp : JSString) : JSValue :=
  .obj [(js "requisicao", .obj [
    (js "tipo", .str (js "CONSULTA_CLIENTE")),
    (js "timestamp", .str timestamp),
    (js "dados", .obj [(js "clienteId", .str id)])])]

/-- `status === 'NOT_FOUND'`. -/
def isNotFound (status : JSValue) : Bool :=
  match status with
  | .str s => decide (s = js "NOT_FOUND")
  | _ => false

def notFound : Response :=
  ⟨404, .obj [(js "success", .bool false), (js "message", .str (js "Cliente não encontrado"))]⟩

/-- The part of the lookup handler that follows `xmlToJson`. -/
def lookupReply (C : BlockCipher) (key : Bytes) (respostaJson : JSValue) :
    Except JSError Response :=
  match respostaJson.get (js "resposta") with
  | .error e => .error e
  | .ok resposta =>
    match resposta.get (js "status") with
    | .error e => .error e
    | .ok status =>
      match resposta.get (js "dados") with
      | .error e => .error e
      | .ok dados =>
        if isNotFound status || !dados.truthy then .ok notFound
        else
          match dados.get (js "cliente") with
          | .error e => .error e
          | .ok cliente =>
            match cliente.get (js "id"), cliente.get (js "nome"), cliente.get (js "email"),
              cliente.get (js "cpf_criptografado"), cliente.get (js "dataCadastro") with
            | .ok id, .ok nome, .ok email, .ok cpf, .ok dataCadastro =>
              match decryptClienteData C key [(js "id", id), (js "nome", nome),
                  (js "email", email), (js "cpf", cpf), (js "dataCadastro", dataCadastro)] with
              | .error e => .error e
              | .ok decrypted =>
                .ok ⟨200, .obj [(js "success", .bool true), (js "cliente", decrypted)]⟩
            | _, _, _, _, _ => .error (typeErrorReading (js "id"))

/-- The part of the lookup handler that follows `jsonToXml`: the post to the
peer and the reading of its reply. -/
def lookupPost {σ : Type} (C : BlockCipher) (key : Bytes) (peer : Peer σ) (s : σ)
    (xmlRequisicao : JSString) : Outcome σ :=
  match axiosPost (peer s xmlRequisicao).1 with
  | .pending => ⟨none, (peer s xmlRequisicao).2, [xmlRequisicao]⟩
  | .rejected e => ⟨some (lookupFailure e), (peer s xmlRequisicao).2, [xmlRequisicao]⟩
  | .resolved _ data =>
    match xmlToJson data with
    | .error e => ⟨some (lookupFailure e), (peer s xmlRequisicao).2, [xmlRequisicao]⟩
    | .ok respostaJson =>
      match lookupReply C key respostaJson with
      | .error e => ⟨some (lookupFailure e), (peer s xmlRequisicao).2, [xmlRequisicao]⟩
      | .ok r => ⟨some r, (peer s xmlRequisicao).2, [xmlRequisicao]⟩

/-- `router.get('/clientes/:id', ...)`; `timestamp` is its reading of the clock. -/
def lookupCliente {σ : Type} (C : BlockCipher) (key : Bytes) (peer : Peer σ) (s : σ)
    (timestamp : JSString) (id : JSString) : Outcome σ :=
  if !uuidRegex.test id then ⟨some (badRequest (js "ID inválido")), s, []⟩
  else
    match jsonToXml (lookupEnvelope id timestamp) with
    | .error e => ⟨some (lookupFailure e), s, []⟩
    | .ok xmlRequisicao => lookupPost C key peer s xmlRequisicao

/-! ## `src/legacy/legacySystem.js` -/

/-- The object `clientes`, keyed by client identifier.  Identifiers are taken
not to name a member of `Object.prototype`; those the gateway generates and
looks up are UUIDs. -/
abbrev Store := List (JSString × JSValue)

/-- The reply of the `catch` block of `/processar`. -/
def legacyErro (e : JSError) : PeerResult :=
  .response 500 (js "<?xml version=\"1.0\" encoding=\"UTF-8\"?>\n      <resposta>\n        <status>erro</status>\n        <mensagem>"
    ++ e.message ++ js "</mensagem>\n      </resposta>")

/-- The reply to a create request. -/
def legacyCadastroReply (clienteId now : JSString) : PeerResult :=
  .response 200 (js "<?xml version=\"1.0\" encoding=\"UTF-8\"?>\n      <resposta>\n        <status>sucesso</status>\n        <mensagem>Cliente cadastrado com sucesso</mensagem>\n        <clienteId>"
    ++ clienteId ++ js "</clienteId>\n        <timestamp>" ++ now
    ++ js "</timestamp>\n      </resposta>")

/-- The branch `tipo === 'CADASTRO_CLIENTE'`. -/
def legacyCadastro (now : JSString) (clientes : Store) (requisicao : JSValue) :
    Except JSError (PeerResult × Store) :=
  match ((requisicao.get (js "dados")).bind JSValue.at0).bind (fun d => d.get (js "cliente"))
      |>.bind JSValue.at0 with
  | .error e => .error e
  | .ok cliente =>
    match (cliente.get (js "id")).bind JSValue.at0,
      (cliente.get (js "nome")).bind JSValue.at0,
      (cliente.get (js "email")).bind JSValue.at0,
      (cliente.get (js "cpf_criptografado")).bind JSValue.at0,
      (cliente.get (js "dataCadastro")).bind JSValue.at0 with
    | .ok clienteId, .ok nome, .ok email, .ok cpf, .ok dataCadastro =>
      .ok (legacyCadastroReply clienteId.toJSString now,
        setField clienteId.toJSString (.obj [(js "id", clienteId), (js "nome", nome),
          (js "email", email), (js "cpf_criptografado", cpf),
          (js "dataCadastro", dataCadastro)]) clientes)
    | _, _, _, _, _ => .error (typeErrorReading (js "0"))

/-- The reply of the branch `tipo === 'CONSULTA_CLIENTE'` once `clienteId` has
been read: `cliente` is `clientes[clienteId]`. -/
def legacyConsultaReply (now : JSString) (clientes : Store) (clienteId : JSString) :
    Except JSError (PeerResult × Store) :=
  let cliente := field clientes clienteId
  let resposta :=
    if !cliente.truthy then
      JSValue.obj [(js "resposta", .obj [
        (js "status", .str (js "NOT_FOUND")),
        (js "mensagem", .str (js "Cliente não encontrado")),
        (js "timestamp", .str now)])]
    else
      JSValue.obj [(js "resposta", .obj [
        (js "status", .str (js "sucesso")),
        (js "mensagem", .str (js "Cliente encontrado")),
        (js "dados", .obj [(js "cliente", cliente)]),
        (js "timestamp", .str now)])]
  match buildObject resposta with
  | .error e => .error e
  | .ok xmlResposta => .ok (.response (if cliente.truthy then 200 else 404) xmlResposta, clientes)

/-- The branch `tipo === 'CONSULTA_CLIENTE'`. -/
def legacyConsulta (now : JSString) (clientes : Store) (requisicao : JSValue) :
    Except JSError (PeerResult × Store) :=
  match ((requisicao.get (js "dados")).bind JSValue.at0).bind (fun d => d.get (js "clienteId"))
      |>.bind JSValue.at0 with
  | .error e => .error e
  | .ok clienteId => legacyConsultaReply now clientes clienteId.toJSString

/-- Whether `tipo` is the given string. -/
def isTipo (tipo : JSValue) (name : JSString) : Bool :=
  match tipo with
  | .str s => decide (s = name)
  | _ => false

/-- The `try` block of `app.post('/processar', ...)`; `now` is its reading of
the clock.  A request of another `tipo` is never answered. -/
def processarTry (now : JSString) (clientes : Store) (body : JSString) :
    Except JSError (PeerResult × Store) :=
  match parseString ⟨true⟩ body with
  | .error e => .error e
  | .ok jsonReq =>
    match jsonReq.get (js "requisicao") with
    | .error e => .error e
    | .ok requisicao =>
      match (requisicao.get (js "tipo")).bind JSValue.at0 with
      | .error e => .error e
      | .ok tipo =>
        if isTipo tipo (js "CADASTRO_CLIENTE") then legacyCadastro now clientes requisicao
        else if isTipo tipo (js "CONSULTA_CLIENTE") then legacyConsulta now clientes requisicao
        else .ok (.noResponse, clientes)

/-- `app.post('/processar', ...)` as a peer of the gateway. -/
def processar (now : JSString) : Peer Store := fun clientes body =>
  match processarTry now clientes body with
  | .ok r => r
  | .error e => (legacyErro e, clientes)

/-- The largest request body that `express.text({ type: 'application/xml' })`
reads: its default limit of 100kb, counted in bytes. -/
def BODY_LIMIT : Nat := 102400

/-- The reply of the error handler registered last in `legacySystem.js`, which
answers a request whose body is above the limit (`NODE_ENV` is not
`development`). -/
def legacyInternalError : PeerResult :=
  .response 500 (js "\x7b\"success\":false,\"message\":\"Erro interno do servidor\"\x7d")

/-- The legacy system as a peer of the gateway: the body parser in front of
`/processar`, then the handler. -/
def legacySystem (now : JSString) : Peer Store := fun clientes body =>
  if BODY_LIMIT < (utf8Encode body).length then (legacyInternalError, clientes)
  else processar now clientes body

/-! ## `server.js` -/

/-- The two routes under `/api`, with what each draws from its environment. -/
inductive ApiRequest where
  | create (draws : CreateDraws) (body : CreateBody)
  | lookup (timestamp : JSString) (id : JSString)

/-- A request to `/api/...`: `authenticateAPIKey` first, then the route. -/
def serveApi {σ : Type} (C : BlockCipher) (encryptionKeyEnv apiKeyEnv : Option JSString)
    (peer : Peer σ) (s : σ) (authHeader : Option JSString) (req : ApiRequest) : Outcome σ :=
  match authenticateAPIKey (API_KEY apiKeyEnv) authHeader with
  | .respond r => ⟨some r, s, []⟩
  | .next =>
    match req with
    | .create draws body => createCliente C (KEY_BUFFER encryptionKeyEnv) peer s draws body
    | .lookup timestamp id => lookupCliente C (KEY_BUFFER encryptionKeyEnv) peer s timestamp id

/-! ## Vocabulary for the codec theorems -/

/-- The events of an element whose content is the text `s`. -/
def leafEvents (name s : JSString) : List SaxEvent :=
  .openTag name :: flushText s ++ [.closeTag name]

/-- A child of an element under study: the node written, the key and value it
is read back as, and its events. -/
structure Part where
  node : XNode
  key : JSString
  value : JSValue
  events : List SaxEvent

/-- The events of the children of an element, each preceded by the white
space `w` before it. -/
def childrenEvents (w : JSString) (parts : List Part) : List SaxEvent :=
  parts.flatMap fun p => .text w :: p.events

/-- The events of an element whose children are `parts`, with the white space
`w` before each child and `w2` before the closing tag. -/
def elementEvents (w w2 : JSString) (name : JSString) (parts : List Part) : List SaxEvent :=
  .openTag name :: childrenEvents w parts ++ [.text w2, .closeTag name]

/-- The events of an element written at `level` whose children are `parts`. -/
def containerEvents (level : Nat) (name : JSString) (parts : List Part) : List SaxEvent :=
  elementEvents (10 :: indent (level + 1)) (10 :: indent level) name parts

/-- The keys of `parts` assigned in turn. -/
def assignAll (opts : ParserOptions) (fields : List (JSString × JSValue)) (parts : List Part) :
    List (JSString × JSValue) :=
  parts.foldl (fun fs p => assignOrPush opts fs p.key p.value) fields

/-- Scanning `node` written at `level` yields `events`, after the white space
that precedes it, and leaves the line feed that follows it pending. -/
def SaxSpec (level : Nat) (node : XNode) (events : List SaxEvent) : Prop :=
  ∀ (pre : List SaxEvent) (acc rest : JSString),
    saxRun ⟨pre, .text acc⟩ (writeNode level node ++ rest) =
      saxRun ⟨pre ++ flushText (acc ++ indent level) ++ events, .text [10]⟩ rest

/-- Assembling `events` inside an open element assigns `value` to `key` there. -/
def AsmSpec (opts : ParserOptions) (events : List SaxEvent) (key : JSString) (value : JSValue) :
    Prop :=
  ∀ (top : OpenNode) (others : List OpenNode) (rest : List SaxEvent),
    asmRun opts ⟨top :: others, none⟩ (events ++ rest) =
      asmRun opts ⟨⟨top.name, top.text, assignOrPush opts top.fields key value⟩ :: others, none⟩
        rest

/-- The part is written as an element at `level` and read back as its key and
value. -/
def Part.Encodes (level : Nat) (opts : ParserOptions) (p : Part) : Prop :=
  (∃ name children, p.node = .element name children) ∧
    SaxSpec level p.node p.events ∧ AsmSpec opts p.events p.key p.value

/-- The part for a key holding the string `s`. -/
def leafPart (key s : JSString) : Part :=
  ⟨.element key [.text (textEscape s)], key, .str s, leafEvents key s⟩

/-- The part for a key holding an object with the given parts, at `level`. -/
def containerPart (opts : ParserOptions) (level : Nat) (key : JSString) (parts : List Part) :
    Part :=
  ⟨.element key (parts.map Part.node), key, .obj (assignAll opts [] parts),
    containerEvents level key parts⟩

/-- The parts of a client record. -/
def clienteParts (id nome email cpf dataCadastro : JSString) : List Part :=
  [leafPart (js "id") id, leafPart (js "nome") nome, leafPart (js "email") email,
    leafPart (js "cpf_criptografado") cpf, leafPart (js "dataCadastro") dataCadastro]

/-- The parts of the root of a create request. -/
def createParts (opts : ParserOptions) (timestamp id nome email cpf dataCadastro : JSString) :
    List Part :=
  [leafPart (js "tipo") (js "CADASTRO_CLIENTE"), leafPart (js "timestamp") timestamp,
    containerPart opts 1 (js "dados")
      [containerPart opts 2 (js "cliente") (clienteParts id nome email cpf dataCadastro)]]

/-- The parts of the root of a lookup request. -/
def lookupParts (opts : ParserOptions) (timestamp id : JSString) : List Part :=
  [leafPart (js "tipo") (js "CONSULTA_CLIENTE"), leafPart (js "timestamp") timestamp,
    containerPart opts 1 (js "dados") [leafPart (js "clienteId") id]]

/-- The parts of the root of the reply to a successful lookup. -/
def foundParts (opts : ParserOptions) (now id nome email cpf dataCadastro : JSString) :
    List Part :=
  [leafPart (js "status") (js "sucesso"), leafPart (js "mensagem") (js "Cliente encontrado"),
    containerPart opts 1 (js "dados")
      [containerPart opts 2 (js "cliente") (clienteParts id nome email cpf dataCadastro)],
    leafPart (js "timestamp") now]

/-- The parts of the root of the reply to a create request. -/
def ackParts (clienteId now : JSString) : List Part :=
  [leafPart (js "status") (js "sucesso"),
    leafPart (js "mensagem") (js "Cliente cadastrado com sucesso"),
    leafPart (js "clienteId") clienteId, leafPart (js "timestamp") now]

/-- A record as an object: the five keys of a client with string values. -/
def clienteObject (cpfKey : JSString) (id nome email cpf dataCadastro : JSString) :
    List (JSString × JSValue) :=
  [(js "id", .str id), (js "nome", .str nome), (js "email", .str email), (cpfKey, .str cpf),
    (js "dataCadastro", .str dataCadastro)]

/-- Reading `v.k1[0].k2[0]...`: every key followed by the index `[0]`, as the
legacy peer reads what its parser returns. -/
def readUnwrapped (v : JSValue) (path : List JSString) : Except JSError JSValue :=
  path.foldl (fun acc k => acc.bind fun x => (x.get k).bind JSValue.at0) (.ok v)

/-- Reading `v.k1.k2...`. -/
def readPath (v : JSValue) (path : List JSString) : Except JSError JSValue :=
  path.foldl (fun acc k => acc.bind fun x => x.get k) (.ok v)

/-- The white space before the root of the hand-written replies of the peer. -/
def space6 : JSString := js "\n      "

/-- The white space before the children of the root in those replies. -/
def space8 : JSString := js "\n        "

/-- The text `<name>` followed by `rest`. -/
def tagOpen (name rest : JSString) : JSString := 60 :: (name ++ 62 :: rest)

/-- The text `</name>` followed by `rest`. -/
def tagClose (name rest : JSString) : JSString := 60 :: 47 :: (name ++ 62 :: rest)

/-- The text `<name>s</name>` followed by `rest`. -/
def leafText (name s rest : JSString) : JSString := tagOpen name (s ++ tagClose name rest)

/-- The text of the reply of the peer to a create request, by its parts. -/
def ackText (clienteId now : JSString) : JSString :=
  xmlDeclaration ++ (space6 ++ tagOpen (js "resposta") (space8 ++
    leafText (js "status") (js "sucesso") (space8 ++
    leafText (js "mensagem") (js "Cliente cadastrado com sucesso") (space8 ++
    leafText (js "clienteId") clienteId (space8 ++
    leafText (js "timestamp") now (space6 ++ tagClose (js "resposta") []))))))


/-- The text `encrypt` returns when the key has 32 bytes and the IV 16:
`hex(iv) + ':' + hex(ciphertext)`. -/
def cipherText (C : BlockCipher) (key iv : Bytes) (text : JSString) : JSString :=
  hexEncode iv ++ 58 ::
    hexEncode (cbcEncrypt C key ((utf8Encode text).length / 16 + 1) iv (pkcs7Pad (utf8Encode text)))

/-- The request body of the scenario of the specification. -/
def anaBody : CreateBody := ⟨some (js "Ana"), some (js "ana@x.com"), some (js "12345678901")⟩

/-- Sample values for what the create handler draws. -/
def sampleDraws : CreateDraws where
  clienteId := js "3f2b8c1e-9a4d-4e7b-8c2a-1d5e6f7a8b9c"
  dataCadastro := js "2024-01-01T00:00:00.000Z"
  iv := List.range 16
  timestamp := js "2024-01-01T00:00:00.001Z"
  responseTimestamp := js "2024-01-01T00:00:00.005Z"

/-- A peer that nobody listens at: every connection is refused. -/
def unreachablePeer : Peer Unit := fun s _ => (.networkError (js "ECONNREFUSED"), s)

/-- A peer that answers every request with the same status and body. -/
def fixedPeer (status : Nat) (body : JSString) : Peer Unit := fun s _ => (.response status body, s)

/-- A peer that answers every request with status 302 and a `Location` header,
at which the request is answered with the given status and body. -/
def movedPeer (status : Nat) (body : JSString) : Peer Unit :=
  fun s _ => (.withLocation 302 [] (.response status body), s)
/-! ## Codecs -/

theorem utf8Step_initial (b : Nat) : utf8Step Utf8State.initial b = utf8Start b := by
  simp [utf8Step, Utf8State.initial]

theorem utf8Step_last (cp lo hi b : Nat) (h : lo ≤ b ∧ b ≤ hi) :
    utf8Step ⟨cp, 1, lo, hi⟩ b = (codePointUnits (cp * 64 + (b - 128)), Utf8State.initial) := by
  have h3 : ¬ (b < lo ∨ hi < b) := by omega
  simp [utf8Step, h3]

theorem utf8Step_more2 (cp lo hi b : Nat) (h : lo ≤ b ∧ b ≤ hi) :
    utf8Step ⟨cp, 2, lo, hi⟩ b = ([], ⟨cp * 64 + (b - 128), 1, 128, 191⟩) := by
  have h3 : ¬ (b < lo ∨ hi < b) := by omega
  simp [utf8Step, h3]

theorem utf8Step_more3 (cp lo hi b : Nat) (h : lo ≤ b ∧ b ≤ hi) :
    utf8Step ⟨cp, 3, lo, hi⟩ b = ([], ⟨cp * 64 + (b - 128), 2, 128, 191⟩) := by
  have h3 : ¬ (b < lo ∨ hi < b) := by omega
  simp [utf8Step, h3]

theorem utf8DecodeFrom_cons (st : Utf8State) (b : Nat) (rest : Bytes) :
    utf8DecodeFrom st (b :: rest) = (utf8Step st b).1 ++ utf8DecodeFrom (utf8Step st b).2 rest :=
  rfl

theorem utf8DecodeFrom_encodeCodePoint (cp : Nat) (rest : Bytes)
    (h1 : cp < 1114112) (h2 : ¬ (55296 ≤ cp ∧ cp ≤ 57343)) :
    utf8DecodeFrom Utf8State.initial (utf8EncodeCodePoint cp ++ rest)
      = codePointUnits cp ++ utf8DecodeFrom Utf8State.initial rest := by
  unfold utf8EncodeCodePoint
  split_ifs with c1 c2 c3
  · have e : utf8Start cp = ([cp], Utf8State.initial) := by simp [utf8Start, c1]
    have e2 : codePointUnits cp = [cp] := by simp [codePointUnits]; omega
    simp only [List.cons_append, List.nil_append, utf8DecodeFrom_cons, utf8Step_initial, e, e2]
  · have e : utf8Start (192 + cp / 64) = ([], ⟨cp / 64, 1, 128, 191⟩) := by
      have a1 : ¬ (192 + cp / 64 < 128) := by omega
      have a2 : 194 ≤ 192 + cp / 64 ∧ 192 + cp / 64 ≤ 223 := by omega
      simp [utf8Start, a1, a2]
    have e2 : cp / 64 * 64 + (128 + cp % 64 - 128) = cp := by omega
    simp only [List.cons_append, List.nil_append, utf8DecodeFrom_cons, utf8Step_initial, e,
      utf8Step_last _ 128 191 (128 + cp % 64) (by omega), e2]
  · have e : utf8Start (224 + cp / 4096) = ([], ⟨cp / 4096, 2,
        if 224 + cp / 4096 = 224 then 160 else 128, if 224 + cp / 4096 = 237 then 159 else 191⟩) := by
      have a1 : ¬ (224 + cp / 4096 < 128) := by omega
      have a2 : ¬ (194 ≤ 224 + cp / 4096 ∧ 224 + cp / 4096 ≤ 223) := by omega
      have a3 : 224 ≤ 224 + cp / 4096 ∧ 224 + cp / 4096 ≤ 239 := by omega
      simp [utf8Start, a1, a2, a3]
    have e2 : (cp / 4096 * 64 + (128 + cp / 64 % 64 - 128)) * 64 + (128 + cp % 64 - 128) = cp := by
      omega
    have r1 : (if 224 + cp / 4096 = 224 then 160 else 128) ≤ 128 + cp / 64 % 64 ∧
        128 + cp / 64 % 64 ≤ (if 224 + cp / 4096 = 237 then 159 else 191) := by
      split_ifs <;> omega
    simp only [List.cons_append, List.nil_append, utf8DecodeFrom_cons, utf8Step_initial, e,
      utf8Step_more2 _ _ _ (128 + cp / 64 % 64) r1,
      utf8Step_last _ 128 191 (128 + cp % 64) (by omega), e2]
  · have e : utf8Start (240 + cp / 262144) = ([], ⟨cp / 262144, 3,
        if 240 + cp / 262144 = 240 then 144 else 128,
        if 240 + cp / 262144 = 244 then 143 else 191⟩) := by
      have a1 : ¬ (240 + cp / 262144 < 128) := by omega
      have a2 : ¬ (194 ≤ 240 + cp / 262144 ∧ 240 + cp / 262144 ≤ 223) := by omega
      have a3 : ¬ (224 ≤ 240 + cp / 262144 ∧ 240 + cp / 262144 ≤ 239) := by omega
      have a4 : 240 ≤ 240 + cp / 262144 ∧ 240 + cp / 262144 ≤ 244 := by omega
      simp [utf8Start, a1, a2, a3, a4]
    have e2 : ((cp / 262144 * 64 + (128 + cp / 4096 % 64 - 128)) * 64
        + (128 + cp / 64 % 64 - 128)) * 64 + (128 + cp % 64 - 128) = cp := by
      omega
    have r1 : (if 240 + cp / 262144 = 240 then 144 else 128) ≤ 128 + cp / 4096 % 64 ∧
        128 + cp / 4096 % 64 ≤ (if 240 + cp / 262144 = 244 then 143 else 191) := by
      split_ifs <;> omega
    simp only [List.cons_append, List.nil_append, utf8DecodeFrom_cons, utf8Step_initial, e,
      utf8Step_more3 _ _ _ (128 + cp / 4096 % 64) r1,
      utf8Step_more2 _ 128 191 (128 + cp / 64 % 64) (by omega),
      utf8Step_last _ 128 191 (128 + cp % 64) (by omega), e2]

theorem wellFormed_singleton (u : Nat) :
    WellFormed [u] ↔ u < 65536 ∧ isSurrogate u = false := by
  simp [WellFormed, isWellFormed]

theorem wellFormed_cons_cons (u v : Nat) (rest : JSString) :
    WellFormed (u :: v :: rest) ↔ u < 65536 ∧
      if isHighSurrogate u then isLowSurrogate v = true ∧ WellFormed rest
      else isLowSurrogate u = false ∧ WellFormed (v :: rest) := by
  by_cases h : isHighSurrogate u = true <;> simp [WellFormed, isWellFormed, h]

theorem utf8DecodeFrom_encodeUnit (u : Nat) (rest : Bytes) (h1 : u < 65536)
    (h2 : isSurrogate u = false) :
    utf8DecodeFrom Utf8State.initial (utf8EncodeUnit u ++ rest)
      = u :: utf8DecodeFrom Utf8State.initial rest := by
  have h3 : ¬ (55296 ≤ u ∧ u ≤ 57343) := by simpa [isSurrogate] using h2
  rw [utf8EncodeUnit, h2]
  simp only [Bool.false_eq_true, if_false]
  rw [utf8DecodeFrom_encodeCodePoint _ _ (by omega) h3]
  simp [codePointUnits, h1]

theorem utf8Decode_utf8Encode (s : JSString) (h : WellFormed s) :
    utf8Decode (utf8Encode s) = s := by
  unfold utf8Decode
  induction s using utf8Encode.induct with
  | case1 => rfl
  | case2 u =>
    rw [wellFormed_singleton] at h
    have := utf8DecodeFrom_encodeUnit u [] h.1 h.2
    simpa [utf8Encode, utf8DecodeFrom, Utf8State.initial] using this
  | case3 u v rest hp ih =>
    obtain ⟨hu, hv⟩ := hp
    have hu2 : 55296 ≤ u ∧ u ≤ 56319 := by simpa [isHighSurrogate] using hu
    have hv2 : 56320 ≤ v ∧ v ≤ 57343 := by simpa [isLowSurrogate] using hv
    rw [wellFormed_cons_cons] at h
    simp only [hu, if_true] at h
    simp only [utf8Encode, hu, hv, and_self, if_true]
    rw [utf8DecodeFrom_encodeCodePoint _ _ (by omega) (by omega), ih h.2.2]
    have c : ¬ (65536 + (u - 55296) * 1024 + (v - 56320) < 65536) := by omega
    have a : 55296 + (65536 + (u - 55296) * 1024 + (v - 56320) - 65536) / 1024 = u := by omega
    have b : 56320 + (65536 + (u - 55296) * 1024 + (v - 56320) - 65536) % 1024 = v := by omega
    simp only [codePointUnits, c, if_false, a, b, List.cons_append, List.nil_append]
  | case4 u v rest hp ih =>
    have hw : u < 65536 ∧ isSurrogate u = false ∧ WellFormed (v :: rest) := by
      rw [wellFormed_cons_cons] at h
      refine ⟨h.1, ?_⟩
      by_cases hu : isHighSurrogate u = true
      · rw [if_pos hu] at h
        exact absurd ⟨hu, h.2.1⟩ hp
      · rw [if_neg hu] at h
        refine ⟨?_, h.2.2⟩
        have h1 : ¬ (55296 ≤ u ∧ u ≤ 56319) := by simpa [isHighSurrogate] using hu
        have h2 : ¬ (56320 ≤ u ∧ u ≤ 57343) := by simpa [isLowSurrogate] using h.2.1
        simp only [isSurrogate, decide_eq_false_iff_not]
        omega
    simp only [utf8Encode, hp, if_false]
    rw [utf8DecodeFrom_encodeUnit u _ hw.1 hw.2.1, ih hw.2.2]

theorem unhex_hexDigit (n : Nat) (h : n < 16) : unhex (hexDigit n) = some n := by
  unfold hexDigit unhex
  split_ifs <;> first | omega | (congr 1; omega)

theorem hexDigit_ne_colon (n : Nat) (h : n < 16) : hexDigit n ≠ 58 := by
  unfold hexDigit
  split_ifs <;> omega

theorem hexDecode_hexEncode_append (bs : Bytes) (rest : JSString) (h : IsBytes bs) :
    hexDecode (hexEncode bs ++ rest) = bs ++ hexDecode rest := by
  induction bs with
  | nil => rfl
  | cons b bs ih =>
    have hb : b < 256 := h b (List.mem_cons_self _ _)
    have hbs : IsBytes bs := fun x hx => h x (List.mem_cons_of_mem _ hx)
    have e : b / 16 * 16 + b % 16 = b := by omega
    simp only [hexEncode, List.cons_append, hexDecode, unhex_hexDigit (b / 16) (by omega),
      unhex_hexDigit (b % 16) (by omega), List.append_eq, ih hbs, e]

theorem hexDecode_hexEncode (bs : Bytes) (h : IsBytes bs) : hexDecode (hexEncode bs) = bs := by
  have := hexDecode_hexEncode_append bs [] h
  simpa [hexDecode] using this

theorem hexEncode_length (bs : Bytes) : (hexEncode bs).length = 2 * bs.length := by
  induction bs with
  | nil => rfl
  | cons b bs ih => simp only [hexEncode, List.length_cons, ih]; omega

theorem colon_not_mem_hexEncode (bs : Bytes) (h : IsBytes bs) : 58 ∉ hexEncode bs := by
  induction bs with
  | nil => simp [hexEncode]
  | cons b bs ih =>
    have hb : b < 256 := h b (List.mem_cons_self _ _)
    have hbs : IsBytes bs := fun x hx => h x (List.mem_cons_of_mem _ hx)
    simp only [hexEncode, List.mem_cons, not_or]
    exact ⟨(hexDigit_ne_colon _ (by omega)).symm, (hexDigit_ne_colon _ (by omega)).symm, ih hbs⟩

theorem split_ne_nil (sep : Nat) (s : JSString) : split sep s ≠ [] := by
  induction s with
  | nil => simp [split]
  | cons c rest ih =>
    simp only [split]
    split_ifs
    · simp
    · cases h : split sep rest <;> simp

theorem split_of_not_mem (sep : Nat) (s : JSString) (h : sep ∉ s) : split sep s = [s] := by
  induction s with
  | nil => rfl
  | cons c rest ih =>
    simp only [List.mem_cons, not_or] at h
    have hc : ¬ c = sep := fun e => h.1 e.symm
    simp [split, hc, ih h.2]

theorem split_append_sep (sep : Nat) (a b : JSString) (h : sep ∉ a) :
    split sep (a ++ sep :: b) = a :: split sep b := by
  induction a with
  | nil => simp [split]
  | cons c rest ih =>
    simp only [List.mem_cons, not_or] at h
    have hc : ¬ c = sep := fun e => h.1 e.symm
    simp [split, hc, ih h.2]

/-! ## Cipher -/

theorem xorBytes_length (a b : Bytes) (h : a.length = b.length) :
    (xorBytes a b).length = a.length := by
  simp [xorBytes, h]

theorem xorBytes_bytes (a b : Bytes) (ha : IsBytes a) (hb : IsBytes b) :
    IsBytes (xorBytes a b) := by
  induction a generalizing b with
  | nil => intro x hx; simp [xorBytes] at hx
  | cons x a ih =>
    cases b with
    | nil => intro y hy; simp [xorBytes] at hy
    | cons y b =>
      intro z hz
      simp only [xorBytes, List.zipWith_cons_cons, List.mem_cons] at hz
      rcases hz with rfl | hz
      · exact Nat.xor_lt_two_pow (n := 8) (ha x (List.mem_cons_self _ _))
          (hb y (List.mem_cons_self _ _))
      · exact ih b (fun w hw => ha w (List.mem_cons_of_mem _ hw))
          (fun w hw => hb w (List.mem_cons_of_mem _ hw)) z hz

theorem xorBytes_cancel (a b : Bytes) (h : a.length = b.length) :
    xorBytes (xorBytes a b) b = a := by
  induction a generalizing b with
  | nil => simp [xorBytes]
  | cons x a ih =>
    cases b with
    | nil => simp at h
    | cons y b =>
      simp only [List.length_cons, Nat.add_right_cancel_iff] at h
      have := ih b h
      simp only [xorBytes] at this
      simp only [xorBytes, List.zipWith_cons_cons, this, List.cons.injEq, and_true]
      exact Nat.xor_cancel_right y x

theorem IsBytes.append {a b : Bytes} (ha : IsBytes a) (hb : IsBytes b) : IsBytes (a ++ b) := by
  intro x hx
  rcases List.mem_append.mp hx with h | h
  · exact ha x h
  · exact hb x h

theorem IsBytes.take {a : Bytes} (ha : IsBytes a) (n : Nat) : IsBytes (a.take n) :=
  fun x hx => ha x (List.mem_of_mem_take hx)

theorem IsBytes.drop {a : Bytes} (ha : IsBytes a) (n : Nat) : IsBytes (a.drop n) :=
  fun x hx => ha x (List.mem_of_mem_drop hx)

theorem cbcEncrypt_length (C : BlockCipher) (key : Bytes) (n : Nat) (prev data : Bytes) :
    (cbcEncrypt C key n prev data).length = 16 * n := by
  induction n generalizing prev data with
  | zero => rfl
  | succ n ih =>
    simp only [cbcEncrypt, List.length_append, C.encryptBlock_length, ih]
    omega

theorem cbcEncrypt_bytes (C : BlockCipher) (key : Bytes) (n : Nat) (prev data : Bytes) :
    IsBytes (cbcEncrypt C key n prev data) := by
  induction n generalizing prev data with
  | zero => intro x hx; simp [cbcEncrypt] at hx
  | succ n ih =>
    simp only [cbcEncrypt]
    exact (C.encryptBlock_bytes _ _).append (ih _ _)

theorem cbcDecrypt_cbcEncrypt (C : BlockCipher) (key : Bytes) (hk : key.length = 32)
    (hkb : IsBytes key) (n : Nat) (prev data : Bytes) (hp : prev.length = 16)
    (hpb : IsBytes prev) (hd : data.length = 16 * n) (hdb : IsBytes data) :
    cbcDecrypt C key n prev (cbcEncrypt C key n prev data) = data := by
  induction n generalizing prev data with
  | zero =>
    have : data = [] := List.eq_nil_of_length_eq_zero (by omega)
    simp [cbcDecrypt, this]
  | succ n ih =>
    have ht : (data.take 16).length = 16 := by simp; omega
    have hx : (xorBytes (data.take 16) prev).length = 16 := by
      rw [xorBytes_length _ _ (by omega), ht]
    have hxb : IsBytes (xorBytes (data.take 16) prev) := xorBytes_bytes _ _ (hdb.take 16) hpb
    have hc := C.encryptBlock_length key (xorBytes (data.take 16) prev)
    simp only [cbcEncrypt, cbcDecrypt]
    rw [List.take_left' hc, List.drop_left' hc, C.decrypt_encrypt key _ hk hkb hx hxb,
      xorBytes_cancel _ _ (by omega),
      ih _ _ hc (C.encryptBlock_bytes _ _) (by simp; omega) (hdb.drop 16)]
    exact List.take_append_drop 16 data

theorem pkcs7Pad_length (data : Bytes) :
    (pkcs7Pad data).length = 16 * (data.length / 16 + 1) := by
  simp only [pkcs7Pad, List.length_append, List.length_replicate]
  omega

theorem pkcs7Pad_bytes (data : Bytes) (h : IsBytes data) : IsBytes (pkcs7Pad data) := by
  refine h.append ?_
  intro x hx
  have := List.eq_of_mem_replicate hx
  omega

theorem pkcs7Unpad_pkcs7Pad (data : Bytes) : pkcs7Unpad (pkcs7Pad data) = some data := by
  have hk : 0 < 16 - data.length % 16 := by omega
  have hk2 : ¬ (16 - data.length % 16 = 0 ∨ 16 < 16 - data.length % 16) := by omega
  have hl : (pkcs7Pad data).getLast? = some (16 - data.length % 16) := by
    unfold pkcs7Pad
    obtain ⟨m, hm⟩ : ∃ m, 16 - data.length % 16 = m + 1 := ⟨16 - data.length % 16 - 1, by omega⟩
    rw [hm, List.replicate_succ', ← List.append_assoc, List.getLast?_append]
    simp
  have hlen : (pkcs7Pad data).length - (16 - data.length % 16) = data.length := by
    simp only [pkcs7Pad, List.length_append, List.length_replicate]
    omega
  unfold pkcs7Unpad
  rw [hl]
  simp only [hk2, if_false, hlen]
  unfold pkcs7Pad
  rw [List.drop_left, List.take_left]
  simp

theorem utf8EncodeCodePoint_bytes (cp : Nat) (h : cp < 1114112) :
    IsBytes (utf8EncodeCodePoint cp) := by
  intro x hx
  unfold utf8EncodeCodePoint at hx
  split_ifs at hx <;> simp only [List.mem_cons, List.mem_singleton, List.not_mem_nil, or_false] at hx <;>
    omega

theorem utf8EncodeUnit_bytes (u : Nat) (h : u < 65536) : IsBytes (utf8EncodeUnit u) := by
  unfold utf8EncodeUnit
  split_ifs
  · intro x hx
    simp only [List.mem_cons, List.mem_singleton, List.not_mem_nil, or_false] at hx
    omega
  · exact utf8EncodeCodePoint_bytes u (by omega)

theorem utf8Encode_bytes (s : JSString) (h : IsCodeUnits s) : IsBytes (utf8Encode s) := by
  induction s using utf8Encode.induct with
  | case1 => intro x hx; simp [utf8Encode] at hx
  | case2 u => exact utf8EncodeUnit_bytes u (h u (List.mem_cons_self _ _))
  | case3 u v rest hp ih =>
    obtain ⟨hu, hv⟩ := hp
    have hu2 : 55296 ≤ u ∧ u ≤ 56319 := by simpa [isHighSurrogate] using hu
    have hv2 : 56320 ≤ v ∧ v ≤ 57343 := by simpa [isLowSurrogate] using hv
    simp only [utf8Encode, hu, hv, and_self, if_true]
    refine (utf8EncodeCodePoint_bytes _ (by omega)).append (ih ?_)
    intro x hx
    exact h x (List.mem_cons_of_mem _ (List.mem_cons_of_mem _ hx))
  | case4 u v rest hp ih =>
    simp only [utf8Encode, hp, if_false]
    refine (utf8EncodeUnit_bytes u (h u (List.mem_cons_self _ _))).append (ih ?_)
    intro x hx
    exact h x (List.mem_cons_of_mem _ hx)

theorem WellFormed.isCodeUnits (s : JSString) (h : WellFormed s) : IsCodeUnits s := by
  induction s using utf8Encode.induct with
  | case1 => intro x hx; simp at hx
  | case2 u =>
    rw [wellFormed_singleton] at h
    intro x hx; simp only [List.mem_singleton] at hx; subst hx; exact h.1
  | case3 u v rest hp ih =>
    obtain ⟨hu, hv⟩ := hp
    have hv2 : 56320 ≤ v ∧ v ≤ 57343 := by simpa [isLowSurrogate] using hv
    rw [wellFormed_cons_cons] at h
    simp only [hu, if_true] at h
    intro x hx
    simp only [List.mem_cons] at hx
    rcases hx with rfl | rfl | hx
    · exact h.1
    · omega
    · exact ih h.2.2 x hx
  | case4 u v rest hp ih =>
    rw [wellFormed_cons_cons] at h
    have hw : WellFormed (v :: rest) := by
      by_cases hu : isHighSurrogate u = true
      · rw [if_pos hu] at h
        exact absurd ⟨hu, h.2.1⟩ hp
      · rw [if_neg hu] at h
        exact h.2.2
    intro x hx
    rcases List.mem_cons.mp hx with rfl | hx
    · exact h.1
    · exact ih hw x hx

theorem js_colon : js ":" = [58] := by decide

theorem encryptTry_eq (C : BlockCipher) (key iv : Bytes) (text : JSString)
    (hk : key.length = 32) (hiv : iv.length = 16) :
    encryptTry C key iv text = .ok (hexEncode iv ++ 58 ::
      hexEncode (cbcEncrypt C key ((utf8Encode text).length / 16 + 1) iv
        (pkcs7Pad (utf8Encode text)))) := by
  have e : (pkcs7Pad (utf8Encode text)).length / 16 = (utf8Encode text).length / 16 + 1 := by
    rw [pkcs7Pad_length]; omega
  simp [encryptTry, createCipheriv, hk, hiv, js_colon, e]

/-- Decrypting `hex(iv) ++ extra1 ++ ":" ++ hex(ciphertext) ++ extra2`, where the
extras are ignored by the hexadecimal decoder. -/
theorem decryptTry_of_parts (C : BlockCipher) (key iv : Bytes) (data : Bytes)
    (ivText dataText : JSString)
    (hk : key.length = 32) (hkb : IsBytes key) (hiv : iv.length = 16) (hivb : IsBytes iv)
    (h1 : 58 ∉ ivText) (h2 : 58 ∉ dataText) (h3 : hexDecode ivText = iv)
    (h4 : hexDecode dataText = cbcEncrypt C key (data.length / 16 + 1) iv (pkcs7Pad data))
    (h5 : dataText.length % 2 = 0) (hd : IsBytes data) :
    decryptTry C key (ivText ++ 58 :: dataText) = .ok (utf8Decode data) := by
  have hs : split 58 (ivText ++ 58 :: dataText) = [ivText, dataText] := by
    rw [split_append_sep _ _ _ h1, split_of_not_mem _ _ h2]
  have hl : (cbcEncrypt C key (data.length / 16 + 1) iv (pkcs7Pad data)).length
      = 16 * (data.length / 16 + 1) := cbcEncrypt_length _ _ _ _ _
  have hn : (cbcEncrypt C key (data.length / 16 + 1) iv (pkcs7Pad data)).length / 16
      = data.length / 16 + 1 := by rw [hl]; omega
  have hc : ¬ ((cbcEncrypt C key (data.length / 16 + 1) iv (pkcs7Pad data)).length = 0 ∨
      (cbcEncrypt C key (data.length / 16 + 1) iv (pkcs7Pad data)).length % 16 ≠ 0) := by
    rw [hl]; omega
  have hr := cbcDecrypt_cbcEncrypt C key hk hkb (data.length / 16 + 1) iv (pkcs7Pad data) hiv hivb
    (pkcs7Pad_length data) (pkcs7Pad_bytes data hd)
  unfold decryptTry
  simp only [hs, List.headD_cons, h3, createCipheriv, hk, hiv, ne_eq, not_true_eq_false,
    if_false, List.tail_cons, List.head?_cons, h5, h4, hc, hn, hr, pkcs7Unpad_pkcs7Pad]

theorem decrypt_of_try_ok (C : BlockCipher) (key : Bytes) (s v : JSString)
    (h : decryptTry C key s = .ok v) : decrypt C key s = .ok v := by
  simp [decrypt, h]

theorem encrypt_of_try_ok (C : BlockCipher) (key iv : Bytes) (s v : JSString)
    (h : encryptTry C key iv s = .ok v) : encrypt C key iv s = .ok v := by
  simp [encrypt, h]

/-- The text `encrypt` returns, and what `decrypt` makes of it: the UTF-8
decoding of the UTF-8 encoding of the plaintext. -/
theorem decrypt_encrypt_utf8 (C : BlockCipher) (key iv : Bytes) (text : JSString)
    (hk : key.length = 32) (hkb : IsBytes key) (hiv : iv.length = 16) (hivb : IsBytes iv)
    (ht : IsCodeUnits text) :
    ∃ c, encrypt C key iv text = .ok c ∧
      decrypt C key c = .ok (utf8Decode (utf8Encode text)) := by
  refine ⟨_, encrypt_of_try_ok _ _ _ _ _ (encryptTry_eq C key iv text hk hiv), ?_⟩
  apply decrypt_of_try_ok
  apply decryptTry_of_parts C key iv (utf8Encode text) _ _ hk hkb hiv hivb
    (colon_not_mem_hexEncode iv hivb)
    (colon_not_mem_hexEncode _ (cbcEncrypt_bytes _ _ _ _ _))
    (hexDecode_hexEncode iv hivb)
    (hexDecode_hexEncode _ (cbcEncrypt_bytes _ _ _ _ _))
    (by rw [hexEncode_length]; omega)
    (utf8Encode_bytes text ht)

/-- Claim C2, as amended: for a 32-byte key, any 16-byte IV and every plaintext
without unpaired surrogates, `encrypt` returns a text and `decrypt` applied to
it returns exactly the plaintext. -/
theorem decrypt_encrypt (C : BlockCipher) (key iv : Bytes) (text : JSString)
    (hk : key.length = 32) (hkb : IsBytes key) (hiv : iv.length = 16) (hivb : IsBytes iv)
    (ht : WellFormed text) :
    ∃ c, encrypt C key iv text = .ok c ∧ decrypt C key c = .ok text := by
  obtain ⟨c, h1, h2⟩ := decrypt_encrypt_utf8 C key iv text hk hkb hiv hivb
    (WellFormed.isCodeUnits text ht)
  rw [utf8Decode_utf8Encode text ht] at h2
  exact ⟨c, h1, h2⟩

theorem decrypt_encrypt_witness :
    ∃ c, encrypt shiftCipher (KEY_BUFFER none) (List.range 16) (js "12345678901") = .ok c ∧
      decrypt shiftCipher (KEY_BUFFER none) c = .ok (js "12345678901") :=
  decrypt_encrypt shiftCipher (KEY_BUFFER none) (List.range 16) (js "12345678901")
    (by decide) (by decide) (by decide) (by decide) (by decide)

/-- Claim C2 as stated fails: the one-unit string `"\uD800"` is encrypted
without error, and decrypting the result returns `"\uFFFD"` instead. -/
theorem decrypt_encrypt_unpaired_surrogate :
    ¬ ∀ (C : BlockCipher) (key iv : Bytes) (text : JSString),
      key.length = 32 → IsBytes key → iv.length = 16 → IsBytes iv → IsCodeUnits text →
      ∃ c, encrypt C key iv text = .ok c ∧ decrypt C key c = .ok text := by
  intro h
  obtain ⟨c, h1, h2⟩ := h shiftCipher (KEY_BUFFER none) (List.range 16) [55296]
    (by decide) (by decide) (by decide) (by decide) (by decide)
  obtain ⟨d, h3, h4⟩ := decrypt_encrypt_utf8 shiftCipher (KEY_BUFFER none) (List.range 16)
    [55296] (by decide) (by decide) (by decide) (by decide) (by decide)
  rw [h1] at h3
  cases h3
  rw [h2] at h4
  revert h4
  decide

theorem decrypt_of_try_error (C : BlockCipher) (key : Bytes) (s e : JSString)
    (h : decryptTry C key s = .error e) :
    decrypt C key s = .error (js "Falha na descriptografia") := by
  simp [decrypt, h]

/-- Claim C8, as amended: `decrypt` throws 'Falha na descriptografia' whenever
the input has no colon, or the leading pairs of hexadecimal digits of the part
before the first colon do not decode to exactly 16 bytes, or the part after it
has odd length, or the bytes decoded from its leading pairs of hexadecimal
digits are not a non-zero multiple of 16. -/
theorem decrypt_fails (C : BlockCipher) (key : Bytes) (s : JSString)
    (h : 58 ∉ s ∨ (hexDecode ((split 58 s).headD [])).length ≠ 16 ∨
      ∃ e, (split 58 s).tail.head? = some e ∧
        (e.length % 2 ≠ 0 ∨ (hexDecode e).length = 0 ∨ (hexDecode e).length % 16 ≠ 0)) :
    decrypt C key s = .error (js "Falha na descriptografia") := by
  suffices hs : ∃ e, decryptTry C key s = .error e by
    obtain ⟨e, he⟩ := hs
    exact decrypt_of_try_error C key s e he
  unfold decryptTry createCipheriv
  simp only []
  by_cases hk : key.length ≠ 32
  · rw [if_pos hk]; exact ⟨_, rfl⟩
  · by_cases hiv : (hexDecode ((split 58 s).headD [])).length ≠ 16
    · rw [if_neg hk, if_pos hiv]; exact ⟨_, rfl⟩
    · rw [if_neg hk, if_neg hiv]
      rcases h with h | h | ⟨e, he, h⟩
      · rw [split_of_not_mem 58 s h]; exact ⟨_, rfl⟩
      · exact absurd h hiv
      · simp only [he]
        by_cases h2 : e.length % 2 ≠ 0
        · rw [if_pos h2]; exact ⟨_, rfl⟩
        · have h3 : (hexDecode e).length = 0 ∨ (hexDecode e).length % 16 ≠ 0 := by
            rcases h with h | h
            · exact absurd h h2
            · exact h
          rw [if_neg h2, if_pos h3]; exact ⟨_, rfl⟩

theorem decrypt_fails_witness :
    decrypt shiftCipher (KEY_BUFFER none) (js "00ff") = .error (js "Falha na descriptografia") :=
  decrypt_fails shiftCipher (KEY_BUFFER none) (js "00ff") (Or.inl (by decide))

/-- Claim C8 as stated fails: with characters that are not hexadecimal digits
after the 32 digits of the IV and after the digits of the ciphertext, `decrypt`
ignores them and returns the plaintext. -/
theorem decrypt_accepts_invalid_hex :
    ¬ ∀ (C : BlockCipher) (key : Bytes) (s : JSString),
      (58 ∉ s ∨ ¬ IsHex ((split 58 s).headD []) ∨
        ∃ e, (split 58 s).tail.head? = some e ∧
          (¬ IsHex e ∨ (hexDecode e).length = 0 ∨ (hexDecode e).length % 16 ≠ 0)) →
      decrypt C key s = .error (js "Falha na descriptografia") := by
  intro h
  have h1 := h shiftCipher (KEY_BUFFER none)
    (js "000102030405060708090a0b0c0d0e0fzz:bbbdbbc1bbbdbbc9bbc3c59893929594zz")
    (Or.inr (Or.inl (by decide)))
  revert h1
  decide

/-- Claim C10 at the secret `"é"`: the derived key has 33 bytes, and `encrypt`
then throws for every IV and plaintext. -/
theorem KEY_BUFFER_non_ascii :
    (KEY_BUFFER (some (js "é"))).length = 33 ∧
      ∀ (C : BlockCipher) (iv : Bytes) (text : JSString),
        encrypt C (KEY_BUFFER (some (js "é"))) iv text = .error (js "Falha na criptografia") := by
  refine ⟨by decide, ?_⟩
  intro C iv text
  have h : (KEY_BUFFER (some (js "é"))).length ≠ 32 := by decide
  simp [encrypt, encryptTry, createCipheriv, h]

/-! ## Authentication -/

theorem split_eq_singleton (sep : Nat) (s b : JSString) (h : split sep s = [b]) :
    s = b ∧ sep ∉ s := by
  induction s generalizing b with
  | nil =>
    simp only [split, List.cons.injEq, and_true] at h
    exact ⟨h, by simp⟩
  | cons c rest ih =>
    simp only [split] at h
    split_ifs at h with hc
    · simp only [List.cons.injEq] at h
      exact absurd h.2 (split_ne_nil sep rest)
    · cases hs : split sep rest with
      | nil => exact absurd hs (split_ne_nil sep rest)
      | cons p ps =>
        rw [hs] at h
        simp only [List.cons.injEq] at h
        obtain ⟨h1, h2⟩ := h
        subst h2
        obtain ⟨e1, e2⟩ := ih p hs
        subst h1
        subst e1
        refine ⟨rfl, ?_⟩
        simp only [List.mem_cons, not_or]
        exact ⟨fun e => hc e.symm, e2⟩

theorem split_eq_pair (sep : Nat) (s a b : JSString) :
    split sep s = [a, b] ↔ s = a ++ sep :: b ∧ sep ∉ a ∧ sep ∉ b := by
  constructor
  · intro h
    induction s generalizing a with
    | nil => simp [split] at h
    | cons c rest ih =>
      simp only [split] at h
      split_ifs at h with hc
      · simp only [List.cons.injEq] at h
        obtain ⟨h1, h2⟩ := h
        obtain ⟨e1, e2⟩ := split_eq_singleton sep rest b h2
        subst h1; subst e1; subst hc
        exact ⟨rfl, by simp, e2⟩
      · cases hs : split sep rest with
        | nil => exact absurd hs (split_ne_nil sep rest)
        | cons p ps =>
          rw [hs] at h
          simp only [List.cons.injEq] at h
          obtain ⟨h1, h2⟩ := h
          subst h2
          obtain ⟨e1, e2, e3⟩ := ih p hs
          subst h1
          refine ⟨by rw [e1]; rfl, ?_, e3⟩
          simp only [List.mem_cons, not_or]
          exact ⟨fun e => hc e.symm, e2⟩
  · rintro ⟨h1, h2, h3⟩
    rw [h1, split_append_sep sep a b h2, split_of_not_mem sep b h3]

/-- Whether the middleware called `next()`. -/
theorem authenticateAPIKey_next_iff (apiKey : JSString) (authHeader : Option JSString) :
    authenticateAPIKey apiKey authHeader = .next ↔
      ∃ h, authHeader = some h ∧ split 32 h = [js "Bearer", apiKey] := by
  unfold authenticateAPIKey
  cases authHeader with
  | none => simp
  | some header =>
    by_cases he : header = []
    · subst he
      simp [split]
    · simp only [he, if_false, Option.some.injEq, exists_eq_left']
      split
      · rename_i scheme token hs
        by_cases h1 : scheme ≠ js "Bearer"
        · rw [if_pos h1]
          simp only [reduceCtorEq, false_iff]
          intro h2
          rw [hs] at h2
          simp only [List.cons.injEq, and_true] at h2
          exact h1 h2.1
        · rw [if_neg h1]
          by_cases h2 : token ≠ apiKey
          · rw [if_pos h2]
            simp only [reduceCtorEq, false_iff]
            intro h3
            rw [hs] at h3
            simp only [List.cons.injEq, and_true] at h3
            exact h2 h3.2
          · rw [if_neg h2]
            simp only [ne_eq, Decidable.not_not] at h1 h2
            simp [hs, h1, h2]
      · rename_i hs
        simp only [reduceCtorEq, false_iff]
        intro h2
        exact hs _ _ h2

theorem split_bearer (apiKey : JSString) (h : 32 ∉ apiKey) (header : JSString) :
    split 32 header = [js "Bearer", apiKey] ↔ header = js "Bearer " ++ apiKey := by
  rw [split_eq_pair]
  have e : js "Bearer " ++ apiKey = js "Bearer" ++ 32 :: apiKey := by
    have : js "Bearer " = js "Bearer" ++ [32] := by decide
    rw [this]; simp
  rw [e]
  constructor
  · exact fun h1 => h1.1
  · exact fun h1 => ⟨h1, by decide, h⟩

/-- What the middleware does: one of four things, and `next()` exactly when the
header split on single spaces is the pair `Bearer`, API key; for an API key
without a space that is the header `Bearer ` followed by the key.  When it
does not call `next()` the gateway answers without running a route and
without calling the peer. -/
theorem authenticateAPIKey_cases (apiKey : JSString) (authHeader : Option JSString) :
    ((authHeader = none ∧ ∃ b, authenticateAPIKey apiKey authHeader = .respond ⟨401, b⟩) ∨
      (∃ h, authHeader = some h ∧ (∀ t, split 32 h ≠ [js "Bearer", t]) ∧
        ∃ b, authenticateAPIKey apiKey authHeader = .respond ⟨401, b⟩) ∨
      (∃ h t, authHeader = some h ∧ split 32 h = [js "Bearer", t] ∧ t ≠ apiKey ∧
        ∃ b, authenticateAPIKey apiKey authHeader = .respond ⟨403, b⟩) ∨
      (∃ h, authHeader = some h ∧ split 32 h = [js "Bearer", apiKey] ∧
        authenticateAPIKey apiKey authHeader = .next)) ∧
    (32 ∉ apiKey →
      (authenticateAPIKey apiKey authHeader = .next ↔
        authHeader = some (js "Bearer " ++ apiKey))) ∧
    (∀ (σ : Type) (C : BlockCipher) (encryptionKeyEnv apiKeyEnv : Option JSString)
      (peer : Peer σ) (s : σ) (req : ApiRequest),
      authenticateAPIKey (API_KEY apiKeyEnv) authHeader ≠ .next →
        (serveApi C encryptionKeyEnv apiKeyEnv peer s authHeader req).sent = [] ∧
        (serveApi C encryptionKeyEnv apiKeyEnv peer s authHeader req).peerState = s ∧
        ∃ r, (serveApi C encryptionKeyEnv apiKeyEnv peer s authHeader req).response = some r ∧
          (r.status = 401 ∨ r.status = 403)) := by
  have hcases : (authHeader = none ∧ ∃ b, authenticateAPIKey apiKey authHeader = .respond ⟨401, b⟩) ∨
      (∃ h, authHeader = some h ∧ (∀ t, split 32 h ≠ [js "Bearer", t]) ∧
        ∃ b, authenticateAPIKey apiKey authHeader = .respond ⟨401, b⟩) ∨
      (∃ h t, authHeader = some h ∧ split 32 h = [js "Bearer", t] ∧ t ≠ apiKey ∧
        ∃ b, authenticateAPIKey apiKey authHeader = .respond ⟨403, b⟩) ∨
      (∃ h, authHeader = some h ∧ split 32 h = [js "Bearer", apiKey] ∧
        authenticateAPIKey apiKey authHeader = .next) := by
    cases authHeader with
    | none => exact Or.inl ⟨rfl, _, rfl⟩
    | some header =>
      right
      by_cases he : header = []
      · subst he
        refine Or.inl ⟨[], rfl, ?_, _, rfl⟩
        intro t
        simp [split]
      · by_cases hs : ∃ t, split 32 header = [js "Bearer", t]
        · obtain ⟨t, ht⟩ := hs
          right
          by_cases hk : t = apiKey
          · subst hk
            exact Or.inr ⟨header, rfl, ht, (authenticateAPIKey_next_iff _ _).mpr ⟨header, rfl, ht⟩⟩
          · refine Or.inl ⟨header, t, rfl, ht, hk, ?_⟩
            unfold authenticateAPIKey
            simp [he, ht, hk]
        · have hs2 : ∀ t, split 32 header ≠ [js "Bearer", t] := fun t ht => hs ⟨t, ht⟩
          refine Or.inl ⟨header, rfl, hs2, ?_⟩
          unfold authenticateAPIKey
          simp only [he, if_false]
          split
          · rename_i scheme token hst
            by_cases h1 : scheme ≠ js "Bearer"
            · rw [if_pos h1]; exact ⟨_, rfl⟩
            · simp only [ne_eq, Decidable.not_not] at h1
              subst h1
              exact absurd hst (hs2 token)
          · exact ⟨_, rfl⟩
  refine ⟨hcases, ?_, ?_⟩
  · intro hk
    rw [authenticateAPIKey_next_iff]
    constructor
    · rintro ⟨h, rfl, hs⟩
      rw [(split_bearer apiKey hk h).mp hs]
    · intro h
      exact ⟨_, h, (split_bearer apiKey hk _).mpr rfl⟩
  · intro σ C encryptionKeyEnv apiKeyEnv peer s req hn
    unfold serveApi
    cases ha : authenticateAPIKey (API_KEY apiKeyEnv) authHeader with
    | next => exact absurd ha hn
    | respond r =>
      refine ⟨rfl, rfl, r, rfl, ?_⟩
      have hc : ∀ (k : JSString) (r : Response),
          authenticateAPIKey k authHeader = .respond r → r.status = 401 ∨ r.status = 403 := by
        intro k r hr
        unfold authenticateAPIKey at hr
        cases authHeader with
        | none => simp only [Middleware.respond.injEq] at hr; subst hr; exact Or.inl rfl
        | some header =>
          simp only at hr
          split_ifs at hr with he
          · simp only [Middleware.respond.injEq] at hr; subst hr; exact Or.inl rfl
          · split at hr
            · split_ifs at hr
              · simp only [Middleware.respond.injEq] at hr; subst hr; exact Or.inl rfl
              · simp only [Middleware.respond.injEq] at hr; subst hr; exact Or.inr rfl
            · simp only [Middleware.respond.injEq] at hr; subst hr; exact Or.inl rfl
      exact hc _ r ha

/-- Claim C1 on the code: with the API key `a b` configured, the header
`Bearer a b`, which is `Bearer ` followed by the key, is split into three
parts and answered 401 'Formato de autenticação inválido'; `next()` is not
called, and for that key no header at all makes the middleware call `next()`. -/
theorem authenticateAPIKey_key_with_space :
    authenticateAPIKey (js "a b") (some (js "Bearer " ++ js "a b")) =
      .respond ⟨401, .obj [(js "success", .bool false),
        (js "message",
          .str (js "Formato de autenticação inválido. Use: Bearer \x7bAPI_KEY\x7d"))]⟩ ∧
    ∀ authHeader, authenticateAPIKey (js "a b") authHeader ≠ .next := by
  refine ⟨rfl, ?_⟩
  intro authHeader h
  obtain ⟨hd, _, h3⟩ := (authenticateAPIKey_next_iff _ _).mp h
  have h4 := ((split_eq_pair 32 hd (js "Bearer") (js "a b")).mp h3).2.2
  revert h4
  decide

/-! ## Regular expressions -/

namespace Regex

theorem lang_of_nullable (r : Regex) (h : nullable r = true) : Lang r [] := by
  induction r with
  | nothing => simp [nullable] at h
  | empty => exact Lang.empty
  | cls p => simp [nullable] at h
  | seq a b iha ihb =>
    simp only [nullable, Bool.and_eq_true] at h
    exact Lang.seq a b [] [] (iha h.1) (ihb h.2)
  | alt a b iha ihb =>
    simp only [nullable, Bool.or_eq_true] at h
    rcases h with h | h
    · exact Lang.altLeft a b [] (iha h)
    · exact Lang.altRight a b [] (ihb h)
  | star a _ => exact Lang.starNil a

theorem lang_of_deriv (c : Nat) (r : Regex) (s : JSString) (h : Lang (deriv c r) s) :
    Lang r (c :: s) := by
  induction r generalizing s with
  | nothing => simp only [deriv] at h; cases h
  | empty => simp only [deriv] at h; cases h
  | cls p =>
    simp only [deriv] at h
    by_cases hp : p c = true
    · rw [if_pos hp] at h
      cases h
      exact Lang.cls p c hp
    · rw [if_neg hp] at h
      cases h
  | seq a b iha ihb =>
    simp only [deriv] at h
    by_cases hn : nullable a = true
    · rw [if_pos hn] at h
      cases h with
      | altLeft _ _ _ h1 =>
        cases h1 with
        | seq _ _ s1 s2 h2 h3 => exact Lang.seq a b (c :: s1) s2 (iha s1 h2) h3
      | altRight _ _ _ h1 =>
        exact Lang.seq a b [] (c :: s) (lang_of_nullable a hn) (ihb s h1)
    · rw [if_neg hn] at h
      cases h with
      | seq _ _ s1 s2 h2 h3 => exact Lang.seq a b (c :: s1) s2 (iha s1 h2) h3
  | alt a b iha ihb =>
    simp only [deriv] at h
    cases h with
    | altLeft _ _ _ h1 => exact Lang.altLeft a b _ (iha s h1)
    | altRight _ _ _ h1 => exact Lang.altRight a b _ (ihb s h1)
  | star a iha =>
    simp only [deriv] at h
    cases h with
    | seq _ _ s1 s2 h2 h3 => exact Lang.starCons a (c :: s1) s2 (iha s1 h2) h3

theorem lang_of_test (r : Regex) (s : JSString) (h : test r s = true) : Lang r s := by
  induction s generalizing r with
  | nil => exact lang_of_nullable r h
  | cons c rest ih => exact lang_of_deriv c r rest (ih (deriv c r) h)

theorem within_of_lang (P : Nat → Prop) (r : Regex) (s : JSString) (hw : Within P r)
    (h : Lang r s) : ∀ c ∈ s, P c := by
  induction h with
  | empty => intro c hc; simp at hc
  | cls p c hp =>
    intro d hd
    simp only [List.mem_singleton] at hd
    subst hd
    exact hw d hp
  | seq a b s t _ _ iha ihb =>
    intro c hc
    rcases List.mem_append.mp hc with h | h
    · exact iha hw.1 c h
    · exact ihb hw.2 c h
  | altLeft a b s _ ih => exact ih hw.1
  | altRight a b s _ ih => exact ih hw.2
  | starNil a => intro c hc; simp at hc
  | starCons a s t _ _ iha ihb =>
    intro c hc
    rcases List.mem_append.mp hc with h | h
    · exact iha hw c h
    · exact ihb hw c h

/-- A string accepted by `test` consists of characters of the classes of the
expression. -/
theorem within_of_test (P : Nat → Prop) (r : Regex) (s : JSString) (hw : Within P r)
    (h : test r s = true) : ∀ c ∈ s, P c :=
  within_of_lang P r s hw (lang_of_test r s h)

theorem within_times (P : Nat → Prop) (a : Regex) (n : Nat) (h : Within P a) :
    Within P (times a n) := by
  induction n with
  | zero => trivial
  | succ n ih => exact ⟨h, ih⟩

end Regex

theorem cpf_digits (cpf : JSString) (h : cpfRegex.test cpf = true) :
    ∀ c ∈ cpf, 48 ≤ c ∧ c ≤ 57 := by
  refine Regex.within_of_test (fun c => 48 ≤ c ∧ c ≤ 57) cpfRegex cpf ?_ h
  apply Regex.within_times
  intro c hc
  simpa [isDigit] using hc

theorem uuid_plain (id : JSString) (h : uuidRegex.test id = true) : ∀ c ∈ id, IsPlain c := by
  refine Regex.within_of_test IsPlain uuidRegex id ?_ h
  have hx : Regex.Within IsPlain (.cls isHexDigitI) := by
    intro c hc
    simp only [isHexDigitI, decide_eq_true_eq] at hc
    unfold IsPlain
    omega
  have hd : ∀ p : Nat → Bool, (∀ c, p c = true → IsPlain c) → Regex.Within IsPlain (.cls p) :=
    fun p hp => hp
  refine ⟨Regex.within_times _ _ _ hx, hd _ ?_, Regex.within_times _ _ _ hx, hd _ ?_, hd _ ?_,
    Regex.within_times _ _ _ hx, hd _ ?_, hd _ ?_, Regex.within_times _ _ _ hx, hd _ ?_,
    Regex.within_times _ _ _ hx⟩ <;>
  · intro c hc
    simp only [decide_eq_true_eq] at hc
    unfold IsPlain
    omega

theorem iso_plain (t : JSString) (h : isoRegex.test t = true) : ∀ c ∈ t, IsPlain c := by
  refine Regex.within_of_test IsPlain isoRegex t ?_ h
  have hx : Regex.Within IsPlain (.cls isDigit) := by
    intro c hc
    simp only [isDigit, decide_eq_true_eq] at hc
    unfold IsPlain
    omega
  have hd : ∀ p : Nat → Bool, (∀ c, p c = true → IsPlain c) → Regex.Within IsPlain (.cls p) :=
    fun p hp => hp
  refine ⟨Regex.within_times _ _ _ hx, hd _ ?_, Regex.within_times _ _ _ hx, hd _ ?_,
    Regex.within_times _ _ _ hx, hd _ ?_, Regex.within_times _ _ _ hx, hd _ ?_,
    Regex.within_times _ _ _ hx, hd _ ?_, Regex.within_times _ _ _ hx, hd _ ?_,
    Regex.within_times _ _ _ hx, hd _ ?_⟩ <;>
  · intro c hc
    simp only [decide_eq_true_eq] at hc
    unfold IsPlain
    omega

/-! ## The scanner -/

theorem saxRun_append (st st2 : SaxState) (a b : JSString) (h : saxRun st a = .ok st2) :
    saxRun st (a ++ b) = saxRun st2 b := by
  induction a generalizing st with
  | nil =>
    simp only [saxRun, Except.ok.injEq] at h
    subst h
    rfl
  | cons c rest ih =>
    simp only [saxRun, List.cons_append] at h ⊢
    cases hs : saxStep st c with
    | error e => rw [hs] at h; cases h
    | ok next =>
      rw [hs] at h
      exact ih next h

theorem sax_text_plain (pre : List SaxEvent) (acc w rest : JSString)
    (h : ∀ c ∈ w, c ≠ 60 ∧ c ≠ 38) :
    saxRun ⟨pre, .text acc⟩ (w ++ rest) = saxRun ⟨pre, .text (acc ++ w)⟩ rest := by
  induction w generalizing acc with
  | nil => simp
  | cons c w ih =>
    have hc := h c (List.mem_cons_self _ _)
    have hw : ∀ d ∈ w, d ≠ 60 ∧ d ≠ 38 := fun d hd => h d (List.mem_cons_of_mem _ hd)
    have hs : saxStep ⟨pre, .text acc⟩ c = .ok ⟨pre, .text (acc ++ [c])⟩ := by
      simp [saxStep, hc.1, hc.2]
    simp only [List.cons_append, saxRun, hs, List.append_eq]
    rw [ih (acc ++ [c]) hw]
    simp

theorem sax_text_escaped (pre : List SaxEvent) (acc s rest : JSString) :
    saxRun ⟨pre, .text acc⟩ (textEscape s ++ rest) = saxRun ⟨pre, .text (acc ++ s)⟩ rest := by
  induction s generalizing acc with
  | nil => simp [textEscape]
  | cons c s ih =>
    have e : acc ++ c :: s = (acc ++ [c]) ++ s := by simp
    rw [e, ← ih (acc ++ [c])]
    simp only [textEscape]
    by_cases h1 : c = 38
    · subst h1; rfl
    · by_cases h2 : c = 60
      · subst h2; rfl
      · by_cases h3 : c = 62
        · subst h3; rfl
        · by_cases h4 : c = 13
          · subst h4; rfl
          · have hs : saxStep ⟨pre, .text acc⟩ c = .ok ⟨pre, .text (acc ++ [c])⟩ := by
              simp [saxStep, h1, h2]
            simp only [h1, h2, h3, h4, if_false, List.cons_append, List.nil_append, saxRun, hs, List.append_eq]

theorem sax_tag_body (pre : List SaxEvent) (raw n rest : JSString) (h : ∀ c ∈ n, c ≠ 62) :
    saxRun ⟨pre, .tag raw⟩ (n ++ rest) = saxRun ⟨pre, .tag (raw ++ n)⟩ rest := by
  induction n generalizing raw with
  | nil => simp
  | cons c n ih =>
    have hc := h c (List.mem_cons_self _ _)
    have hn : ∀ d ∈ n, d ≠ 62 := fun d hd => h d (List.mem_cons_of_mem _ hd)
    have hs : saxStep ⟨pre, .tag raw⟩ c = .ok ⟨pre, .tag (raw ++ [c])⟩ := by
      simp [saxStep, hc]
    simp only [List.cons_append, saxRun, hs, List.append_eq]
    rw [ih (raw ++ [c]) hn]
    simp

theorem nameChar_facts (c : Nat) (h : isNameChar c = true) :
    c ≠ 62 ∧ c ≠ 47 ∧ c ≠ 63 ∧ c ≠ 60 ∧ isXmlSpace c = false := by
  simp only [isNameChar, isNameStartChar, Bool.or_eq_true, decide_eq_true_eq] at h
  simp only [isXmlSpace, decide_eq_false_iff_not]
  omega

theorem nameStartChar_nameChar (c : Nat) (h : isNameStartChar c = true) : isNameChar c = true := by
  simp [isNameChar, h]

theorem xmlName_chars (n : JSString) (h : isXmlName n = true) : ∀ c ∈ n, isNameChar c = true := by
  cases n with
  | nil => simp [isXmlName] at h
  | cons c rest =>
    simp only [isXmlName, Bool.and_eq_true, List.all_eq_true] at h
    intro d hd
    rcases List.mem_cons.mp hd with rfl | hd
    · exact nameStartChar_nameChar d h.1
    · exact h.2 d hd

theorem trimEnd_of_name (n : JSString) (h : isXmlName n = true) : trimEnd n = n := by
  unfold trimEnd
  cases hr : n.reverse with
  | nil => rw [List.reverse_eq_nil_iff] at hr; subst hr; rfl
  | cons x xs =>
    have hx : x ∈ n := by
      rw [← List.mem_reverse, hr]; exact List.mem_cons_self _ _
    have := (nameChar_facts x (xmlName_chars n h x hx)).2.2.2.2
    rw [List.dropWhile_cons_of_neg (by simp [this]), ← hr, List.reverse_reverse]

theorem getLast?_of_name (n : JSString) (h : isXmlName n = true) : n.getLast? ≠ some 47 := by
  intro hl
  have hm : (47 : Nat) ∈ n := List.mem_of_getLast?_eq_some hl
  exact (nameChar_facts 47 (xmlName_chars n h 47 hm)).2.1 rfl

theorem classifyTag_open (n : JSString) (h : isXmlName n = true) :
    classifyTag n = .openTag n := by
  cases n with
  | nil => simp [isXmlName] at h
  | cons c rest =>
    have hc := nameChar_facts c (xmlName_chars _ h c (List.mem_cons_self _ _))
    have hl := getLast?_of_name _ h
    unfold classifyTag
    split
    · rename_i heq; simp only [List.cons.injEq] at heq; exact absurd heq.1 hc.2.2.1
    · rename_i heq; simp only [List.cons.injEq] at heq; exact absurd heq.1 hc.2.1
    · rw [if_neg hl, trimEnd_of_name _ h, if_pos h]

theorem classifyTag_close (n : JSString) (h : isXmlName n = true) :
    classifyTag (47 :: n) = .closeTag n := by
  simp [classifyTag, trimEnd_of_name n h, h]

theorem classifyTag_selfClosing (n : JSString) (h : isXmlName n = true) :
    classifyTag (n ++ [47]) = .selfClosing n := by
  cases n with
  | nil => simp [isXmlName] at h
  | cons c rest =>
    have hc := nameChar_facts c (xmlName_chars _ h c (List.mem_cons_self _ _))
    unfold classifyTag
    split
    · rename_i heq; simp only [List.cons_append, List.cons.injEq] at heq; exact absurd heq.1 hc.2.2.1
    · rename_i heq; simp only [List.cons_append, List.cons.injEq] at heq; exact absurd heq.1 hc.2.1
    · have hl : (c :: rest ++ [47]).getLast? = some 47 := List.getLast?_concat (c :: rest)
      rw [if_pos hl, List.dropLast_concat, trimEnd_of_name _ h, if_pos h]

theorem name_no_gt (n : JSString) (h : isXmlName n = true) : ∀ c ∈ n, c ≠ 62 :=
  fun c hc => (nameChar_facts c (xmlName_chars n h c hc)).1

theorem sax_open (pre : List SaxEvent) (acc n rest : JSString) (h : isXmlName n = true) :
    saxRun ⟨pre, .text acc⟩ (60 :: (n ++ 62 :: rest)) =
      saxRun ⟨pre ++ flushText acc ++ [.openTag n], .text []⟩ rest := by
  have h1 : saxStep ⟨pre, .text acc⟩ 60 = .ok ⟨pre ++ flushText acc, .tag []⟩ := by
    simp [saxStep]
  have h2 : saxStep ⟨pre ++ flushText acc, .tag ([] ++ n)⟩ 62 =
      .ok ⟨pre ++ flushText acc ++ [.openTag n], .text []⟩ := by
    simp [saxStep, classifyTag_open n h]
  simp only [saxRun, h1]
  rw [sax_tag_body _ _ _ _ (name_no_gt n h)]
  simp only [saxRun, h2]

theorem sax_close (pre : List SaxEvent) (acc n rest : JSString) (h : isXmlName n = true) :
    saxRun ⟨pre, .text acc⟩ (60 :: 47 :: (n ++ 62 :: rest)) =
      saxRun ⟨pre ++ flushText acc ++ [.closeTag n], .text []⟩ rest := by
  have h1 : saxStep ⟨pre, .text acc⟩ 60 = .ok ⟨pre ++ flushText acc, .tag []⟩ := by
    simp [saxStep]
  have h0 : saxStep ⟨pre ++ flushText acc, .tag []⟩ 47 = .ok ⟨pre ++ flushText acc, .tag [47]⟩ := by
    simp [saxStep]
  have h2 : saxStep ⟨pre ++ flushText acc, .tag ([47] ++ n)⟩ 62 =
      .ok ⟨pre ++ flushText acc ++ [.closeTag n], .text []⟩ := by
    simp [saxStep, classifyTag_close n h]
  simp only [saxRun, h1, h0]
  rw [sax_tag_body _ _ _ _ (name_no_gt n h)]
  simp only [saxRun, h2]

theorem sax_selfClosing (pre : List SaxEvent) (acc n rest : JSString) (h : isXmlName n = true) :
    saxRun ⟨pre, .text acc⟩ (60 :: (n ++ 47 :: 62 :: rest)) =
      saxRun ⟨pre ++ flushText acc ++ [.openTag n, .closeTag n], .text []⟩ rest := by
  have h1 : saxStep ⟨pre, .text acc⟩ 60 = .ok ⟨pre ++ flushText acc, .tag []⟩ := by
    simp [saxStep]
  have h0 : saxStep ⟨pre ++ flushText acc, .tag ([] ++ n)⟩ 47 =
      .ok ⟨pre ++ flushText acc, .tag (n ++ [47])⟩ := by
    simp [saxStep]
  have h2 : saxStep ⟨pre ++ flushText acc, .tag (n ++ [47])⟩ 62 =
      .ok ⟨pre ++ flushText acc ++ [.openTag n, .closeTag n], .text []⟩ := by
    simp [saxStep, classifyTag_selfClosing n h]
  simp only [saxRun, h1]
  rw [sax_tag_body _ _ _ _ (name_no_gt n h)]
  simp only [saxRun, h0, h2]

theorem sax_declaration (pre : List SaxEvent) (rest : JSString) :
    saxRun ⟨pre, .text []⟩ (xmlDeclaration ++ rest) = saxRun ⟨pre, .text []⟩ rest := by
  have h : saxRun ⟨pre, .text []⟩ xmlDeclaration = .ok ⟨pre ++ [], .text []⟩ := rfl
  rw [saxRun_append _ _ _ _ h, List.append_nil]

/-! ## The writer, read by the scanner -/

theorem indent_plain (level : Nat) : ∀ c ∈ indent level, c ≠ 60 ∧ c ≠ 38 := by
  intro c hc
  have := List.eq_of_mem_replicate hc
  omega

theorem textEscape_isEmpty (s : JSString) : (textEscape s).isEmpty = s.isEmpty := by
  cases s with
  | nil => rfl
  | cons c rest =>
    simp only [textEscape, List.isEmpty_cons]
    split_ifs <;> rfl

theorem writeNode_leaf (level : Nat) (n v : JSString) :
    writeNode level (.element n [.text v]) =
      indent level ++ (if v.isEmpty then 60 :: n ++ [47, 62, 10]
        else 60 :: n ++ 62 :: v ++ 60 :: 47 :: n ++ [62, 10]) := by
  by_cases h : v.isEmpty = true <;> simp [writeNode, isEmptyText, h]

theorem writeNode_container (level : Nat) (n m : JSString) (cs rest : List XNode) :
    writeNode level (.element n (.element m cs :: rest)) =
      indent level ++ 60 :: n ++ 62 :: 10 :: writeNodes (level + 1) (.element m cs :: rest) ++
        indent level ++ 60 :: 47 :: n ++ [62, 10] := by
  simp [writeNode, isEmptyText]

theorem flushText_nonempty (c : Nat) (s : JSString) : flushText (c :: s) = [.text (c :: s)] := rfl

theorem saxSpec_leaf (level : Nat) (n s : JSString) (h : isXmlName n = true) :
    SaxSpec level (.element n [.text (textEscape s)]) (leafEvents n s) := by
  intro pre acc rest
  rw [writeNode_leaf, textEscape_isEmpty, List.append_assoc,
    sax_text_plain _ _ _ _ (indent_plain level)]
  cases s with
  | nil =>
    simp only [List.isEmpty_nil, if_true, List.append_assoc, List.cons_append, List.nil_append]
    rw [sax_selfClosing _ _ _ _ h]
    simp [saxRun, saxStep, leafEvents, flushText]
  | cons c s =>
    simp only [List.isEmpty_cons, Bool.false_eq_true, if_false, List.append_assoc,
      List.cons_append, List.nil_append]
    rw [sax_open _ _ _ _ h, sax_text_escaped, sax_close _ _ _ _ h]
    simp [saxRun, saxStep, leafEvents, flushText]

theorem sax_children (level : Nat) (parts : List Part)
    (h : ∀ p ∈ parts, SaxSpec level p.node p.events) (pre : List SaxEvent) (rest : JSString) :
    saxRun ⟨pre, .text [10]⟩ (writeNodes level (parts.map Part.node) ++ rest) =
      saxRun ⟨pre ++ childrenEvents (10 :: indent level) parts, .text [10]⟩ rest := by
  induction parts generalizing pre with
  | nil => simp [writeNodes, childrenEvents]
  | cons p ps ih =>
    have hp := h p (List.mem_cons_self _ _)
    have hps : ∀ q ∈ ps, SaxSpec level q.node q.events :=
      fun q hq => h q (List.mem_cons_of_mem _ hq)
    simp only [List.map_cons, writeNodes, List.append_assoc]
    rw [hp pre [10] _, ih hps]
    simp [childrenEvents, flushText]

theorem sax_container_body (level : Nat) (n : JSString) (parts : List Part)
    (hn : isXmlName n = true) (h : ∀ p ∈ parts, SaxSpec (level + 1) p.node p.events)
    (pre : List SaxEvent) (acc rest : JSString) :
    saxRun ⟨pre, .text acc⟩ (indent level ++ 60 :: (n ++ 62 :: 10 ::
        (writeNodes (level + 1) (parts.map Part.node) ++ (indent level ++
          60 :: 47 :: (n ++ 62 :: rest))))) =
      saxRun ⟨pre ++ flushText (acc ++ indent level) ++ containerEvents level n parts,
        .text []⟩ rest := by
  have h10 : ∀ (ev : List SaxEvent) (r : JSString),
      saxRun ⟨ev, .text []⟩ (10 :: r) = saxRun ⟨ev, .text [10]⟩ r := fun _ _ => rfl
  rw [sax_text_plain _ _ _ _ (indent_plain level), sax_open _ _ _ _ hn, h10,
    sax_children _ _ h, sax_text_plain _ _ _ _ (indent_plain level), sax_close _ _ _ _ hn]
  simp [containerEvents, elementEvents, flushText]

theorem saxSpec_container (level : Nat) (n : JSString) (p : Part) (ps : List Part)
    (hn : isXmlName n = true) (he : ∃ m cs, p.node = .element m cs)
    (h : ∀ q ∈ p :: ps, SaxSpec (level + 1) q.node q.events) :
    SaxSpec level (.element n ((p :: ps).map Part.node)) (containerEvents level n (p :: ps)) := by
  intro pre acc rest
  obtain ⟨m, cs, hm⟩ := he
  have hw : writeNode level (.element n ((p :: ps).map Part.node)) ++ rest =
      indent level ++ 60 :: (n ++ 62 :: 10 ::
        (writeNodes (level + 1) ((p :: ps).map Part.node) ++ (indent level ++
          60 :: 47 :: (n ++ 62 :: (10 :: rest))))) := by
    simp only [List.map_cons, hm, writeNode_container]
    simp
  rw [hw, sax_container_body level n (p :: ps) hn h]
  rfl

/-! ## The assembler -/

theorem nodeValue_leaf (n s : JSString) : nodeValue ⟨n, s, []⟩ = .str s := by
  unfold nodeValue
  split_ifs <;> first | rfl | (simp at *)

theorem asmRun_append (opts : ParserOptions) (st st2 : AsmState) (a b : List SaxEvent)
    (h : asmRun opts st a = .ok st2) : asmRun opts st (a ++ b) = asmRun opts st2 b := by
  induction a generalizing st with
  | nil =>
    simp only [asmRun, Except.ok.injEq] at h
    subst h
    rfl
  | cons ev rest ih =>
    simp only [asmRun, List.cons_append] at h ⊢
    cases hs : asmStep opts st ev with
    | error e => rw [hs] at h; cases h
    | ok next =>
      rw [hs] at h
      exact ih next h

theorem asmSpec_leaf (opts : ParserOptions) (n s : JSString) :
    AsmSpec opts (leafEvents n s) n (.str s) := by
  intro top others rest
  cases s with
  | nil =>
    simp [leafEvents, flushText, asmRun, asmStep, nodeValue_leaf]
  | cons c s =>
    simp [leafEvents, flushText, asmRun, asmStep, nodeValue_leaf]

theorem asm_children (opts : ParserOptions) (w : JSString) (parts : List Part)
    (h : ∀ p ∈ parts, AsmSpec opts p.events p.key p.value)
    (top : OpenNode) (others : List OpenNode) (rest : List SaxEvent) :
    asmRun opts ⟨top :: others, none⟩ (childrenEvents w parts ++ rest) =
      asmRun opts ⟨⟨top.name, top.text ++ (parts.flatMap fun _ => w),
        assignAll opts top.fields parts⟩ :: others, none⟩ rest := by
  induction parts generalizing top with
  | nil => simp [childrenEvents, assignAll]
  | cons p ps ih =>
    have hp := h p (List.mem_cons_self _ _)
    have hps : ∀ q ∈ ps, AsmSpec opts q.events q.key q.value :=
      fun q hq => h q (List.mem_cons_of_mem _ hq)
    have e : childrenEvents w (p :: ps) ++ rest =
        .text w :: (p.events ++ (childrenEvents w ps ++ rest)) := by
      simp [childrenEvents]
    have h1 : asmStep opts ⟨top :: others, none⟩ (.text w) =
        .ok ⟨⟨top.name, top.text ++ w, top.fields⟩ :: others, none⟩ := rfl
    rw [e, asmRun, h1]
    simp only []
    rw [hp ⟨top.name, top.text ++ w, top.fields⟩ others, ih hps]
    simp [assignAll]

theorem assignOrPush_isEmpty (opts : ParserOptions) (fields : List (JSString × JSValue))
    (key : JSString) (value : JSValue) : (assignOrPush opts fields key value).isEmpty = false := by
  unfold assignOrPush
  cases fields with
  | nil => simp [lookupField]
  | cons f fs =>
    obtain ⟨k, v⟩ := f
    split
    · simp
    · simp only [setField]; split_ifs <;> rfl
    · simp only [setField]; split_ifs <;> rfl

theorem assignAll_isEmpty (opts : ParserOptions) (fields : List (JSString × JSValue))
    (p : Part) (ps : List Part) : (assignAll opts fields (p :: ps)).isEmpty = false := by
  induction ps generalizing fields p with
  | nil => exact assignOrPush_isEmpty opts fields p.key p.value
  | cons q qs ih =>
    have := ih (assignOrPush opts fields p.key p.value) q
    simpa [assignAll] using this

theorem isBlank_append (a b : JSString) : isBlank (a ++ b) = (isBlank a && isBlank b) := by
  simp [isBlank]

theorem isBlank_indent (level : Nat) : isBlank (10 :: indent level) = true := by
  simp only [isBlank, indent, List.all_cons, List.all_replicate]
  simp [isSpace]

theorem isBlank_flatMap (w : JSString) (parts : List Part) (h : isBlank w = true) :
    isBlank (parts.flatMap fun _ => w) = true := by
  induction parts with
  | nil => rfl
  | cons p ps ih => simp only [List.flatMap_cons, isBlank_append, h, ih, Bool.and_self]

theorem asm_element_close (opts : ParserOptions) (w w2 n : JSString)
    (p : Part) (ps : List Part) (hw : isBlank w = true) (hw2 : isBlank w2 = true) :
    nodeValue ⟨n, [] ++ ((p :: ps).flatMap fun _ => w) ++ w2, assignAll opts [] (p :: ps)⟩ =
      .obj (assignAll opts [] (p :: ps)) := by
  have hb : isBlank ([] ++ ((p :: ps).flatMap fun _ => w) ++ w2) = true := by
    rw [isBlank_append, isBlank_append, isBlank_flatMap _ _ hw, hw2]
    rfl
  unfold nodeValue
  simp only [hb, if_true, assignAll_isEmpty, Bool.false_eq_true, if_false]

theorem asmSpec_element (opts : ParserOptions) (w w2 n : JSString)
    (p : Part) (ps : List Part) (hw : isBlank w = true) (hw2 : isBlank w2 = true)
    (h : ∀ q ∈ p :: ps, AsmSpec opts q.events q.key q.value) :
    AsmSpec opts (elementEvents w w2 n (p :: ps)) n (.obj (assignAll opts [] (p :: ps))) := by
  intro top others rest
  have e : elementEvents w w2 n (p :: ps) ++ rest =
      .openTag n :: (childrenEvents w (p :: ps) ++ (.text w2 :: .closeTag n :: rest)) := by
    simp [elementEvents]
  have h1 : asmStep opts ⟨top :: others, none⟩ (.openTag n) =
      .ok ⟨⟨n, [], []⟩ :: top :: others, none⟩ := rfl
  rw [e, asmRun, h1]
  simp only []
  rw [asm_children opts _ _ h]
  simp only [asmRun, asmStep, ne_eq, not_true_eq_false, if_false]
  rw [asm_element_close opts w w2 n p ps hw hw2]

theorem asmSpec_container (opts : ParserOptions) (level : Nat) (n : JSString)
    (p : Part) (ps : List Part) (h : ∀ q ∈ p :: ps, AsmSpec opts q.events q.key q.value) :
    AsmSpec opts (containerEvents level n (p :: ps)) n (.obj (assignAll opts [] (p :: ps))) :=
  asmSpec_element opts _ _ n p ps (isBlank_indent _) (isBlank_indent _) h

/-- The part for a string is written as an element and read back as the string. -/
theorem leafPart_encodes (level : Nat) (opts : ParserOptions) (key s : JSString)
    (h : isXmlName key = true) : (leafPart key s).Encodes level opts :=
  ⟨⟨key, _, rfl⟩, saxSpec_leaf level key s h, asmSpec_leaf opts key s⟩

/-- The part for an object is written as an element and read back as the
object of its parts. -/
theorem containerPart_encodes (level : Nat) (opts : ParserOptions) (key : JSString)
    (p : Part) (ps : List Part) (hk : isXmlName key = true)
    (h : ∀ q ∈ p :: ps, q.Encodes (level + 1) opts) :
    (containerPart opts level key (p :: ps)).Encodes level opts :=
  ⟨⟨key, _, rfl⟩,
    saxSpec_container level key p ps hk (h p (List.mem_cons_self _ _)).1 (fun q hq => (h q hq).2.1),
    asmSpec_container opts level key p ps (fun q hq => (h q hq).2.2)⟩

/-! ## Documents -/

theorem isBlank_declaration (rest : JSString) : isBlank (xmlDeclaration ++ rest) = false := rfl

theorem writeDocument_container (n : JSString) (p : Part) (ps : List Part)
    (he : ∃ m cs, p.node = .element m cs) :
    writeDocument (.element n ((p :: ps).map Part.node)) =
      xmlDeclaration ++ 10 :: (indent 0 ++ 60 :: (n ++ 62 :: 10 ::
        (writeNodes 1 ((p :: ps).map Part.node) ++ (indent 0 ++ 60 :: 47 :: (n ++ [62]))))) := by
  obtain ⟨m, cs, hm⟩ := he
  have e : xmlDeclaration ++ 10 :: writeNode 0 (.element n ((p :: ps).map Part.node)) =
      (xmlDeclaration ++ 10 :: (indent 0 ++ 60 :: (n ++ 62 :: 10 ::
        (writeNodes 1 ((p :: ps).map Part.node) ++ (indent 0 ++ 60 :: 47 :: (n ++ [62])))))) ++
        [10] := by
    simp only [List.map_cons, hm, writeNode_container]
    simp
  rw [writeDocument, e, List.dropLast_concat]

theorem saxEvents_document (n : JSString) (p : Part) (ps : List Part)
    (hn : isXmlName n = true) (he : ∃ m cs, p.node = .element m cs)
    (h : ∀ q ∈ p :: ps, SaxSpec 1 q.node q.events) :
    saxEvents (writeDocument (.element n ((p :: ps).map Part.node))) =
      .ok (.text [10] :: containerEvents 0 n (p :: ps)) := by
  have h10 : ∀ (ev : List SaxEvent) (r : JSString),
      saxRun ⟨ev, .text []⟩ (10 :: r) = saxRun ⟨ev, .text [10]⟩ r := fun _ _ => rfl
  have hr : saxRun ⟨[], .text []⟩ (writeDocument (.element n ((p :: ps).map Part.node))) =
      .ok ⟨[] ++ flushText ([10] ++ indent 0) ++ containerEvents 0 n (p :: ps), .text []⟩ := by
    rw [writeDocument_container n p ps he, sax_declaration, h10,
      sax_container_body 0 n (p :: ps) hn h]
    rfl
  unfold saxEvents
  rw [hr]
  simp [flushText, indent]

theorem asmRun_document (opts : ParserOptions) (w0 w w2 n : JSString) (p : Part)
    (ps : List Part) (hw0 : w0.all isXmlSpace = true) (hw : isBlank w = true)
    (hw2 : isBlank w2 = true) (h : ∀ q ∈ p :: ps, AsmSpec opts q.events q.key q.value) :
    asmRun opts ⟨[], none⟩ (.text w0 :: elementEvents w w2 n (p :: ps)) =
      .ok ⟨[], some (.obj [(n, .obj (assignAll opts [] (p :: ps)))])⟩ := by
  have e : elementEvents w w2 n (p :: ps) =
      .openTag n :: (childrenEvents w (p :: ps) ++ [.text w2, .closeTag n]) := by
    simp [elementEvents]
  have h0 : asmStep opts ⟨[], none⟩ (.text w0) = .ok ⟨[], none⟩ := by
    simp [asmStep, hw0]
  have h1 : asmStep opts ⟨[], none⟩ (.openTag n) = .ok ⟨[⟨n, [], []⟩], none⟩ := rfl
  rw [e, asmRun, h0]
  simp only []
  rw [asmRun, h1]
  simp only []
  rw [asm_children opts _ _ h]
  simp only [asmRun, asmStep, ne_eq, not_true_eq_false, if_false]
  rw [asm_element_close opts w w2 n p ps hw hw2]

/-- A text whose events are those of a root element holding the given parts
is read back as the object of those parts under the name of the root. -/
theorem parseString_of_events (opts : ParserOptions) (xml w0 w w2 n : JSString) (p : Part)
    (ps : List Part) (hb : isBlank xml = false)
    (he : saxEvents xml = .ok (.text w0 :: elementEvents w w2 n (p :: ps)))
    (hw0 : w0.all isXmlSpace = true) (hw : isBlank w = true) (hw2 : isBlank w2 = true)
    (h : ∀ q ∈ p :: ps, AsmSpec opts q.events q.key q.value) :
    parseString opts xml = .ok (.obj [(n, .obj (assignAll opts [] (p :: ps)))]) := by
  unfold parseString
  rw [hb, he]
  simp only [Bool.false_eq_true, if_false]
  rw [asmRun_document opts w0 w w2 n p ps hw0 hw hw2 h]
  rfl

/-- A document whose root holds the given parts is read back as the object of
those parts under the name of the root. -/
theorem parseString_document (opts : ParserOptions) (n : JSString) (p : Part) (ps : List Part)
    (hn : isXmlName n = true) (h : ∀ q ∈ p :: ps, q.Encodes 1 opts) :
    parseString opts (writeDocument (.element n ((p :: ps).map Part.node))) =
      .ok (.obj [(n, .obj (assignAll opts [] (p :: ps)))]) := by
  have he := (h p (List.mem_cons_self _ _)).1
  have hb : isBlank (writeDocument (.element n ((p :: ps).map Part.node))) = false := by
    rw [writeDocument_container n p ps he, isBlank_declaration]
  exact parseString_of_events opts _ [10] _ _ n p ps hb
    (saxEvents_document n p ps hn he (fun q hq => (h q hq).2.1)) rfl (isBlank_indent _)
    (isBlank_indent _) (fun q hq => (h q hq).2.2)

/-! ## Legal text -/

theorem wellFormed_cons_small (c : Nat) (rest : JSString)
    (hc : c < 65536 ∧ ¬ (55296 ≤ c ∧ c ≤ 57343)) (h : WellFormed rest) :
    WellFormed (c :: rest) := by
  have h1 : isHighSurrogate c = false := by simp [isHighSurrogate]; omega
  have h2 : isLowSurrogate c = false := by simp [isLowSurrogate]; omega
  have h3 : isSurrogate c = false := by simp [isSurrogate]; omega
  cases rest with
  | nil => rw [wellFormed_singleton]; exact ⟨by omega, h3⟩
  | cons v rest =>
    rw [wellFormed_cons_cons]
    refine ⟨by omega, ?_⟩
    simp only [h1, Bool.false_eq_true, if_false]
    exact ⟨h2, h⟩

theorem wellFormed_append_small (a b : JSString)
    (ha : ∀ c ∈ a, c < 65536 ∧ ¬ (55296 ≤ c ∧ c ≤ 57343)) (h : WellFormed b) :
    WellFormed (a ++ b) := by
  induction a with
  | nil => exact h
  | cons c a ih =>
    exact wellFormed_cons_small c (a ++ b) (ha c (List.mem_cons_self _ _))
      (ih fun d hd => ha d (List.mem_cons_of_mem _ hd))

theorem wellFormed_of_small (s : JSString) (h : ∀ c ∈ s, c < 55296) : WellFormed s := by
  have := wellFormed_append_small s [] (fun c hc => by have := h c hc; omega) rfl
  simpa using this

theorem legalText_of_plain (s : JSString) (h : ∀ c ∈ s, IsPlain c) : LegalText s := by
  refine ⟨wellFormed_of_small s fun c hc => ?_, fun c hc => ?_⟩
  · have := h c hc
    unfold IsPlain at this
    omega
  · have := h c hc
    unfold IsPlain at this
    simp only [isIllegalUnit, decide_eq_false_iff_not]
    omega

theorem escapeUnit_small (c : Nat) :
    ∀ d ∈ (if c = 38 then [38, 97, 109, 112, 59]
      else if c = 60 then [38, 108, 116, 59]
      else if c = 62 then [38, 103, 116, 59]
      else if c = 13 then [38, 35, 120, 68, 59]
      else [c]), d = c ∨ (32 ≤ d ∧ d ≤ 126) := by
  intro d hd
  split_ifs at hd <;> simp only [List.mem_cons, List.mem_singleton, List.not_mem_nil, or_false] at hd <;>
    omega

theorem wellFormed_textEscape (s : JSString) (h : WellFormed s) : WellFormed (textEscape s) := by
  induction s using utf8Encode.induct with
  | case1 => exact h
  | case2 u =>
    rw [wellFormed_singleton] at h
    have hs : ¬ (55296 ≤ u ∧ u ≤ 57343) := by simpa [isSurrogate] using h.2
    simp only [textEscape, List.append_nil]
    have hlt := h.1
    have := wellFormed_append_small _ [] (fun d hd => by
      have := escapeUnit_small u d hd
      show d < 65536 ∧ ¬ (55296 ≤ d ∧ d ≤ 57343)
      omega) rfl
    simpa using this
  | case3 u v rest hp ih =>
    obtain ⟨hu, hv⟩ := hp
    have hu2 : 55296 ≤ u ∧ u ≤ 56319 := by simpa [isHighSurrogate] using hu
    have hv2 : 56320 ≤ v ∧ v ≤ 57343 := by simpa [isLowSurrogate] using hv
    rw [wellFormed_cons_cons] at h
    simp only [hu, if_true] at h
    have e : textEscape (u :: v :: rest) = u :: v :: textEscape rest := by
      have a1 : ¬ u = 38 := by omega
      have a2 : ¬ u = 60 := by omega
      have a3 : ¬ u = 62 := by omega
      have a4 : ¬ u = 13 := by omega
      have b1 : ¬ v = 38 := by omega
      have b2 : ¬ v = 60 := by omega
      have b3 : ¬ v = 62 := by omega
      have b4 : ¬ v = 13 := by omega
      simp [textEscape, a1, a2, a3, a4, b1, b2, b3, b4]
    rw [e, wellFormed_cons_cons]
    refine ⟨h.1, ?_⟩
    simp only [hu, if_true]
    exact ⟨hv, ih h.2.2⟩
  | case4 u v rest hp ih =>
    rw [wellFormed_cons_cons] at h
    have hw : u < 65536 ∧ isSurrogate u = false ∧ WellFormed (v :: rest) := by
      refine ⟨h.1, ?_⟩
      by_cases hu : isHighSurrogate u = true
      · rw [if_pos hu] at h
        exact absurd ⟨hu, h.2.1⟩ hp
      · rw [if_neg hu] at h
        refine ⟨?_, h.2.2⟩
        have h1 : ¬ (55296 ≤ u ∧ u ≤ 56319) := by simpa [isHighSurrogate] using hu
        have h2 : ¬ (56320 ≤ u ∧ u ≤ 57343) := by simpa [isLowSurrogate] using h.2.1
        simp only [isSurrogate, decide_eq_false_iff_not]
        omega
    have hs : ¬ (55296 ≤ u ∧ u ≤ 57343) := by simpa [isSurrogate] using hw.2.1
    rw [textEscape]
    have hlt := hw.1
    apply wellFormed_append_small _ _ _ (ih hw.2.2)
    intro d hd
    have := escapeUnit_small u d hd
    omega

theorem legalText_textEscape (s : JSString) (h : LegalText s) : LegalText (textEscape s) := by
  refine ⟨wellFormed_textEscape s h.1, ?_⟩
  have h2 := h.2
  clear h
  induction s with
  | nil => intro c hc; simp [textEscape] at hc
  | cons u s ih =>
    intro c hc
    rw [textEscape] at hc
    rcases List.mem_append.mp hc with hc | hc
    · have := escapeUnit_small u c hc
      rcases this with rfl | this
      · exact h2 c (List.mem_cons_self _ _)
      · simp only [isIllegalUnit, decide_eq_false_iff_not]
        omega
    · exact ih (fun d hd => h2 d (List.mem_cons_of_mem _ hd)) c hc

theorem makeText_legal (s : JSString) (h : LegalText s) :
    makeText s = .ok (.text (textEscape s)) := by
  simp [makeText, legalText_textEscape s h]

/-! ## The builder -/

theorem renderFields_cons_str (key s : JSString) (rest : List (JSString × JSValue))
    (more : List XNode) (h1 : key ≠ [36]) (h2 : key ≠ [95]) (hn : isXmlName key = true)
    (hs : LegalText s) (hr : renderFields rest = .ok more) :
    renderFields ((key, .str s) :: rest) = .ok ((leafPart key s).node :: more) := by
  simp [renderFields, renderField, makeTextElement, makeText_legal s hs, makeElement, h1, h2, hn,
    hr, leafPart]

theorem renderFields_cons_obj (key : JSString) (fields rest : List (JSString × JSValue))
    (children more : List XNode) (h1 : key ≠ [36]) (h2 : key ≠ [95])
    (hn : isXmlName key = true) (hc : renderFields fields = .ok children)
    (hr : renderFields rest = .ok more) :
    renderFields ((key, .obj fields) :: rest) = .ok (.element key children :: more) := by
  simp [renderFields, renderField, makeElement, h1, h2, hn, hr, hc]

theorem buildObject_root (root : JSString) (fields : List (JSString × JSValue))
    (children : List XNode) (hn : isXmlName root = true)
    (hc : renderFields fields = .ok children) :
    buildObject (.obj [(root, .obj fields)]) = .ok (writeDocument (.element root children)) := by
  simp [buildObject, render, hc, makeElement, hn]

/-! ## The documents the two programs exchange -/

theorem renderFields_cliente (cpfKey id nome email cpf dataCadastro : JSString)
    (hk : cpfKey = js "cpf_criptografado")
    (h1 : LegalText id) (h2 : LegalText nome) (h3 : LegalText email) (h4 : LegalText cpf)
    (h5 : LegalText dataCadastro) :
    renderFields (clienteObject cpfKey id nome email cpf dataCadastro) =
      .ok ((clienteParts id nome email cpf dataCadastro).map Part.node) := by
  subst hk
  unfold clienteObject
  rw [renderFields_cons_str _ _ _ _ (by decide) (by decide) (by decide) h1
    (renderFields_cons_str _ _ _ _ (by decide) (by decide) (by decide) h2
      (renderFields_cons_str _ _ _ _ (by decide) (by decide) (by decide) h3
        (renderFields_cons_str _ _ _ _ (by decide) (by decide) (by decide) h4
          (renderFields_cons_str _ _ _ _ (by decide) (by decide) (by decide) h5
            (rfl : renderFields [] = .ok [])))))]
  rfl

theorem clienteParts_encode (level : Nat) (opts : ParserOptions)
    (id nome email cpf dataCadastro : JSString) :
    ∀ q ∈ clienteParts id nome email cpf dataCadastro, q.Encodes level opts := by
  intro q hq
  simp only [clienteParts, List.mem_cons, List.mem_singleton, List.not_mem_nil, or_false] at hq
  rcases hq with rfl | rfl | rfl | rfl | rfl <;> exact leafPart_encodes _ _ _ _ (by decide)

theorem createEnvelope_eq (id nome email cpf dataCadastro timestamp : JSString) :
    createEnvelope (clienteObject (js "cpf") id nome email cpf dataCadastro) timestamp =
      .obj [(js "requisicao", .obj [
        (js "tipo", .str (js "CADASTRO_CLIENTE")),
        (js "timestamp", .str timestamp),
        (js "dados", .obj [(js "cliente",
          .obj (clienteObject (js "cpf_criptografado") id nome email cpf dataCadastro))])])] :=
  rfl

/-- The text `jsonToXml` returns for the envelope of a create request. -/
theorem jsonToXml_createEnvelope (opts : ParserOptions)
    (timestamp id nome email cpf dataCadastro : JSString)
    (h0 : LegalText timestamp) (h1 : LegalText id) (h2 : LegalText nome) (h3 : LegalText email)
    (h4 : LegalText cpf) (h5 : LegalText dataCadastro) :
    jsonToXml (createEnvelope (clienteObject (js "cpf") id nome email cpf dataCadastro) timestamp)
      = .ok (writeDocument (.element (js "requisicao")
          ((createParts opts timestamp id nome email cpf dataCadastro).map Part.node))) := by
  rw [createEnvelope_eq, jsonToXml]
  apply buildObject_root _ _ _ (by decide)
  rw [renderFields_cons_str _ _ _ _ (by decide) (by decide) (by decide)
    (by decide : LegalText (js "CADASTRO_CLIENTE"))
    (renderFields_cons_str _ _ _ _ (by decide) (by decide) (by decide) h0
      (renderFields_cons_obj _ _ _ _ _ (by decide) (by decide) (by decide)
        (renderFields_cons_obj _ _ _ _ _ (by decide) (by decide) (by decide)
          (renderFields_cliente _ id nome email cpf dataCadastro rfl h1 h2 h3 h4 h5)
          (rfl : renderFields [] = .ok [])) (rfl : renderFields [] = .ok [])))]
  rfl

theorem createParts_encode (opts : ParserOptions)
    (timestamp id nome email cpf dataCadastro : JSString) :
    ∀ q ∈ createParts opts timestamp id nome email cpf dataCadastro, q.Encodes 1 opts := by
  intro q hq
  simp only [createParts, List.mem_cons, List.mem_singleton, List.not_mem_nil, or_false] at hq
  rcases hq with rfl | rfl | rfl
  · exact leafPart_encodes _ _ _ _ (by decide)
  · exact leafPart_encodes _ _ _ _ (by decide)
  · apply containerPart_encodes _ _ _ _ _ (by decide)
    intro r hr
    simp only [List.mem_singleton] at hr
    subst hr
    exact containerPart_encodes _ _ _ _ _ (by decide) (clienteParts_encode _ _ _ _ _ _ _)

/-- What the legacy parser (`explicitArray` on) returns for a create request. -/
theorem parse_createEnvelope_wrapped (timestamp id nome email cpf dataCadastro : JSString) :
    parseString ⟨true⟩ (writeDocument (.element (js "requisicao")
        ((createParts ⟨true⟩ timestamp id nome email cpf dataCadastro).map Part.node))) =
      .ok (.obj [(js "requisicao", .obj [
        (js "tipo", .arr [.str (js "CADASTRO_CLIENTE")]),
        (js "timestamp", .arr [.str timestamp]),
        (js "dados", .arr [.obj [(js "cliente", .arr [.obj [
          (js "id", .arr [.str id]), (js "nome", .arr [.str nome]),
          (js "email", .arr [.str email]), (js "cpf_criptografado", .arr [.str cpf]),
          (js "dataCadastro", .arr [.str dataCadastro])]])]])])]) := by
  have h := parseString_document ⟨true⟩ (js "requisicao") _ _ (by decide)
    (createParts_encode ⟨true⟩ timestamp id nome email cpf dataCadastro)
  unfold createParts at h ⊢
  rw [h]
  rfl

/-- What `xmlToJson` (`explicitArray` off) returns for a create request. -/
theorem parse_createEnvelope_plain (timestamp id nome email cpf dataCadastro : JSString) :
    xmlToJson (writeDocument (.element (js "requisicao")
        ((createParts ⟨false⟩ timestamp id nome email cpf dataCadastro).map Part.node))) =
      .ok (.obj [(js "requisicao", .obj [
        (js "tipo", .str (js "CADASTRO_CLIENTE")),
        (js "timestamp", .str timestamp),
        (js "dados", .obj [(js "cliente", .obj [
          (js "id", .str id), (js "nome", .str nome),
          (js "email", .str email), (js "cpf_criptografado", .str cpf),
          (js "dataCadastro", .str dataCadastro)])])])]) := by
  have h := parseString_document ⟨false⟩ (js "requisicao") _ _ (by decide)
    (createParts_encode ⟨false⟩ timestamp id nome email cpf dataCadastro)
  unfold createParts at h ⊢
  rw [xmlToJson, h]
  rfl

theorem sax_tagOpen (pre : List SaxEvent) (acc n rest : JSString) (h : isXmlName n = true) :
    saxRun ⟨pre, .text acc⟩ (tagOpen n rest) =
      saxRun ⟨pre ++ flushText acc ++ [.openTag n], .text []⟩ rest :=
  sax_open pre acc n rest h

theorem sax_tagClose (pre : List SaxEvent) (acc n rest : JSString) (h : isXmlName n = true) :
    saxRun ⟨pre, .text acc⟩ (tagClose n rest) =
      saxRun ⟨pre ++ flushText acc ++ [.closeTag n], .text []⟩ rest :=
  sax_close pre acc n rest h

theorem sax_leafText (pre : List SaxEvent) (acc n s rest : JSString)
    (hn : isXmlName n = true) (hs : ∀ c ∈ s, c ≠ 60 ∧ c ≠ 38) :
    saxRun ⟨pre, .text acc⟩ (leafText n s rest) =
      saxRun ⟨pre ++ flushText acc ++ leafEvents n s, .text []⟩ rest := by
  rw [leafText, sax_tagOpen _ _ _ _ hn, sax_text_plain _ _ _ _ hs, sax_tagClose _ _ _ _ hn]
  simp [leafEvents]

theorem plain_safe (s : JSString) (h : ∀ c ∈ s, IsPlain c) : ∀ c ∈ s, c ≠ 60 ∧ c ≠ 38 := by
  intro c hc
  have := h c hc
  unfold IsPlain at this
  omega

set_option maxRecDepth 100000 in
theorem legacyCadastroReply_eq (clienteId now : JSString) :
    legacyCadastroReply clienteId now = .response 200 (ackText clienteId now) := by
  have hA : js "<?xml version=\"1.0\" encoding=\"UTF-8\"?>\n      <resposta>\n        <status>sucesso</status>\n        <mensagem>Cliente cadastrado com sucesso</mensagem>\n        <clienteId>"
      = xmlDeclaration ++ (space6 ++ tagOpen (js "resposta") (space8 ++
          leafText (js "status") (js "sucesso") (space8 ++
          leafText (js "mensagem") (js "Cliente cadastrado com sucesso") (space8 ++
          tagOpen (js "clienteId") [])))) := by decide
  have hB : js "</clienteId>\n        <timestamp>"
      = tagClose (js "clienteId") (space8 ++ tagOpen (js "timestamp") []) := by decide
  have hD : js "</timestamp>\n      </resposta>"
      = tagClose (js "timestamp") (space6 ++ tagClose (js "resposta") []) := by decide
  unfold legacyCadastroReply
  rw [hA, hB, hD]
  simp only [ackText, leafText, tagOpen, tagClose, List.append_assoc, List.cons_append,
    List.nil_append]

theorem saxEvents_ack (clienteId now : JSString) (h1 : ∀ c ∈ clienteId, IsPlain c)
    (h2 : ∀ c ∈ now, IsPlain c) :
    saxEvents (ackText clienteId now) =
      .ok (.text space6 :: elementEvents space8 space6 (js "resposta") (ackParts clienteId now)) := by
  have hr : saxRun ⟨[], .text []⟩ (ackText clienteId now)
      = .ok ⟨.text space6 :: elementEvents space8 space6 (js "resposta")
          (ackParts clienteId now), .text []⟩ := by
    rw [ackText, sax_declaration, sax_text_plain _ _ space6 _ (by decide),
      sax_tagOpen _ _ _ _ (by decide), sax_text_plain _ _ space8 _ (by decide),
      sax_leafText _ _ _ _ _ (by decide) (by decide),
      sax_text_plain _ _ space8 _ (by decide),
      sax_leafText _ _ _ _ _ (by decide) (by decide),
      sax_text_plain _ _ space8 _ (by decide),
      sax_leafText _ _ _ _ _ (by decide) (plain_safe _ h1),
      sax_text_plain _ _ space8 _ (by decide),
      sax_leafText _ _ _ _ _ (by decide) (plain_safe _ h2),
      sax_text_plain _ _ space6 _ (by decide),
      sax_tagClose _ _ _ _ (by decide)]
    simp [saxRun, elementEvents, childrenEvents, ackParts, leafPart, flushText, space6, space8,
      js]
  unfold saxEvents
  rw [hr]
  simp [flushText]

/-- What `xmlToJson` returns for the reply of the peer to a create request. -/
theorem xmlToJson_ack (clienteId now : JSString) (h1 : ∀ c ∈ clienteId, IsPlain c)
    (h2 : ∀ c ∈ now, IsPlain c) :
    xmlToJson (ackText clienteId now) = .ok (.obj [(js "resposta", .obj [
      (js "status", .str (js "sucesso")),
      (js "mensagem", .str (js "Cliente cadastrado com sucesso")),
      (js "clienteId", .str clienteId), (js "timestamp", .str now)])]) := by
  have hp : ∀ r ∈ ackParts clienteId now, AsmSpec ⟨false⟩ r.events r.key r.value := by
    intro r hr
    simp only [ackParts, List.mem_cons, List.mem_singleton, List.not_mem_nil, or_false] at hr
    rcases hr with rfl | rfl | rfl | rfl <;> exact asmSpec_leaf _ _ _
  have h := parseString_of_events ⟨false⟩ (ackText clienteId now) space6 space8 space6
    (js "resposta") (leafPart (js "status") (js "sucesso")) _ (isBlank_declaration _)
    (saxEvents_ack clienteId now h1 h2) (by decide) (by decide) (by decide) hp
  rw [xmlToJson, h]
  rfl

theorem lookupEnvelope_build (opts : ParserOptions) (timestamp id : JSString)
    (h0 : LegalText timestamp) (h1 : LegalText id) :
    jsonToXml (lookupEnvelope id timestamp) = .ok (writeDocument (.element (js "requisicao")
      ((lookupParts opts timestamp id).map Part.node))) := by
  rw [lookupEnvelope, jsonToXml]
  apply buildObject_root _ _ _ (by decide)
  rw [renderFields_cons_str _ _ _ _ (by decide) (by decide) (by decide)
    (by decide : LegalText (js "CONSULTA_CLIENTE"))
    (renderFields_cons_str _ _ _ _ (by decide) (by decide) (by decide) h0
      (renderFields_cons_obj _ _ _ _ _ (by decide) (by decide) (by decide)
        (renderFields_cons_str _ _ _ _ (by decide) (by decide) (by decide) h1
          (rfl : renderFields [] = .ok []))
        (rfl : renderFields [] = .ok [])))]
  rfl

theorem lookupParts_encode (opts : ParserOptions) (timestamp id : JSString) :
    ∀ q ∈ lookupParts opts timestamp id, q.Encodes 1 opts := by
  intro q hq
  simp only [lookupParts, List.mem_cons, List.mem_singleton, List.not_mem_nil, or_false] at hq
  rcases hq with rfl | rfl | rfl
  · exact leafPart_encodes _ _ _ _ (by decide)
  · exact leafPart_encodes _ _ _ _ (by decide)
  · apply containerPart_encodes _ _ _ _ _ (by decide)
    intro r hr
    simp only [List.mem_singleton] at hr
    subst hr
    exact leafPart_encodes _ _ _ _ (by decide)

/-- What the legacy parser returns for a lookup request. -/
theorem parse_lookupEnvelope (timestamp id : JSString) :
    parseString ⟨true⟩ (writeDocument (.element (js "requisicao")
        ((lookupParts ⟨true⟩ timestamp id).map Part.node))) =
      .ok (.obj [(js "requisicao", .obj [
        (js "tipo", .arr [.str (js "CONSULTA_CLIENTE")]),
        (js "timestamp", .arr [.str timestamp]),
        (js "dados", .arr [.obj [(js "clienteId", .arr [.str id])]])])]) := by
  have h := parseString_document ⟨true⟩ (js "requisicao") _ _ (by decide)
    (lookupParts_encode ⟨true⟩ timestamp id)
  unfold lookupParts at h ⊢
  rw [h]
  rfl

/-- The text the peer builds for a client it has found. -/
theorem foundReply_build (opts : ParserOptions) (now id nome email cpf dataCadastro : JSString)
    (h0 : LegalText now) (h1 : LegalText id) (h2 : LegalText nome) (h3 : LegalText email)
    (h4 : LegalText cpf) (h5 : LegalText dataCadastro) :
    buildObject (.obj [(js "resposta", .obj [
        (js "status", .str (js "sucesso")),
        (js "mensagem", .str (js "Cliente encontrado")),
        (js "dados", .obj [(js "cliente",
          .obj (clienteObject (js "cpf_criptografado") id nome email cpf dataCadastro))]),
        (js "timestamp", .str now)])]) =
      .ok (writeDocument (.element (js "resposta")
        ((foundParts opts now id nome email cpf dataCadastro).map Part.node))) := by
  apply buildObject_root _ _ _ (by decide)
  rw [renderFields_cons_str _ _ _ _ (by decide) (by decide) (by decide)
    (by decide : LegalText (js "sucesso"))
    (renderFields_cons_str _ _ _ _ (by decide) (by decide) (by decide)
      (by decide : LegalText (js "Cliente encontrado"))
      (renderFields_cons_obj _ _ _ _ _ (by decide) (by decide) (by decide)
        (renderFields_cons_obj _ _ _ _ _ (by decide) (by decide) (by decide)
          (renderFields_cliente _ id nome email cpf dataCadastro rfl h1 h2 h3 h4 h5)
          (rfl : renderFields [] = .ok []))
        (renderFields_cons_str _ _ _ _ (by decide) (by decide) (by decide) h0
          (rfl : renderFields [] = .ok []))))]
  rfl

theorem foundParts_encode (opts : ParserOptions)
    (now id nome email cpf dataCadastro : JSString) :
    ∀ q ∈ foundParts opts now id nome email cpf dataCadastro, q.Encodes 1 opts := by
  intro q hq
  simp only [foundParts, List.mem_cons, List.mem_singleton, List.not_mem_nil, or_false] at hq
  rcases hq with rfl | rfl | rfl | rfl
  · exact leafPart_encodes _ _ _ _ (by decide)
  · exact leafPart_encodes _ _ _ _ (by decide)
  · apply containerPart_encodes _ _ _ _ _ (by decide)
    intro r hr
    simp only [List.mem_singleton] at hr
    subst hr
    exact containerPart_encodes _ _ _ _ _ (by decide) (clienteParts_encode _ _ _ _ _ _ _)
  · exact leafPart_encodes _ _ _ _ (by decide)

/-- What `xmlToJson` returns for the reply of the peer to a successful lookup. -/
theorem parse_foundReply (now id nome email cpf dataCadastro : JSString) :
    xmlToJson (writeDocument (.element (js "resposta")
        ((foundParts ⟨false⟩ now id nome email cpf dataCadastro).map Part.node))) =
      .ok (.obj [(js "resposta", .obj [
        (js "status", .str (js "sucesso")),
        (js "mensagem", .str (js "Cliente encontrado")),
        (js "dados", .obj [(js "cliente",
          .obj (clienteObject (js "cpf_criptografado") id nome email cpf dataCadastro))]),
        (js "timestamp", .str now)])]) := by
  have h := parseString_document ⟨false⟩ (js "resposta") _ _ (by decide)
    (foundParts_encode ⟨false⟩ now id nome email cpf dataCadastro)
  unfold foundParts at h ⊢
  rw [xmlToJson, h]
  rfl

/-! ## The peer -/

/-- The peer stores the record of a create request and acknowledges it. -/
theorem processar_create (now : JSString) (clientes : Store)
    (timestamp id nome email cpf dataCadastro : JSString) :
    processar now clientes (writeDocument (.element (js "requisicao")
        ((createParts ⟨true⟩ timestamp id nome email cpf dataCadastro).map Part.node))) =
      (.response 200 (ackText id now),
        setField id (.obj (clienteObject (js "cpf_criptografado") id nome email cpf dataCadastro))
          clientes) := by
  unfold processar processarTry
  rw [parse_createEnvelope_wrapped, ← legacyCadastroReply_eq]
  rfl

theorem lookupField_setField (k : JSString) (v : JSValue) (fields : List (JSString × JSValue)) :
    lookupField k (setField k v fields) = some v := by
  induction fields with
  | nil => simp [setField, lookupField]
  | cons f fs ih =>
    obtain ⟨k2, v2⟩ := f
    by_cases h : k2 = k
    · simp [setField, lookupField, h]
    · simp [setField, lookupField, h, ih]

theorem processarTry_lookup (now : JSString) (clientes : Store) (timestamp id : JSString) :
    processarTry now clientes (writeDocument (.element (js "requisicao")
        ((lookupParts ⟨true⟩ timestamp id).map Part.node))) =
      legacyConsultaReply now clientes id := by
  unfold processarTry
  rw [parse_lookupEnvelope]
  rfl

/-- The peer answers a lookup of a stored record with status 200 and the
record. -/
theorem processar_lookup_found (now : JSString) (clientes : Store)
    (timestamp id rid nome email cpf dataCadastro : JSString)
    (hs : lookupField id clientes =
      some (.obj (clienteObject (js "cpf_criptografado") rid nome email cpf dataCadastro)))
    (h0 : LegalText now) (h1 : LegalText rid) (h2 : LegalText nome) (h3 : LegalText email)
    (h4 : LegalText cpf) (h5 : LegalText dataCadastro) :
    processar now clientes (writeDocument (.element (js "requisicao")
        ((lookupParts ⟨true⟩ timestamp id).map Part.node))) =
      (.response 200 (writeDocument (.element (js "resposta")
        ((foundParts ⟨false⟩ now rid nome email cpf dataCadastro).map Part.node))), clientes) := by
  have hb := foundReply_build ⟨false⟩ now rid nome email cpf dataCadastro h0 h1 h2 h3 h4 h5
  have hf : field clientes id =
      .obj (clienteObject (js "cpf_criptografado") rid nome email cpf dataCadastro) := by
    rw [field, hs]
    rfl
  unfold processar
  rw [processarTry_lookup, legacyConsultaReply, hf]
  simp only [JSValue.truthy, Bool.not_true, Bool.false_eq_true, if_false, hb, if_true]

/-- The peer answers a lookup of an identifier it does not hold with a status
outside 200-299, and keeps its store. -/
theorem processar_lookup_missing (now : JSString) (clientes : Store) (timestamp id : JSString)
    (hs : lookupField id clientes = none) :
    ∃ status body, processar now clientes (writeDocument (.element (js "requisicao")
        ((lookupParts ⟨true⟩ timestamp id).map Part.node))) = (.response status body, clientes) ∧
      (status = 404 ∨ status = 500) := by
  have hf : field clientes id = .undefined := by
    rw [field, hs]
    rfl
  unfold processar
  rw [processarTry_lookup, legacyConsultaReply, hf]
  simp only [JSValue.truthy, Bool.not_false, if_true, Bool.false_eq_true, if_false]
  cases hb : buildObject (.obj [(js "resposta", .obj [
      (js "status", .str (js "NOT_FOUND")),
      (js "mensagem", .str (js "Cliente não encontrado")),
      (js "timestamp", .str now)])]) with
  | error e => exact ⟨500, _, rfl, Or.inr rfl⟩
  | ok xml => exact ⟨404, xml, rfl, Or.inl rfl⟩

theorem legacySystem_small (now : JSString) (clientes : Store) (body : JSString)
    (h : (utf8Encode body).length ≤ BODY_LIMIT) :
    legacySystem now clientes body = processar now clientes body := by
  unfold legacySystem
  rw [if_neg (by omega)]

/-- The legacy system answers a lookup of an identifier it does not hold with a
status outside 200-299, and keeps its store. -/
theorem legacySystem_lookup_missing (now : JSString) (clientes : Store)
    (timestamp id : JSString) (hs : lookupField id clientes = none) :
    ∃ status body, legacySystem now clientes (writeDocument (.element (js "requisicao")
        ((lookupParts ⟨true⟩ timestamp id).map Part.node))) = (.response status body, clientes) ∧
      (status = 404 ∨ status = 500) := by
  unfold legacySystem
  split_ifs
  · exact ⟨500, _, rfl, Or.inr rfl⟩
  · exact processar_lookup_missing now clientes timestamp id hs

/-! ## The gateway -/

theorem followRedirects_response (redirects status : Nat) (body : JSString) :
    followRedirects redirects (.response status body) = .response status body := by
  cases redirects <;> rfl

/-- A response reached with a status outside 200-299 makes `axios.post`
reject, with a code other than `ECONNREFUSED`. -/
theorem axiosPost_unaccepted (r : PeerResult) (status : Nat) (body : JSString)
    (hr : followRedirects MAX_REDIRECTS r = .response status body)
    (h : ¬ (200 ≤ status ∧ status < 300)) :
    ∃ e, axiosPost r = .rejected e ∧ e.code ≠ some (js "ECONNREFUSED") := by
  unfold axiosPost
  rw [hr]
  simp only []
  rw [if_neg h]
  refine ⟨_, rfl, ?_⟩
  simp only []
  split_ifs <;> decide

theorem axiosPost_accepted (r : PeerResult) (status : Nat) (body : JSString)
    (hr : followRedirects MAX_REDIRECTS r = .response status body)
    (h : 200 ≤ status ∧ status < 300) : axiosPost r = .resolved status body := by
  unfold axiosPost
  rw [hr]
  simp only []
  rw [if_pos h]

theorem axiosPost_rejected (status : Nat) (body : JSString)
    (h : ¬ (200 ≤ status ∧ status < 300)) :
    ∃ e, axiosPost (.response status body) = .rejected e ∧
      e.code ≠ some (js "ECONNREFUSED") :=
  axiosPost_unaccepted _ status body (followRedirects_response _ _ _) h

theorem axiosPost_response (status : Nat) (body : JSString)
    (h : 200 ≤ status ∧ status < 300) :
    axiosPost (.response status body) = .resolved status body :=
  axiosPost_accepted _ status body (followRedirects_response _ _ _) h

/-- When `axios.post` resolves, the response reached has a status from 200 to
299. -/
theorem axiosPost_resolved (r : PeerResult) (status : Nat) (data : JSString)
    (h : axiosPost r = .resolved status data) :
    followRedirects MAX_REDIRECTS r = .response status data ∧ 200 ≤ status ∧ status < 300 := by
  unfold axiosPost at h
  cases hf : followRedirects MAX_REDIRECTS r with
  | failed e => rw [hf] at h; simp at h
  | silent => rw [hf] at h; simp at h
  | response st body =>
    rw [hf] at h
    simp only [] at h
    by_cases hs : 200 ≤ st ∧ st < 300
    · rw [if_pos hs] at h
      simp only [AxiosResult.resolved.injEq] at h
      obtain ⟨rfl, rfl⟩ := h
      exact ⟨rfl, hs⟩
    · rw [if_neg hs] at h
      simp at h

theorem lookupFailure_other (e : JSError) (h : e.code ≠ some (js "ECONNREFUSED")) :
    lookupFailure e = ⟨500, .obj [(js "success", .bool false),
      (js "message", .str (js "Erro ao consultar cliente")), (js "error", .str e.message)]⟩ := by
  simp [lookupFailure, h]

theorem legalText_of_uuid (id : JSString) (h : uuidRegex.test id = true) : LegalText id :=
  legalText_of_plain id (uuid_plain id h)

theorem legalText_of_iso (t : JSString) (h : isoRegex.test t = true) : LegalText t :=
  legalText_of_plain t (iso_plain t h)

/-- Claim C5 on the code: the lookup of a well-formed identifier that the peer
does not hold ends in the response 500 'Erro ao consultar cliente', because the
peer sends its NOT_FOUND reply with status 404 and `axios.post` rejects. -/
theorem lookup_unknown_id (C : BlockCipher) (key : Bytes) (clientes : Store)
    (now timestamp id : JSString) (hid : uuidRegex.test id = true)
    (hts : isoRegex.test timestamp = true) (hs : lookupField id clientes = none) :
    ∃ e, (lookupCliente C key (legacySystem now) clientes timestamp id).response =
      some ⟨500, .obj [(js "success", .bool false),
        (js "message", .str (js "Erro ao consultar cliente")), (js "error", .str e)]⟩ := by
  have hx := lookupEnvelope_build ⟨true⟩ timestamp id (legalText_of_iso _ hts)
    (legalText_of_uuid _ hid)
  obtain ⟨status, body, hp, hst⟩ := legacySystem_lookup_missing now clientes timestamp id hs
  obtain ⟨e, he, hc⟩ := axiosPost_rejected status body (by omega)
  refine ⟨e.message, ?_⟩
  unfold lookupCliente lookupPost
  simp only [hid, Bool.not_true, Bool.false_eq_true, if_false, hx, hp, he,
    lookupFailure_other e hc]

theorem lookup_unknown_id_witness :
    ∃ e, (lookupCliente shiftCipher (KEY_BUFFER none) (legacySystem (js "2024-01-01T00:00:00.009Z"))
        [] (js "2024-01-01T00:00:00.007Z") (js "3f2b8c1e-9a4d-4e7b-8c2a-1d5e6f7a8b9c")).response =
      some ⟨500, .obj [(js "success", .bool false),
        (js "message", .str (js "Erro ao consultar cliente")), (js "error", .str e)]⟩ :=
  lookup_unknown_id shiftCipher (KEY_BUFFER none) [] (js "2024-01-01T00:00:00.009Z")
    (js "2024-01-01T00:00:00.007Z") (js "3f2b8c1e-9a4d-4e7b-8c2a-1d5e6f7a8b9c")
    (by decide) (by decide) rfl

/-! ## The create handler -/

theorem encrypt_eq (C : BlockCipher) (key iv : Bytes) (text : JSString)
    (hk : key.length = 32) (hiv : iv.length = 16) :
    encrypt C key iv text = .ok (cipherText C key iv text) :=
  encrypt_of_try_ok _ _ _ _ _ (encryptTry_eq C key iv text hk hiv)

theorem encrypt_ok (C : BlockCipher) (key iv : Bytes) (text c : JSString)
    (h : encrypt C key iv text = .ok c) :
    key.length = 32 ∧ iv.length = 16 ∧ c = cipherText C key iv text := by
  by_cases hk : key.length = 32
  · by_cases hiv : iv.length = 16
    · rw [encrypt_eq C key iv text hk hiv] at h
      simp only [Except.ok.injEq] at h
      exact ⟨hk, hiv, h.symm⟩
    · simp [encrypt, encryptTry, createCipheriv, hk, hiv] at h
  · simp [encrypt, encryptTry, createCipheriv, hk] at h

theorem hexDigit_range (n : Nat) (h : n < 16) :
    (48 ≤ hexDigit n ∧ hexDigit n ≤ 57) ∨ (97 ≤ hexDigit n ∧ hexDigit n ≤ 102) := by
  unfold hexDigit
  split_ifs <;> omega

theorem hexEncode_digits (bs : Bytes) (h : IsBytes bs) :
    ∀ c ∈ hexEncode bs, (48 ≤ c ∧ c ≤ 57) ∨ (97 ≤ c ∧ c ≤ 102) := by
  induction bs with
  | nil => intro c hc; simp [hexEncode] at hc
  | cons b bs ih =>
    have hb : b < 256 := h b (List.mem_cons_self _ _)
    have hbs : IsBytes bs := fun x hx => h x (List.mem_cons_of_mem _ hx)
    intro c hc
    simp only [hexEncode, List.mem_cons] at hc
    rcases hc with rfl | rfl | hc
    · exact hexDigit_range _ (by omega)
    · exact hexDigit_range _ (by omega)
    · exact ih hbs c hc

theorem cipherText_plain (C : BlockCipher) (key iv : Bytes) (text : JSString)
    (hivb : IsBytes iv) : ∀ c ∈ cipherText C key iv text, IsPlain c := by
  intro c hc
  simp only [cipherText, List.mem_append, List.mem_cons] at hc
  unfold IsPlain
  rcases hc with hc | rfl | hc
  · have := hexEncode_digits iv hivb c hc
    omega
  · omega
  · have := hexEncode_digits _ (cbcEncrypt_bytes _ _ _ _ _) c hc
    omega

theorem cipherText_ne_digits (C : BlockCipher) (key iv : Bytes) (text : JSString)
    (h : ∀ c ∈ text, 48 ≤ c ∧ c ≤ 57) : cipherText C key iv text ≠ text := by
  intro e
  have hm : 58 ∈ cipherText C key iv text := by simp [cipherText]
  rw [e] at hm
  have := h 58 hm
  omega

theorem wellFormed_of_digits (s : JSString) (h : ∀ c ∈ s, 48 ≤ c ∧ c ≤ 57) : WellFormed s :=
  wellFormed_of_small s fun c hc => by have := h c hc; omega

theorem decrypt_cipherText (C : BlockCipher) (key iv : Bytes) (text : JSString)
    (hk : key.length = 32) (hkb : IsBytes key) (hiv : iv.length = 16) (hivb : IsBytes iv)
    (ht : WellFormed text) : decrypt C key (cipherText C key iv text) = .ok text := by
  obtain ⟨c, h1, h2⟩ := decrypt_encrypt_utf8 C key iv text hk hkb hiv hivb
    (WellFormed.isCodeUnits text ht)
  rw [encrypt_eq C key iv text hk hiv] at h1
  simp only [Except.ok.injEq] at h1
  rw [utf8Decode_utf8Encode text ht, ← h1] at h2
  exact h2

theorem encryptClienteData_cliente (C : BlockCipher) (key iv : Bytes)
    (id nome email cpf dataCadastro : JSString) :
    encryptClienteData C key iv (clienteObject (js "cpf") id nome email cpf dataCadastro) =
      match encrypt C key iv cpf with
      | .ok c => .ok (.obj (clienteObject (js "cpf") id nome email c dataCadastro))
      | .error m => .error (JSError.ofMessage m) := by
  have hf : field (clienteObject (js "cpf") id nome email cpf dataCadastro) (js "cpf") = .str cpf :=
    rfl
  unfold encryptClienteData
  rw [hf]
  simp only []
  cases encrypt C key iv cpf with
  | error m => rfl
  | ok c => rfl

theorem decryptClienteData_cliente (C : BlockCipher) (key : Bytes)
    (id nome email cpf dataCadastro : JSString) :
    decryptClienteData C key (clienteObject (js "cpf") id nome email cpf dataCadastro) =
      match decrypt C key cpf with
      | .ok p => .ok (.obj (clienteObject (js "cpf") id nome email p dataCadastro))
      | .error m => .error (JSError.ofMessage m) := by
  have hf : field (clienteObject (js "cpf") id nome email cpf dataCadastro) (js "cpf") = .str cpf :=
    rfl
  unfold decryptClienteData
  rw [hf]
  simp only []
  cases decrypt C key cpf with
  | error m => rfl
  | ok c => rfl

theorem isMissing_false (x : Option JSString) (h : isMissing x = false) :
    ∃ s, x = some s ∧ s ≠ [] := by
  cases x with
  | none => simp [isMissing] at h
  | some s =>
    refine ⟨s, rfl, ?_⟩
    rintro rfl
    simp [isMissing] at h

/-- A create request that passes validation: the handler encrypts, builds the
document and posts it. -/
theorem createCliente_validated {σ : Type} (C : BlockCipher) (key : Bytes) (peer : Peer σ)
    (s : σ) (d : CreateDraws) (nome email cpf : JSString) (hn : nome ≠ [])
    (he : emailRegex.test email = true) (hc : cpfRegex.test cpf = true) :
    createCliente C key peer s d ⟨some nome, some email, some cpf⟩ =
      match encrypt C key d.iv cpf with
      | .error m => ⟨some (createFailure (JSError.ofMessage m)), s, []⟩
      | .ok c =>
        match jsonToXml (createEnvelope
            (clienteObject (js "cpf") d.clienteId nome email c d.dataCadastro) d.timestamp) with
        | .error e => ⟨some (createFailure e), s, []⟩
        | .ok xmlRequisicao => createPost peer s d xmlRequisicao := by
  have he0 : email ≠ [] := by rintro rfl; revert he; decide
  have hc0 : cpf ≠ [] := by rintro rfl; revert hc; decide
  have hm : (isMissing (some nome) || isMissing (some email) || isMissing (some cpf)) = false := by
    simp [isMissing, hn, he0, hc0]
  have ho : [(js "id", JSValue.str d.clienteId), (js "nome", .str nome), (js "email", .str email),
      (js "cpf", .str cpf), (js "dataCadastro", .str d.dataCadastro)] =
      clienteObject (js "cpf") d.clienteId nome email cpf d.dataCadastro := rfl
  unfold createCliente
  simp only [hm, Bool.false_eq_true, if_false, Option.getD_some, hc, he, Bool.not_true, ho,
    encryptClienteData_cliente]
  cases encrypt C key d.iv cpf with
  | error m => rfl
  | ok c => rfl

theorem createPost_sent {σ : Type} (peer : Peer σ) (s : σ) (d : CreateDraws) (xml : JSString) :
    (createPost peer s d xml).sent = [xml] := by
  unfold createPost
  split
  · rfl
  · rfl
  · split
    · rfl
    · split <;> rfl

theorem lookupPost_sent {σ : Type} (C : BlockCipher) (key : Bytes) (peer : Peer σ) (s : σ)
    (xml : JSString) : (lookupPost C key peer s xml).sent = [xml] := by
  unfold lookupPost
  split
  · rfl
  · rfl
  · split
    · rfl
    · split <;> rfl

/-- A create request with legal texts and a key and IV of the right lengths
is posted as the document written from its parts. -/
theorem createCliente_posts {σ : Type} (opts : ParserOptions) (C : BlockCipher) (key : Bytes)
    (peer : Peer σ) (s : σ) (d : CreateDraws) (nome email cpf : JSString)
    (hk : key.length = 32) (hiv : d.iv.length = 16) (hivb : IsBytes d.iv) (hn : nome ≠ [])
    (he : emailRegex.test email = true) (hc : cpfRegex.test cpf = true)
    (hid : LegalText d.clienteId) (hdc : LegalText d.dataCadastro) (hts : LegalText d.timestamp)
    (hnome : LegalText nome) (hemail : LegalText email) :
    createCliente C key peer s d ⟨some nome, some email, some cpf⟩ =
      createPost peer s d (writeDocument (.element (js "requisicao")
        ((createParts opts d.timestamp d.clienteId nome email (cipherText C key d.iv cpf)
          d.dataCadastro).map Part.node))) := by
  rw [createCliente_validated C key peer s d nome email cpf hn he hc,
    encrypt_eq C key d.iv cpf hk hiv]
  simp only []
  rw [jsonToXml_createEnvelope opts d.timestamp d.clienteId nome email _ d.dataCadastro hts hid
    hnome hemail (legalText_of_plain _ (cipherText_plain C key d.iv cpf hivb)) hdc]

/-! ## Replies that `axios.post` rejects -/

theorem createPost_rejected {σ : Type} (peer : Peer σ) (s : σ) (d : CreateDraws)
    (xml : JSString) (e : JSError) (h : axiosPost (peer s xml).1 = .rejected e) :
    createPost peer s d xml = ⟨some (createFailure e), (peer s xml).2, [xml]⟩ := by
  unfold createPost
  rw [h]

theorem lookupPost_rejected {σ : Type} (C : BlockCipher) (key : Bytes) (peer : Peer σ) (s : σ)
    (xml : JSString) (e : JSError) (h : axiosPost (peer s xml).1 = .rejected e) :
    lookupPost C key peer s xml = ⟨some (lookupFailure e), (peer s xml).2, [xml]⟩ := by
  unfold lookupPost
  rw [h]

theorem lookupCliente_posts {σ : Type} (opts : ParserOptions) (C : BlockCipher) (key : Bytes)
    (peer : Peer σ) (s : σ) (timestamp id : JSString) (hid : uuidRegex.test id = true)
    (hts : LegalText timestamp) :
    lookupCliente C key peer s timestamp id =
      lookupPost C key peer s (writeDocument (.element (js "requisicao")
        ((lookupParts opts timestamp id).map Part.node))) := by
  unfold lookupCliente
  simp only [hid, Bool.not_true, Bool.false_eq_true, if_false,
    lookupEnvelope_build opts timestamp id hts (legalText_of_uuid _ hid)]

/-- Claim C7 on the code: when the peer refuses the connection, the lookup
handler answers 503 'Sistema legado indisponível', but the create handler, whose
`catch` block has no branch for `ECONNREFUSED`, posts its request and answers
500 'Erro ao cadastrar cliente'. -/
theorem create_unreachable {σ : Type} (C : BlockCipher) (key : Bytes) (peer : Peer σ) (s : σ)
    (d : CreateDraws) (nome email cpf timestamp id : JSString)
    (hp : ∀ s xml, (peer s xml).1 = .networkError (js "ECONNREFUSED"))
    (hk : key.length = 32) (hiv : d.iv.length = 16) (hivb : IsBytes d.iv) (hn : nome ≠ [])
    (he : emailRegex.test email = true) (hc : cpfRegex.test cpf = true)
    (hcid : uuidRegex.test d.clienteId = true) (hdc : isoRegex.test d.dataCadastro = true)
    (hdt : isoRegex.test d.timestamp = true) (hnome : LegalText nome)
    (hemail : LegalText email) (hid : uuidRegex.test id = true)
    (hts : isoRegex.test timestamp = true) :
    (∃ xml e, (createCliente C key peer s d ⟨some nome, some email, some cpf⟩).sent = [xml] ∧
      (createCliente C key peer s d ⟨some nome, some email, some cpf⟩).response =
        some ⟨500, .obj [(js "success", .bool false),
          (js "message", .str (js "Erro ao cadastrar cliente")), (js "error", .str e)]⟩) ∧
    (∃ xml, (lookupCliente C key peer s timestamp id).sent = [xml] ∧
      (lookupCliente C key peer s timestamp id).response =
        some ⟨503, .obj [(js "success", .bool false),
          (js "message", .str (js "Sistema legado indisponível"))]⟩) := by
  have hr : ∀ xml, axiosPost (peer s xml).1 =
      .rejected ⟨js "connect " ++ js "ECONNREFUSED", some (js "ECONNREFUSED")⟩ := by
    intro xml
    rw [hp]
    rfl
  rw [createCliente_posts ⟨true⟩ C key peer s d nome email cpf hk hiv hivb hn he hc
      (legalText_of_uuid _ hcid) (legalText_of_iso _ hdc) (legalText_of_iso _ hdt) hnome hemail,
    createPost_rejected peer s d _ _ (hr _),
    lookupCliente_posts ⟨true⟩ C key peer s timestamp id hid (legalText_of_iso _ hts),
    lookupPost_rejected C key peer s _ _ (hr _)]
  exact ⟨⟨_, _, rfl, rfl⟩, ⟨_, rfl, rfl⟩⟩

theorem create_unreachable_witness :
    (∃ xml e, (createCliente shiftCipher (KEY_BUFFER none) unreachablePeer () sampleDraws
        anaBody).sent = [xml] ∧
      (createCliente shiftCipher (KEY_BUFFER none) unreachablePeer () sampleDraws
        anaBody).response =
        some ⟨500, .obj [(js "success", .bool false),
          (js "message", .str (js "Erro ao cadastrar cliente")), (js "error", .str e)]⟩) ∧
    (∃ xml, (lookupCliente shiftCipher (KEY_BUFFER none) unreachablePeer ()
        (js "2024-01-01T00:00:00.007Z") sampleDraws.clienteId).sent = [xml] ∧
      (lookupCliente shiftCipher (KEY_BUFFER none) unreachablePeer ()
        (js "2024-01-01T00:00:00.007Z") sampleDraws.clienteId).response =
        some ⟨503, .obj [(js "success", .bool false),
          (js "message", .str (js "Sistema legado indisponível"))]⟩) :=
  create_unreachable shiftCipher (KEY_BUFFER none) unreachablePeer () sampleDraws (js "Ana")
    (js "ana@x.com") (js "12345678901") (js "2024-01-01T00:00:00.007Z") sampleDraws.clienteId
    (fun _ _ => rfl) (by decide) (by decide) (by decide) (by decide) (by decide) (by decide)
    (by decide) (by decide) (by decide) (by decide) (by decide) (by decide) (by decide)

/-! ## Replies with an error status -/

theorem createCliente_sent {σ : Type} (C : BlockCipher) (key : Bytes) (peer : Peer σ) (s : σ)
    (d : CreateDraws) (body : CreateBody) (xml : JSString)
    (h : xml ∈ (createCliente C key peer s d body).sent) :
    createCliente C key peer s d body = createPost peer s d xml := by
  unfold createCliente at h ⊢
  split_ifs at h ⊢
  · simp at h
  · simp at h
  · simp at h
  · split at h
    · simp at h
    · split at h
      · simp at h
      · rw [createPost_sent] at h
        simp only [List.mem_singleton] at h
        subst h
        rfl
    · simp at h

theorem lookupCliente_sent {σ : Type} (C : BlockCipher) (key : Bytes) (peer : Peer σ) (s : σ)
    (timestamp id xml : JSString) (h : xml ∈ (lookupCliente C key peer s timestamp id).sent) :
    lookupCliente C key peer s timestamp id = lookupPost C key peer s xml := by
  unfold lookupCliente at h ⊢
  split_ifs at h ⊢
  · simp at h
  · split at h
    · simp at h
    · rw [lookupPost_sent] at h
      simp only [List.mem_singleton] at h
      subst h
      rfl

theorem createCliente_accepted {σ : Type} (C : BlockCipher) (key : Bytes) (peer : Peer σ)
    (s : σ) (d : CreateDraws) (body : CreateBody) (r : Response)
    (h : (createCliente C key peer s d body).response = some r) (h201 : r.status = 201) :
    ∃ xml, (createCliente C key peer s d body).sent = [xml] := by
  unfold createCliente at h ⊢
  split_ifs at h ⊢
  · simp only [Option.some.injEq] at h; subst h; simp [createFailure, badRequest] at h201
  · simp only [Option.some.injEq] at h; subst h; simp [createFailure, badRequest] at h201
  · simp only [Option.some.injEq] at h; subst h; simp [createFailure, badRequest] at h201
  · split at h
    · simp only [Option.some.injEq] at h; subst h; simp [createFailure, badRequest] at h201
    · split at h
      · simp only [Option.some.injEq] at h; subst h; simp [createFailure, badRequest] at h201
      · exact ⟨_, createPost_sent _ _ _ _⟩
    · simp only [Option.some.injEq] at h; subst h; simp [createFailure, badRequest] at h201

theorem createPost_accepted {σ : Type} (peer : Peer σ) (s : σ) (d : CreateDraws)
    (xml : JSString) (r : Response) (h : (createPost peer s d xml).response = some r)
    (h201 : r.status = 201) :
    ∃ status data, followRedirects MAX_REDIRECTS (peer s xml).1 = .response status data ∧
      200 ≤ status ∧ status < 300 := by
  unfold createPost at h
  cases ha : axiosPost (peer s xml).1 with
  | pending => rw [ha] at h; simp at h
  | rejected e =>
    rw [ha] at h
    simp only [Option.some.injEq] at h
    subst h
    simp [createFailure] at h201
  | resolved status data =>
    obtain ⟨h1, h2, h3⟩ := axiosPost_resolved _ status data ha
    exact ⟨status, data, h1, h2, h3⟩

/-- Claim C6, as amended: when the response that `axios.post` reaches, after
following redirects, has an HTTP status of 300 or more, the create handler
answers 500 'Erro ao cadastrar cliente' and the lookup handler answers 500
'Erro ao consultar cliente'; and the create handler answers 201 only when it
posted a request and the response reached had a status from 200 to 299.  The
status field of the reply plays no part. -/
theorem error_reply_surfaces {σ : Type} (C : BlockCipher) (key : Bytes) (peer : Peer σ) (s : σ)
    (d : CreateDraws) (body : CreateBody) (timestamp id : JSString) :
    (∀ xml status data, xml ∈ (createCliente C key peer s d body).sent →
      followRedirects MAX_REDIRECTS (peer s xml).1 = .response status data → 300 ≤ status →
      ∃ e, (createCliente C key peer s d body).response =
        some ⟨500, .obj [(js "success", .bool false),
          (js "message", .str (js "Erro ao cadastrar cliente")), (js "error", .str e)]⟩) ∧
    (∀ xml status data, xml ∈ (lookupCliente C key peer s timestamp id).sent →
      followRedirects MAX_REDIRECTS (peer s xml).1 = .response status data → 300 ≤ status →
      ∃ e, (lookupCliente C key peer s timestamp id).response =
        some ⟨500, .obj [(js "success", .bool false),
          (js "message", .str (js "Erro ao consultar cliente")), (js "error", .str e)]⟩) ∧
    (∀ r, (createCliente C key peer s d body).response = some r → r.status = 201 →
      ∃ xml status data, (createCliente C key peer s d body).sent = [xml] ∧
        followRedirects MAX_REDIRECTS (peer s xml).1 = .response status data ∧
        200 ≤ status ∧ status < 300) := by
  refine ⟨?_, ?_, ?_⟩
  · intro xml status data hx hp hs
    obtain ⟨e, he, _⟩ := axiosPost_unaccepted _ status data hp (by omega)
    rw [createCliente_sent C key peer s d body xml hx, createPost_rejected peer s d xml e he]
    exact ⟨_, rfl⟩
  · intro xml status data hx hp hs
    obtain ⟨e, he, hc⟩ := axiosPost_unaccepted _ status data hp (by omega)
    rw [lookupCliente_sent C key peer s timestamp id xml hx,
      lookupPost_rejected C key peer s xml e he]
    simp only [lookupFailure_other e hc]
    exact ⟨_, rfl⟩
  · intro r hr h201
    obtain ⟨xml, hx⟩ := createCliente_accepted C key peer s d body r hr h201
    have hm : xml ∈ (createCliente C key peer s d body).sent := by rw [hx]; simp
    rw [createCliente_sent C key peer s d body xml hm] at hr
    obtain ⟨status, data, h1, h2, h3⟩ := createPost_accepted peer s d xml r hr h201
    exact ⟨xml, status, data, hx, h1, h2, h3⟩

theorem createPost_resolved {σ : Type} (peer : Peer σ) (s : σ) (d : CreateDraws)
    (xml : JSString) (status : Nat) (data : JSString) (v x : JSValue)
    (ha : axiosPost (peer s xml).1 = .resolved status data)
    (hv : xmlToJson data = .ok v)
    (hx : (v.get (js "resposta")).bind (fun r => r.get (js "status")) = .ok x) :
    createPost peer s d xml =
      ⟨some ⟨201, .obj [(js "success", .bool true),
        (js "message", .str (js "Cliente cadastrado com sucesso")),
        (js "clienteId", .str d.clienteId), (js "timestamp", .str d.responseTimestamp)]⟩,
        (peer s xml).2, [xml]⟩ := by
  unfold createPost
  rw [ha]
  simp only [hv, hx]

theorem lookupPost_resolved {σ : Type} (C : BlockCipher) (key : Bytes) (peer : Peer σ) (s : σ)
    (xml : JSString) (status : Nat) (data : JSString) (v : JSValue) (r : Response)
    (ha : axiosPost (peer s xml).1 = .resolved status data)
    (hv : xmlToJson data = .ok v) (hr : lookupReply C key v = .ok r) :
    lookupPost C key peer s xml = ⟨some r, (peer s xml).2, [xml]⟩ := by
  unfold lookupPost
  rw [ha]
  simp only [hv, hr]

theorem error_reply_surfaces_witness :
    ∃ e, (createCliente shiftCipher (KEY_BUFFER none) (fixedPeer 500 (js "<resposta/>")) ()
        sampleDraws anaBody).response =
      some ⟨500, .obj [(js "success", .bool false),
        (js "message", .str (js "Erro ao cadastrar cliente")), (js "error", .str e)]⟩ :=
  (error_reply_surfaces shiftCipher (KEY_BUFFER none) (fixedPeer 500 (js "<resposta/>")) ()
    sampleDraws anaBody [] []).1 _ 500 (js "<resposta/>")
    (by
      rw [anaBody, createCliente_posts ⟨true⟩ shiftCipher (KEY_BUFFER none) _ () sampleDraws
        (js "Ana") (js "ana@x.com") (js "12345678901") (by decide) (by decide) (by decide)
        (by decide) (by decide) (by decide) (by decide) (by decide) (by decide) (by decide)
        (by decide), createPost_sent]
      exact List.mem_singleton.mpr rfl)
    rfl (by decide)

/-- A reply with status 302 and a `Location` header is followed: when the
response reached has status 200, the create handler answers 201. -/
theorem createCliente_redirected :
    (createCliente shiftCipher (KEY_BUFFER none) (movedPeer 200 (js "<resposta/>")) ()
      sampleDraws anaBody).response =
      some ⟨201, .obj [(js "success", .bool true),
        (js "message", .str (js "Cliente cadastrado com sucesso")),
        (js "clienteId", .str sampleDraws.clienteId),
        (js "timestamp", .str sampleDraws.responseTimestamp)]⟩ := by
  rw [anaBody, createCliente_posts ⟨true⟩ shiftCipher (KEY_BUFFER none) _ () sampleDraws
      (js "Ana") (js "ana@x.com") (js "12345678901") (by decide) (by decide) (by decide)
      (by decide) (by decide) (by decide) (by decide) (by decide) (by decide) (by decide)
      (by decide),
    createPost_resolved (movedPeer 200 (js "<resposta/>")) () sampleDraws _ 200 (js "<resposta/>")
      (.obj [(js "resposta", .str [])]) .undefined rfl rfl rfl]

/-- Claim C6 as stated fails: a reply sent with HTTP status 200 whose status
field is `erro` reaches both handlers, and the create handler answers 201
while the lookup handler answers 404 'Cliente não encontrado'. -/
theorem error_status_ignored :
    xmlToJson (js "<resposta><status>erro</status></resposta>") =
      .ok (.obj [(js "resposta", .obj [(js "status", .str (js "erro"))])]) ∧
    (createCliente shiftCipher (KEY_BUFFER none)
      (fixedPeer 200 (js "<resposta><status>erro</status></resposta>")) ()
      sampleDraws anaBody).response =
      some ⟨201, .obj [(js "success", .bool true),
        (js "message", .str (js "Cliente cadastrado com sucesso")),
        (js "clienteId", .str sampleDraws.clienteId),
        (js "timestamp", .str sampleDraws.responseTimestamp)]⟩ ∧
    (lookupCliente shiftCipher (KEY_BUFFER none)
      (fixedPeer 200 (js "<resposta><status>erro</status></resposta>")) ()
      (js "2024-01-01T00:00:00.007Z") sampleDraws.clienteId).response = some notFound := by
  have hv : xmlToJson (js "<resposta><status>erro</status></resposta>") =
      .ok (.obj [(js "resposta", .obj [(js "status", .str (js "erro"))])]) := by
    rfl
  refine ⟨hv, ?_, ?_⟩
  · rw [anaBody, createCliente_posts ⟨true⟩ shiftCipher (KEY_BUFFER none) _ () sampleDraws
      (js "Ana") (js "ana@x.com") (js "12345678901") (by decide) (by decide) (by decide)
      (by decide) (by decide) (by decide) (by decide) (by decide) (by decide) (by decide)
      (by decide),
      createPost_resolved (fixedPeer 200 (js "<resposta><status>erro</status></resposta>")) ()
        sampleDraws _ 200 _ _ (.str (js "erro")) rfl hv rfl]
  · rw [lookupCliente_posts ⟨true⟩ shiftCipher (KEY_BUFFER none) _ () _ _ (by decide)
      (by decide),
      lookupPost_resolved shiftCipher (KEY_BUFFER none)
        (fixedPeer 200 (js "<resposta><status>erro</status></resposta>")) () _ 200 _ _ notFound
        rfl hv rfl]

/-! ## What the create handler sends -/

/-- Claim C3: whatever the create handler posts to the peer is the
serialization of an envelope whose client record has exactly the fields `id`,
`nome`, `email`, `cpf_criptografado` and `dataCadastro`; the request passed
validation, the value of `cpf_criptografado` is what `encrypt` returned for
the caller's cpf, namely 32 hexadecimal digits of IV, a colon and the
hexadecimal ciphertext, and it differs from the plaintext cpf. -/
theorem create_sends_ciphertext {σ : Type} (C : BlockCipher) (key : Bytes) (peer : Peer σ)
    (s : σ) (d : CreateDraws) (body : CreateBody) (xml : JSString) (hivb : IsBytes d.iv)
    (h : xml ∈ (createCliente C key peer s d body).sent) :
    ∃ nome email cpf c ct,
      body = ⟨some nome, some email, some cpf⟩ ∧ nome ≠ [] ∧
      emailRegex.test email = true ∧ cpfRegex.test cpf = true ∧
      encrypt C key d.iv cpf = .ok c ∧
      c = hexEncode d.iv ++ 58 :: hexEncode ct ∧
      (hexEncode d.iv).length = 32 ∧
      (∀ u ∈ hexEncode d.iv ++ hexEncode ct, isHexDigitI u = true) ∧
      ct = cbcEncrypt C key ((utf8Encode cpf).length / 16 + 1) d.iv (pkcs7Pad (utf8Encode cpf)) ∧
      c ≠ cpf ∧
      jsonToXml (.obj [(js "requisicao", .obj [
        (js "tipo", .str (js "CADASTRO_CLIENTE")),
        (js "timestamp", .str d.timestamp),
        (js "dados", .obj [(js "cliente", .obj [
          (js "id", .str d.clienteId), (js "nome", .str nome), (js "email", .str email),
          (js "cpf_criptografado", .str c),
          (js "dataCadastro", .str d.dataCadastro)])])])]) = .ok xml ∧
      (createCliente C key peer s d body).sent = [xml] := by
  have hv : (isMissing body.nome || isMissing body.email || isMissing body.cpf) = false ∧
      cpfRegex.test (body.cpf.getD []) = true ∧ emailRegex.test (body.email.getD []) = true := by
    unfold createCliente at h
    split_ifs at h with h1 h2 h3
    · simp at h
    · simp at h
    · simp at h
    · exact ⟨by simpa using h1, by simpa using h2, by simpa using h3⟩
  obtain ⟨hm, hc, he⟩ := hv
  simp only [Bool.or_eq_false_iff] at hm
  obtain ⟨nome, hnome, hn⟩ := isMissing_false _ hm.1.1
  obtain ⟨email, hemail, _⟩ := isMissing_false _ hm.1.2
  obtain ⟨cpf, hcpf, _⟩ := isMissing_false _ hm.2
  have hb : body = ⟨some nome, some email, some cpf⟩ := by
    cases body
    simp only at hnome hemail hcpf
    subst hnome hemail hcpf
    rfl
  subst hb
  simp only [Option.getD_some] at hc he
  rw [createCliente_validated C key peer s d nome email cpf hn he hc] at h ⊢
  cases hx : encrypt C key d.iv cpf with
  | error m => rw [hx] at h; simp at h
  | ok c =>
    obtain ⟨_, hiv, hct⟩ := encrypt_ok C key d.iv cpf c hx
    rw [hx] at h
    simp only [] at h ⊢
    rw [createEnvelope_eq] at h ⊢
    cases hj : jsonToXml (.obj [(js "requisicao", .obj [
        (js "tipo", .str (js "CADASTRO_CLIENTE")),
        (js "timestamp", .str d.timestamp),
        (js "dados", .obj [(js "cliente",
          .obj (clienteObject (js "cpf_criptografado") d.clienteId nome email c
            d.dataCadastro))])])]) with
    | error e => rw [hj] at h; simp at h
    | ok x =>
      rw [hj] at h
      simp only [createPost_sent, List.mem_singleton] at h ⊢
      subst h
      refine ⟨nome, email, cpf, c, _, rfl, hn, he, hc, hx, hct, ?_, ?_, rfl, ?_, hj, rfl⟩
      · rw [hexEncode_length, hiv]
      · intro u hu
        have hd : (48 ≤ u ∧ u ≤ 57) ∨ (97 ≤ u ∧ u ≤ 102) := by
          rcases List.mem_append.mp hu with hu | hu
          · exact hexEncode_digits _ hivb u hu
          · exact hexEncode_digits _ (cbcEncrypt_bytes _ _ _ _ _) u hu
        simp only [isHexDigitI, decide_eq_true_eq]
        omega
      · rw [hct]
        exact cipherText_ne_digits C key d.iv cpf (cpf_digits cpf hc)

theorem create_sends_ciphertext_witness :
    ∃ xml nome email cpf c ct,
      anaBody = ⟨some nome, some email, some cpf⟩ ∧ nome ≠ [] ∧
      emailRegex.test email = true ∧ cpfRegex.test cpf = true ∧
      encrypt shiftCipher (KEY_BUFFER none) sampleDraws.iv cpf = .ok c ∧
      c = hexEncode sampleDraws.iv ++ 58 :: hexEncode ct ∧
      (hexEncode sampleDraws.iv).length = 32 ∧
      (∀ u ∈ hexEncode sampleDraws.iv ++ hexEncode ct, isHexDigitI u = true) ∧
      ct = cbcEncrypt shiftCipher (KEY_BUFFER none) ((utf8Encode cpf).length / 16 + 1)
        sampleDraws.iv (pkcs7Pad (utf8Encode cpf)) ∧
      c ≠ cpf ∧
      jsonToXml (.obj [(js "requisicao", .obj [
        (js "tipo", .str (js "CADASTRO_CLIENTE")),
        (js "timestamp", .str sampleDraws.timestamp),
        (js "dados", .obj [(js "cliente", .obj [
          (js "id", .str sampleDraws.clienteId), (js "nome", .str nome), (js "email", .str email),
          (js "cpf_criptografado", .str c),
          (js "dataCadastro", .str sampleDraws.dataCadastro)])])])]) = .ok xml ∧
      (createCliente shiftCipher (KEY_BUFFER none) unreachablePeer () sampleDraws anaBody).sent =
        [xml] :=
  ⟨writeDocument (.element (js "requisicao")
      ((createParts ⟨true⟩ sampleDraws.timestamp sampleDraws.clienteId (js "Ana") (js "ana@x.com")
        (cipherText shiftCipher (KEY_BUFFER none) sampleDraws.iv (js "12345678901"))
        sampleDraws.dataCadastro).map Part.node)),
    create_sends_ciphertext shiftCipher (KEY_BUFFER none) unreachablePeer () sampleDraws anaBody _
      (by decide)
      (by
        rw [anaBody, createCliente_posts ⟨true⟩ shiftCipher (KEY_BUFFER none) _ () sampleDraws
          (js "Ana") (js "ana@x.com") (js "12345678901") (by decide) (by decide) (by decide)
          (by decide) (by decide) (by decide) (by decide) (by decide) (by decide) (by decide)
          (by decide), createPost_sent]
        exact List.mem_singleton.mpr rfl)⟩

/-! ## Text that the builder rejects -/

theorem makeText_illegal (s : JSString) (h : ¬ LegalText (textEscape s)) :
    makeText s = .error (JSError.ofMessage (js "Invalid character in string")) := by
  simp [makeText, h]

theorem renderField_str_illegal (key s : JSString) (h : ¬ LegalText (textEscape s)) :
    renderField key (.str s) = .error (JSError.ofMessage (js "Invalid character in string")) := by
  simp [renderField, makeTextElement, makeText_illegal s h]

theorem renderField_str_legal (key s : JSString) (hn : isXmlName key = true) (hs : LegalText s) :
    renderField key (.str s) = .ok [(leafPart key s).node] := by
  simp [renderField, makeTextElement, makeText_legal s hs, makeElement, hn, leafPart]

theorem renderField_obj_error (key : JSString) (fields : List (JSString × JSValue)) (e : JSError)
    (h : renderFields fields = .error e) : renderField key (.obj fields) = .error e := by
  simp [renderField, h]

theorem renderFields_cons_error (key : JSString) (child : JSValue)
    (rest : List (JSString × JSValue)) (e : JSError) (h1 : key ≠ [36]) (h2 : key ≠ [95])
    (h : renderField key child = .error e) : renderFields ((key, child) :: rest) = .error e := by
  simp [renderFields, h1, h2, h]

theorem renderFields_cons_skip (key : JSString) (child : JSValue)
    (rest : List (JSString × JSValue)) (here : List XNode) (e : JSError) (h1 : key ≠ [36])
    (h2 : key ≠ [95]) (h : renderField key child = .ok here)
    (hr : renderFields rest = .error e) : renderFields ((key, child) :: rest) = .error e := by
  simp [renderFields, h1, h2, h, hr]

theorem buildObject_root_error (root : JSString) (fields : List (JSString × JSValue))
    (e : JSError) (h : renderFields fields = .error e) :
    buildObject (.obj [(root, .obj fields)]) = .error e := by
  simp [buildObject, render, h]

/-- The builder rejects a create envelope whose `nome` holds a character that
XML 1.0 forbids. -/
theorem jsonToXml_createEnvelope_illegal (timestamp id nome email cpf dataCadastro : JSString)
    (h0 : LegalText timestamp) (h1 : LegalText id) (h2 : ¬ LegalText (textEscape nome)) :
    jsonToXml (createEnvelope (clienteObject (js "cpf") id nome email cpf dataCadastro) timestamp)
      = .error (JSError.ofMessage (js "Invalid character in string")) := by
  rw [createEnvelope_eq, jsonToXml]
  apply buildObject_root_error
  apply renderFields_cons_skip _ _ _ _ _ (by decide) (by decide)
    (renderField_str_legal _ _ (by decide) (by decide : LegalText (js "CADASTRO_CLIENTE")))
  apply renderFields_cons_skip _ _ _ _ _ (by decide) (by decide)
    (renderField_str_legal _ _ (by decide) h0)
  apply renderFields_cons_error _ _ _ _ (by decide) (by decide)
  apply renderField_obj_error
  apply renderFields_cons_error _ _ _ _ (by decide) (by decide)
  apply renderField_obj_error
  unfold clienteObject
  apply renderFields_cons_skip _ _ _ _ _ (by decide) (by decide)
    (renderField_str_legal _ _ (by decide) h1)
  apply renderFields_cons_error _ _ _ _ (by decide) (by decide)
  exact renderField_str_illegal _ _ h2

/-! ## The structural round trip -/

/-- Claim C9, as amended: for a record whose five fields, and a timestamp,
that hold only characters XML 1.0 allows (no control character other than tab,
line feed and carriage return, no U+FFFE or U+FFFF, no unpaired surrogate),
`jsonToXml` of the create envelope returns a text; the peer's parser followed
by `[0]` at every level, and `xmlToJson` on its own, read back `tipo`, the
timestamp and each of the five fields exactly. -/
theorem envelope_round_trip (timestamp id nome email cpf dataCadastro : JSString)
    (h0 : LegalText timestamp) (h1 : LegalText id) (h2 : LegalText nome) (h3 : LegalText email)
    (h4 : LegalText cpf) (h5 : LegalText dataCadastro) :
    ∃ xml, jsonToXml (createEnvelope
        (clienteObject (js "cpf") id nome email cpf dataCadastro) timestamp) = .ok xml ∧
      (∃ v req cliente, parseString ⟨true⟩ xml = .ok v ∧
        v.get (js "requisicao") = .ok req ∧
        readUnwrapped req [js "tipo"] = .ok (.str (js "CADASTRO_CLIENTE")) ∧
        readUnwrapped req [js "timestamp"] = .ok (.str timestamp) ∧
        readUnwrapped req [js "dados", js "cliente"] = .ok cliente ∧
        readUnwrapped cliente [js "id"] = .ok (.str id) ∧
        readUnwrapped cliente [js "nome"] = .ok (.str nome) ∧
        readUnwrapped cliente [js "email"] = .ok (.str email) ∧
        readUnwrapped cliente [js "cpf_criptografado"] = .ok (.str cpf) ∧
        readUnwrapped cliente [js "dataCadastro"] = .ok (.str dataCadastro)) ∧
      (∃ w, xmlToJson xml = .ok w ∧
        readPath w [js "requisicao", js "tipo"] = .ok (.str (js "CADASTRO_CLIENTE")) ∧
        readPath w [js "requisicao", js "timestamp"] = .ok (.str timestamp) ∧
        readPath w [js "requisicao", js "dados", js "cliente", js "id"] = .ok (.str id) ∧
        readPath w [js "requisicao", js "dados", js "cliente", js "nome"] = .ok (.str nome) ∧
        readPath w [js "requisicao", js "dados", js "cliente", js "email"] = .ok (.str email) ∧
        readPath w [js "requisicao", js "dados", js "cliente", js "cpf_criptografado"] =
          .ok (.str cpf) ∧
        readPath w [js "requisicao", js "dados", js "cliente", js "dataCadastro"] =
          .ok (.str dataCadastro)) := by
  refine ⟨_, jsonToXml_createEnvelope ⟨true⟩ timestamp id nome email cpf dataCadastro h0 h1 h2 h3
    h4 h5, ?_, ?_⟩
  · exact ⟨_, _, _, parse_createEnvelope_wrapped timestamp id nome email cpf dataCadastro,
      rfl, rfl, rfl, rfl, rfl, rfl, rfl, rfl, rfl⟩
  · exact ⟨_, parse_createEnvelope_plain timestamp id nome email cpf dataCadastro,
      rfl, rfl, rfl, rfl, rfl, rfl, rfl⟩

theorem envelope_round_trip_witness :
    ∃ xml, jsonToXml (createEnvelope
        (clienteObject (js "cpf") (js "3f2b8c1e-9a4d-4e7b-8c2a-1d5e6f7a8b9c") (js "Ana <&> Zé")
          (js "ana@x.com") (js "00ff:a1") (js "2024-01-01T00:00:00.000Z"))
        (js "2024-01-01T00:00:00.001Z")) = .ok xml ∧
      (∃ v req cliente, parseString ⟨true⟩ xml = .ok v ∧
        v.get (js "requisicao") = .ok req ∧
        readUnwrapped req [js "tipo"] = .ok (.str (js "CADASTRO_CLIENTE")) ∧
        readUnwrapped req [js "timestamp"] = .ok (.str (js "2024-01-01T00:00:00.001Z")) ∧
        readUnwrapped req [js "dados", js "cliente"] = .ok cliente ∧
        readUnwrapped cliente [js "id"] = .ok (.str (js "3f2b8c1e-9a4d-4e7b-8c2a-1d5e6f7a8b9c")) ∧
        readUnwrapped cliente [js "nome"] = .ok (.str (js "Ana <&> Zé")) ∧
        readUnwrapped cliente [js "email"] = .ok (.str (js "ana@x.com")) ∧
        readUnwrapped cliente [js "cpf_criptografado"] = .ok (.str (js "00ff:a1")) ∧
        readUnwrapped cliente [js "dataCadastro"] = .ok (.str (js "2024-01-01T00:00:00.000Z"))) ∧
      (∃ w, xmlToJson xml = .ok w ∧
        readPath w [js "requisicao", js "tipo"] = .ok (.str (js "CADASTRO_CLIENTE")) ∧
        readPath w [js "requisicao", js "timestamp"] = .ok (.str (js "2024-01-01T00:00:00.001Z")) ∧
        readPath w [js "requisicao", js "dados", js "cliente", js "id"] =
          .ok (.str (js "3f2b8c1e-9a4d-4e7b-8c2a-1d5e6f7a8b9c")) ∧
        readPath w [js "requisicao", js "dados", js "cliente", js "nome"] =
          .ok (.str (js "Ana <&> Zé")) ∧
        readPath w [js "requisicao", js "dados", js "cliente", js "email"] =
          .ok (.str (js "ana@x.com")) ∧
        readPath w [js "requisicao", js "dados", js "cliente", js "cpf_criptografado"] =
          .ok (.str (js "00ff:a1")) ∧
        readPath w [js "requisicao", js "dados", js "cliente", js "dataCadastro"] =
          .ok (.str (js "2024-01-01T00:00:00.000Z"))) :=
  envelope_round_trip (js "2024-01-01T00:00:00.001Z") (js "3f2b8c1e-9a4d-4e7b-8c2a-1d5e6f7a8b9c")
    (js "Ana <&> Zé") (js "ana@x.com") (js "00ff:a1") (js "2024-01-01T00:00:00.000Z")
    (by decide) (by decide) (by decide) (by decide) (by decide) (by decide)

/-- Claim C9 as stated fails: for the record whose `nome` is the one-character
string U+0000, `jsonToXml` throws, so there is nothing to decode. -/
theorem envelope_nul_rejected :
    ∃ e, jsonToXml (createEnvelope
      (clienteObject (js "cpf") (js "3f2b8c1e-9a4d-4e7b-8c2a-1d5e6f7a8b9c") [0]
        (js "ana@x.com") (js "00ff:a1") (js "2024-01-01T00:00:00.000Z"))
      (js "2024-01-01T00:00:00.001Z")) = .error e :=
  ⟨_, jsonToXml_createEnvelope_illegal _ _ _ _ _ _ (by decide) (by decide) (by decide)⟩

/-! ## Sizes of the documents -/

theorem utf8EncodeCodePoint_length (cp : Nat) : (utf8EncodeCodePoint cp).length ≤ 4 := by
  unfold utf8EncodeCodePoint
  split_ifs <;> simp

theorem utf8EncodeUnit_length (u : Nat) : (utf8EncodeUnit u).length ≤ 4 := by
  unfold utf8EncodeUnit
  split_ifs
  · simp
  · exact utf8EncodeCodePoint_length u

theorem utf8Encode_length_le (s : JSString) : (utf8Encode s).length ≤ 4 * s.length := by
  induction s using utf8Encode.induct with
  | case1 => simp [utf8Encode]
  | case2 u =>
    have := utf8EncodeUnit_length u
    simpa [utf8Encode] using this
  | case3 u v rest hp ih =>
    have := utf8EncodeCodePoint_length (65536 + (u - 55296) * 1024 + (v - 56320))
    rw [utf8Encode, if_pos hp, List.length_append]
    simp only [List.length_cons]
    omega
  | case4 u v rest hp ih =>
    have := utf8EncodeUnit_length u
    rw [utf8Encode, if_neg hp, List.length_append]
    simp only [List.length_cons] at ih ⊢
    omega

theorem textEscape_plain (s : JSString) (h : ∀ c ∈ s, IsPlain c) : textEscape s = s := by
  induction s with
  | nil => rfl
  | cons c s ih =>
    have hc := h c (List.mem_cons_self _ _)
    unfold IsPlain at hc
    have a1 : ¬ c = 38 := by omega
    have a2 : ¬ c = 60 := by omega
    have a3 : ¬ c = 62 := by omega
    have a4 : ¬ c = 13 := by omega
    rw [textEscape, ih fun d hd => h d (List.mem_cons_of_mem _ hd)]
    simp [a1, a2, a3, a4]

theorem lang_cls_length (p : Nat → Bool) (s : JSString) (h : Regex.Lang (.cls p) s) :
    s.length = 1 := by
  cases h
  rfl

theorem lang_seq_length (a b : Regex) (m n : Nat) (ha : ∀ s, Regex.Lang a s → s.length = m)
    (hb : ∀ s, Regex.Lang b s → s.length = n) (s : JSString) (h : Regex.Lang (.seq a b) s) :
    s.length = m + n := by
  cases h with
  | seq _ _ s t hs ht => rw [List.length_append, ha s hs, hb t ht]

theorem lang_times_length (a : Regex) (n : Nat) (ha : ∀ s, Regex.Lang a s → s.length = 1)
    (s : JSString) (h : Regex.Lang (Regex.times a n) s) : s.length = n := by
  induction n generalizing s with
  | zero =>
    cases h
    rfl
  | succ n ih =>
    have := lang_seq_length a (Regex.times a n) 1 n ha ih s h
    omega

theorem uuid_length (id : JSString) (h : uuidRegex.test id = true) : id.length = 36 := by
  have h1 := Regex.lang_of_test uuidRegex id h
  have hx : ∀ s, Regex.Lang (.cls isHexDigitI) s → s.length = 1 := lang_cls_length _
  exact lang_seq_length _ _ 8 28 (lang_times_length _ 8 hx)
    (lang_seq_length _ _ 1 27 (lang_cls_length _)
      (lang_seq_length _ _ 4 23 (lang_times_length _ 4 hx)
        (lang_seq_length _ _ 1 22 (lang_cls_length _)
          (lang_seq_length _ _ 1 21 (lang_cls_length _)
            (lang_seq_length _ _ 3 18 (lang_times_length _ 3 hx)
              (lang_seq_length _ _ 1 17 (lang_cls_length _)
                (lang_seq_length _ _ 1 16 (lang_cls_length _)
                  (lang_seq_length _ _ 3 13 (lang_times_length _ 3 hx)
                    (lang_seq_length _ _ 1 12 (lang_cls_length _)
                      (lang_times_length _ 12 hx)))))))))) id h1

theorem iso_length (t : JSString) (h : isoRegex.test t = true) : t.length = 24 := by
  have h1 := Regex.lang_of_test isoRegex t h
  have hx : ∀ s, Regex.Lang (.cls isDigit) s → s.length = 1 := lang_cls_length _
  exact lang_seq_length _ _ 4 20 (lang_times_length _ 4 hx)
    (lang_seq_length _ _ 1 19 (lang_cls_length _)
      (lang_seq_length _ _ 2 17 (lang_times_length _ 2 hx)
        (lang_seq_length _ _ 1 16 (lang_cls_length _)
          (lang_seq_length _ _ 2 14 (lang_times_length _ 2 hx)
            (lang_seq_length _ _ 1 13 (lang_cls_length _)
              (lang_seq_length _ _ 2 11 (lang_times_length _ 2 hx)
                (lang_seq_length _ _ 1 10 (lang_cls_length _)
                  (lang_seq_length _ _ 2 8 (lang_times_length _ 2 hx)
                    (lang_seq_length _ _ 1 7 (lang_cls_length _)
                      (lang_seq_length _ _ 2 5 (lang_times_length _ 2 hx)
                        (lang_seq_length _ _ 1 4 (lang_cls_length _)
                          (lang_seq_length _ _ 3 1 (lang_times_length _ 3 hx)
                            (lang_cls_length _))))))))))))) t h1

theorem writeNode_leaf_length (level : Nat) (n v : JSString) :
    (writeNode level (.element n [.text v])).length ≤ 2 * level + 2 * n.length + v.length + 6 := by
  rw [writeNode_leaf]
  split_ifs <;> simp [indent] <;> omega

/-- The document of a lookup request fits in the body limit of the peer. -/
theorem lookupDocument_small (opts : ParserOptions) (timestamp id : JSString)
    (hid : uuidRegex.test id = true) (hts : isoRegex.test timestamp = true) :
    (utf8Encode (writeDocument (.element (js "requisicao")
      ((lookupParts opts timestamp id).map Part.node)))).length ≤ BODY_LIMIT := by
  have h4 := utf8Encode_length_le (writeDocument (.element (js "requisicao")
      ((lookupParts opts timestamp id).map Part.node)))
  have hd : (writeDocument (.element (js "requisicao")
      ((lookupParts opts timestamp id).map Part.node))).length ≤ 1000 := by
    have e1 := writeNode_leaf_length 1 (js "tipo") (textEscape (js "CONSULTA_CLIENTE"))
    have e2 := writeNode_leaf_length 1 (js "timestamp") (textEscape timestamp)
    have e3 := writeNode_leaf_length (1 + 1) (js "clienteId") (textEscape id)
    rw [textEscape_plain _ (iso_plain _ hts)] at e2
    rw [textEscape_plain _ (uuid_plain _ hid)] at e3
    have l1 : (textEscape (js "CONSULTA_CLIENTE")).length = 16 := by decide
    have l2 : (js "tipo").length = 4 := by decide
    have l3 : (js "timestamp").length = 9 := by decide
    have l4 : (js "clienteId").length = 9 := by decide
    have l5 : (js "requisicao").length = 10 := by decide
    have l6 : (js "dados").length = 5 := by decide
    have l7 : xmlDeclaration.length = 38 := by decide
    have l8 := uuid_length id hid
    have l9 := iso_length timestamp hts
    rw [lookupParts, writeDocument_container _ _ _ ⟨_, _, rfl⟩]
    simp only [List.map_cons, List.map_nil, leafPart, containerPart, writeNodes,
      writeNode_container, List.length_append, List.length_cons, List.length_nil, indent,
      List.length_replicate, l5, l6, l7,
      textEscape_plain _ (iso_plain _ hts), textEscape_plain _ (uuid_plain _ hid)]
    omega
  unfold BODY_LIMIT
  omega

/-! ## Create, then look up -/

theorem lookupReply_found (C : BlockCipher) (key : Bytes)
    (now id nome email cpf dataCadastro : JSString) :
    lookupReply C key (.obj [(js "resposta", .obj [
        (js "status", .str (js "sucesso")),
        (js "mensagem", .str (js "Cliente encontrado")),
        (js "dados", .obj [(js "cliente",
          .obj (clienteObject (js "cpf_criptografado") id nome email cpf dataCadastro))]),
        (js "timestamp", .str now)])]) =
      match decrypt C key cpf with
      | .ok p =>
        .ok ⟨200, .obj [(js "success", .bool true),
          (js "cliente", .obj (clienteObject (js "cpf") id nome email p dataCadastro))]⟩
      | .error m => .error (JSError.ofMessage m) := by
  have h : lookupReply C key (.obj [(js "resposta", .obj [
        (js "status", .str (js "sucesso")),
        (js "mensagem", .str (js "Cliente encontrado")),
        (js "dados", .obj [(js "cliente",
          .obj (clienteObject (js "cpf_criptografado") id nome email cpf dataCadastro))]),
        (js "timestamp", .str now)])]) =
      match decryptClienteData C key
          (clienteObject (js "cpf") id nome email cpf dataCadastro) with
      | .error e => .error e
      | .ok decrypted => .ok ⟨200, .obj [(js "success", .bool true), (js "cliente", decrypted)]⟩ :=
    rfl
  rw [h, decryptClienteData_cliente]
  cases decrypt C key cpf with
  | error m => rfl
  | ok p => rfl

/-- Claim C4, as amended: with a key of 32 bytes and the peer behaving as
legacySystem does, a create request with a non-empty `nome`, a well-formed
email and an 11-digit cpf, whose `nome` and email hold only characters that
XML 1.0 allows and whose document stays within the body limit of the peer, is
answered 201 with the generated identifier, and a lookup of that identifier
afterwards is answered 200 with the record created, its `cpf` being the
plaintext. -/
theorem create_then_lookup (C : BlockCipher) (key : Bytes) (clientes : Store) (d : CreateDraws)
    (nome email cpf now1 timestamp2 now2 : JSString)
    (hk : key.length = 32) (hkb : IsBytes key) (hiv : d.iv.length = 16) (hivb : IsBytes d.iv)
    (hn : nome ≠ []) (he : emailRegex.test email = true) (hc : cpfRegex.test cpf = true)
    (hnome : LegalText nome) (hemail : LegalText email)
    (hlim : ∀ xml ∈ (createCliente C key (legacySystem now1) clientes d
      ⟨some nome, some email, some cpf⟩).sent, (utf8Encode xml).length ≤ BODY_LIMIT)
    (hcid : uuidRegex.test d.clienteId = true) (hdc : isoRegex.test d.dataCadastro = true)
    (hdt : isoRegex.test d.timestamp = true) (hnow1 : isoRegex.test now1 = true)
    (hts2 : isoRegex.test timestamp2 = true) (hnow2 : isoRegex.test now2 = true) :
    (createCliente C key (legacySystem now1) clientes d
      ⟨some nome, some email, some cpf⟩).response =
      some ⟨201, .obj [(js "success", .bool true),
        (js "message", .str (js "Cliente cadastrado com sucesso")),
        (js "clienteId", .str d.clienteId), (js "timestamp", .str d.responseTimestamp)]⟩ ∧
    (lookupCliente C key (legacySystem now2)
      (createCliente C key (legacySystem now1) clientes d
        ⟨some nome, some email, some cpf⟩).peerState
      timestamp2 d.clienteId).response =
      some ⟨200, .obj [(js "success", .bool true),
        (js "cliente", .obj [(js "id", .str d.clienteId), (js "nome", .str nome),
          (js "email", .str email), (js "cpf", .str cpf),
          (js "dataCadastro", .str d.dataCadastro)])]⟩ := by
  have hc1 := createCliente_posts ⟨true⟩ C key (legacySystem now1) clientes d nome email cpf hk
    hiv hivb hn he hc (legalText_of_uuid _ hcid) (legalText_of_iso _ hdc)
    (legalText_of_iso _ hdt) hnome hemail
  have hsize := hlim _ (by rw [hc1, createPost_sent]; exact List.mem_singleton.mpr rfl)
  have hp1 := (legacySystem_small now1 clientes _ hsize).trans
    (processar_create now1 clientes d.timestamp d.clienteId nome email
      (cipherText C key d.iv cpf) d.dataCadastro)
  have hc2 := createPost_resolved (legacySystem now1) clientes d _ 200 _ _ (.str (js "sucesso"))
    (by rw [hp1]; exact axiosPost_response _ _ (by decide)) (xmlToJson_ack d.clienteId now1 (uuid_plain _ hcid)
      (iso_plain _ hnow1)) rfl
  rw [hc1, hc2, hp1]
  refine ⟨rfl, ?_⟩
  simp only []
  have hl1 := lookupCliente_posts ⟨true⟩ C key (legacySystem now2)
    (setField d.clienteId (.obj (clienteObject (js "cpf_criptografado") d.clienteId nome email
      (cipherText C key d.iv cpf) d.dataCadastro)) clientes)
    timestamp2 d.clienteId hcid (legalText_of_iso _ hts2)
  have hp2 := (legacySystem_small now2
    (setField d.clienteId (.obj (clienteObject (js "cpf_criptografado") d.clienteId nome email
      (cipherText C key d.iv cpf) d.dataCadastro)) clientes) _
    (lookupDocument_small ⟨true⟩ timestamp2 d.clienteId hcid hts2)).trans
    (processar_lookup_found now2
      (setField d.clienteId (.obj (clienteObject (js "cpf_criptografado") d.clienteId nome email
        (cipherText C key d.iv cpf) d.dataCadastro)) clientes)
      timestamp2 d.clienteId d.clienteId nome email (cipherText C key d.iv cpf) d.dataCadastro
      (lookupField_setField _ _ _) (legalText_of_iso _ hnow2) (legalText_of_uuid _ hcid) hnome
      hemail (legalText_of_plain _ (cipherText_plain C key d.iv cpf hivb))
      (legalText_of_iso _ hdc))
  have hr : lookupReply C key _ = .ok _ :=
    (lookupReply_found C key now2 d.clienteId nome email (cipherText C key d.iv cpf)
      d.dataCadastro).trans (by
        rw [decrypt_cipherText C key d.iv cpf hk hkb hiv hivb
          (wellFormed_of_digits cpf (cpf_digits cpf hc))])
  rw [hl1, lookupPost_resolved C key (legacySystem now2) _ _ 200 _ _ _ (by rw [hp2]; exact axiosPost_response _ _ (by decide))
    (parse_foundReply now2 d.clienteId nome email (cipherText C key d.iv cpf) d.dataCadastro) hr]
  rfl

set_option maxRecDepth 100000 in
theorem create_then_lookup_witness :
    (createCliente shiftCipher (KEY_BUFFER none) (legacySystem (js "2024-01-01T00:00:00.003Z")) []
      sampleDraws anaBody).response =
      some ⟨201, .obj [(js "success", .bool true),
        (js "message", .str (js "Cliente cadastrado com sucesso")),
        (js "clienteId", .str sampleDraws.clienteId),
        (js "timestamp", .str sampleDraws.responseTimestamp)]⟩ ∧
    (lookupCliente shiftCipher (KEY_BUFFER none) (legacySystem (js "2024-01-01T00:00:00.009Z"))
      (createCliente shiftCipher (KEY_BUFFER none) (legacySystem (js "2024-01-01T00:00:00.003Z"))
        [] sampleDraws anaBody).peerState
      (js "2024-01-01T00:00:00.007Z") sampleDraws.clienteId).response =
      some ⟨200, .obj [(js "success", .bool true),
        (js "cliente", .obj [(js "id", .str sampleDraws.clienteId), (js "nome", .str (js "Ana")),
          (js "email", .str (js "ana@x.com")), (js "cpf", .str (js "12345678901")),
          (js "dataCadastro", .str sampleDraws.dataCadastro)])]⟩ :=
  create_then_lookup shiftCipher (KEY_BUFFER none) [] sampleDraws (js "Ana") (js "ana@x.com")
    (js "12345678901") (js "2024-01-01T00:00:00.003Z") (js "2024-01-01T00:00:00.007Z")
    (js "2024-01-01T00:00:00.009Z") (by decide) (by decide) (by decide) (by decide) (by decide)
    (by decide) (by decide) (by decide) (by decide)
    (by
      intro xml hx
      rw [createCliente_posts ⟨true⟩ shiftCipher (KEY_BUFFER none) _ [] sampleDraws
        (js "Ana") (js "ana@x.com") (js "12345678901") (by decide) (by decide) (by decide)
        (by decide) (by decide) (by decide) (by decide) (by decide) (by decide) (by decide)
        (by decide), createPost_sent] at hx
      rw [List.mem_singleton.mp hx]
      decide)
    (by decide) (by decide) (by decide) (by decide) (by decide) (by decide)

/-- Claim C4 as stated fails: the create request whose `nome` is the
one-character string U+0000 passes validation, `jsonToXml` throws, and the
handler answers 500 without posting anything to the peer. -/
theorem create_nul_nome :
    ∃ e, createCliente shiftCipher (KEY_BUFFER none)
        (legacySystem (js "2024-01-01T00:00:00.003Z"))
        [] sampleDraws ⟨some [0], some (js "ana@x.com"), some (js "12345678901")⟩ =
      ⟨some ⟨500, .obj [(js "success", .bool false),
        (js "message", .str (js "Erro ao cadastrar cliente")), (js "error", .str e)]⟩, [], []⟩ := by
  rw [createCliente_validated shiftCipher (KEY_BUFFER none) _ [] sampleDraws [0] (js "ana@x.com")
      (js "12345678901") (by decide) (by decide) (by decide),
    encrypt_eq shiftCipher (KEY_BUFFER none) sampleDraws.iv (js "12345678901") (by decide)
      (by decide)]
  simp only []
  rw [jsonToXml_createEnvelope_illegal _ _ _ _ _ _ (by decide) (by decide) (by decide)]
  exact ⟨_, rfl⟩

end Gateway
